import Mathlib

/-!
# Reservation lifecycle engine of cicoche-back

A shallow embedding of `src/services/reservations.service.js`, of the pricing
function of `src/services/quotes.service.js` and of the `chat:send` handler of
`src/socket.js`.

* Instants (`Date` values) are integers: milliseconds since the epoch.
* JavaScript numbers that carry money or fractional hours are exact rationals in
  `calcTotalPrice` and in the quote service: the statements made with them relate
  results of the same computation and do not depend on how a result is rounded.
  Where the rounded value itself is the subject, `calcTotalPriceFl` is the same
  function with every arithmetic operation rounded to binary64 by `fl`.
* The Prisma store is a record of row lists.  `findUnique` returns the first row
  with the key, `update` rewrites that row, `updateMany` rewrites every matching
  row and reports how many matched, `count` counts the matching rows.
* Every service operation takes the store and the value of `new Date()` and
  returns the store it leaves behind together with its result or thrown error.
  Socket emissions are not part of the store: the section on notifications gives,
  for each operation that emits, the list of its emissions as a separate function.
-/

namespace Cicoche

/-! ## Data model -/

/-- Milliseconds since the epoch, the value of `Date.getTime()`. -/
abbrev Time := Int

/-- Values of the `status` column of a reservation. -/
inductive Status where
  | PENDIENTE
  | ACEPTADA
  | RECHAZADA
  | CANCELADA
  | CHECKIN_SOLICITADO
  | EN_CURSO
  | FINALIZADA
  | EXPIRADA
deriving DecidableEq, Repr

/-- Billing mode selector.  `calcTotalPrice` compares its argument with the
strings HORA and DIA only; every other value takes the AUTO branch. -/
inductive BillingMode where
  | HORA
  | DIA
  | AUTO
deriving DecidableEq, Repr

/-- An error thrown by the service: `err.statusCode` and `err.message`. -/
structure ServiceError where
  statusCode : Nat
  message : String
deriving DecidableEq, Repr

/-- A row of the reservation table (the columns the service reads or writes). -/
structure Reservation where
  id : Int
  spaceId : Int
  occupantId : Int
  providerId : Int
  vehicleId : Option Int
  startAt : Time
  endAt : Time
  status : Status
  totalPrice : ℚ
  billingMode : BillingMode
  checkInDeadline : Option Time
  checkInAt : Option Time
  startedAt : Option Time
  endedAt : Option Time
  rejectReason : Option String
  cancelledReason : Option String
deriving DecidableEq

/-- A row of the space table (the columns the service selects). -/
structure Space where
  id : Int
  activo : Bool
  idPropietario : Int
  precioHora : Option ℚ
  precioDia : Option ℚ
  capacity : Option Int
  allowedVehicleTypes : List String
deriving DecidableEq

/-- A row of the vehicle table. -/
structure Vehicle where
  id : Int
  userId : Int
  type : String
deriving DecidableEq

/-- The store: the three tables and the autoincrement counter of reservation ids. -/
structure Db where
  reservations : List Reservation
  spaces : List Space
  vehicles : List Vehicle
  nextId : Int
deriving DecidableEq

/-! ## Constants and small helpers -/

/-- The constant `ACTIVE_STATUSES`. -/
def ACTIVE_STATUSES : List Status :=
  [Status.PENDIENTE, Status.ACEPTADA, Status.CHECKIN_SOLICITADO, Status.EN_CURSO]

/-- The constant `CAPACITY_STATUSES`. -/
def CAPACITY_STATUSES : List Status :=
  [Status.ACEPTADA, Status.CHECKIN_SOLICITADO, Status.EN_CURSO]

/-- The constant `DEFAULT_CHECKIN_TOLERANCE_MIN`. -/
def DEFAULT_CHECKIN_TOLERANCE_MIN : ℚ := 15

/-- The integer part kept by `new Date(ms)`: truncation toward zero. -/
def truncMs (x : ℚ) : Int := if 0 ≤ x then ⌊x⌋ else ⌈x⌉

/-- Embedding of `computeDeadline(startAt, minutes)`. -/
def computeDeadline (startAt : Time) (minutes : ℚ) : Time :=
  truncMs ((startAt : ℚ) + minutes * 60 * 1000)

/-- Embedding of `parseIntParam` on a numeric value. -/
def parseIntParam (value : Int) (name : String) : Except ServiceError Int :=
  if value ≤ 0 then .error ⟨400, "Parámetro inválido: " ++ name⟩ else .ok value

/-- White space as removed by `String.prototype.trim`. -/
def isJsWhitespace (c : Char) : Bool :=
  let n := c.toNat
  n = 0x9 || n = 0xA || n = 0xB || n = 0xC || n = 0xD || n = 0x20 || n = 0xA0
    || n = 0x1680 || (0x2000 ≤ n && n ≤ 0x200A) || n = 0x2028 || n = 0x2029
    || n = 0x202F || n = 0x205F || n = 0x3000 || n = 0xFEFF

/-- Embedding of `String.prototype.trim`. -/
def jsTrim (s : String) : String :=
  String.mk (((s.toList.dropWhile isJsWhitespace).reverse.dropWhile isJsWhitespace).reverse)

/-- Embedding of `ensureNonEmptyString`; `none` is a missing value. -/
def ensureNonEmptyString (value : Option String) (name : String) :
    Except ServiceError String :=
  let s := jsTrim (value.getD "")
  if s = "" then .error ⟨400, name ++ " es obligatorio"⟩ else .ok s

/-! ## Pricing calculator -/

/-- The constant `AUTO_DAY_THRESHOLD_HOURS`. -/
def AUTO_DAY_THRESHOLD_HOURS : ℚ := 8

/-- The constant `Number.EPSILON`, two to the power -52. -/
def EPSILON : ℚ := 1 / 2 ^ 52

/-- Embedding of `Math.round`: nearest integer, ties toward plus infinity. -/
def mathRound (x : ℚ) : Int := ⌊x + 1 / 2⌋

/-- Embedding of `round2` in exact arithmetic; `round2Fl` is the same function with
the binary64 rounding of each operation. -/
def round2 (n : ℚ) : ℚ := (mathRound ((n + EPSILON) * 100) : ℚ) / 100

/-- The object returned by `calcTotalPrice`. -/
structure Pricing where
  total : ℚ
  hours : ℚ
  days : Int
  used : BillingMode
deriving DecidableEq

/-- Embedding of `calcTotalPrice(space, startAt, endAt, billingMode)` of the
reservation service in exact arithmetic; the two rates are the fields `precioHora`
and `precioDia` of the space.  `calcTotalPriceFl` is the same function with the
binary64 rounding of each operation. -/
def calcTotalPrice (precioHora precioDia : Option ℚ) (startAt endAt : Time)
    (billingMode : BillingMode) : Pricing :=
  let priceHour : ℚ := precioHora.getD 0
  let priceDay : ℚ := precioDia.getD 0
  let diffMs : Int := endAt - startAt
  let hours : ℚ := max 0 ((diffMs : ℚ) / (1000 * 60 * 60))
  let daysForBilling : Int := max 1 ⌈hours / 24⌉
  let hourTotal : ℚ := hours * priceHour
  let dayTotal : ℚ := (daysForBilling : ℚ) * priceDay
  match billingMode with
  | BillingMode.HORA =>
      { total := round2 hourTotal, hours := hours, days := daysForBilling, used := BillingMode.HORA }
  | BillingMode.DIA =>
      { total := round2 dayTotal, hours := hours, days := daysForBilling, used := BillingMode.DIA }
  | BillingMode.AUTO =>
      let used := if AUTO_DAY_THRESHOLD_HOURS ≤ hours then BillingMode.DIA else BillingMode.HORA
      let total := if used = BillingMode.DIA then dayTotal else hourTotal
      { total := round2 total, hours := hours, days := daysForBilling, used := used }

/-! ## Store primitives -/

/-- Embedding of `reservation.findUnique` by id. -/
def findUnique (rs : List Reservation) (id : Int) : Option Reservation :=
  rs.find? (fun r => decide (r.id = id))

/-- Embedding of `reservation.update` by id: the row with the key is rewritten. -/
def updateUnique : List Reservation → Int → (Reservation → Reservation) → List Reservation
  | [], _, _ => []
  | r :: rs, id, f => if r.id = id then f r :: rs else r :: updateUnique rs id f

/-- Embedding of `reservation.updateMany`: the new rows and the number matched. -/
def updateMany (rs : List Reservation) (p : Reservation → Bool)
    (f : Reservation → Reservation) : List Reservation × Nat :=
  (rs.map (fun r => if p r then f r else r), rs.countP p)

/-- Embedding of `space.findUnique` by id. -/
def findSpace (ss : List Space) (id : Int) : Option Space :=
  ss.find? (fun s => decide (s.id = id))

/-! ## Availability guard -/

/-- The `where` object built by `assertCapacityAvailable`: the `id` clause is
added only when `excludeReservationId` is truthy (present and not zero). -/
def capacityWhere (spaceId : Int) (startAt endAt : Time) (excludeReservationId : Option Int)
    (r : Reservation) : Bool :=
  decide (r.spaceId = spaceId) && decide (r.status ∈ CAPACITY_STATUSES)
    && (decide (r.startAt < endAt) && decide (r.endAt > startAt))
    && (match excludeReservationId with
        | some x => if x = 0 then true else decide (r.id ≠ x)
        | none => true)

/-- The value `Number(capacity || 1)`, with the default `capacity = 1` of a
missing argument. -/
def capacityOrOne (capacity : Option Int) : Int :=
  match capacity with
  | none => 1
  | some c => if c = 0 then 1 else c

/-- Embedding of `assertCapacityAvailable`. -/
def assertCapacityAvailable (db : Db) (spaceId : Int) (startAt endAt : Time)
    (capacity : Option Int) (excludeReservationId : Option Int) : Except ServiceError Nat :=
  let overlapCount := db.reservations.countP (capacityWhere spaceId startAt endAt excludeReservationId)
  if (overlapCount : Int) ≥ capacityOrOne capacity then
    .error ⟨409, "No hay cupo disponible en ese horario."⟩
  else
    .ok overlapCount

/-! ## Service operations -/

/-- Embedding of `create`.  `none` for a date stands for a value `toDate` cannot
parse; `none` for the vehicle stands for a missing `vehicleId`. -/
def create (db : Db) (now : Time) (occupantId spaceId : Int) (startAt endAt : Option Time)
    (billingMode : BillingMode) (vehicleId : Option Int) :
    Db × Except ServiceError Reservation :=
  match startAt, endAt with
  | some start, some end_ =>
    if start ≥ end_ then
      (db, .error ⟨400, "Rango inválido (startAt debe ser menor que endAt)."⟩)
    else if start < now then
      (db, .error ⟨400, "No puedes reservar en una fecha pasada."⟩)
    else
      match vehicleId with
      | none => (db, .error ⟨400, "Selecciona el vehículo con el que vas a reservar."⟩)
      | some v =>
        match parseIntParam v "vehicleId" with
        | .error err => (db, .error err)
        | .ok vId =>
          match findSpace db.spaces spaceId with
          | none => (db, .error ⟨404, "Espacio no disponible."⟩)
          | some space =>
            if space.activo = false then
              (db, .error ⟨404, "Espacio no disponible."⟩)
            else if space.idPropietario = occupantId then
              (db, .error ⟨400, "No puedes reservar tu propio espacio."⟩)
            else
              match db.vehicles.find? (fun x => decide (x.id = vId) && decide (x.userId = occupantId)) with
              | none => (db, .error ⟨400, "Vehículo inválido o no pertenece al usuario."⟩)
              | some vehicle =>
                if space.allowedVehicleTypes.length > 0
                    ∧ space.allowedVehicleTypes.any (fun x => decide (x = vehicle.type)) = false then
                  (db, .error ⟨400, "El espacio no acepta ese tipo de vehículo."⟩)
                else
                  match assertCapacityAvailable db space.id start end_
                      (some (space.capacity.getD 1)) none with
                  | .error err => (db, .error err)
                  | .ok _ =>
                    let pricing := calcTotalPrice space.precioHora space.precioDia start end_ billingMode
                    let row : Reservation :=
                      { id := db.nextId
                        spaceId := space.id
                        occupantId := occupantId
                        providerId := space.idPropietario
                        vehicleId := some vehicle.id
                        startAt := start
                        endAt := end_
                        status := Status.PENDIENTE
                        totalPrice := pricing.total
                        billingMode := pricing.used
                        checkInDeadline := none
                        checkInAt := none
                        startedAt := none
                        endedAt := none
                        rejectReason := none
                        cancelledReason := none }
                    ({ db with reservations := db.reservations ++ [row], nextId := db.nextId + 1 },
                      .ok row)
  | _, _ => (db, .error ⟨400, "Fechas inválidas."⟩)

/-- Embedding of `cancel`; `none` is a missing reason. -/
def cancel (db : Db) (now : Time) (occupantId reservationId : Int) (reason : Option String) :
    Db × Except ServiceError Reservation :=
  match parseIntParam reservationId "reservationId" with
  | .error err => (db, .error err)
  | .ok id =>
    let cleanReason : Option String :=
      match reason with
      | none => none
      | some s => if s = "" then none else some (jsTrim s)
    match findUnique db.reservations id with
    | none => (db, .error ⟨404, "Reserva no encontrada."⟩)
    | some reservation =>
      if reservation.occupantId ≠ occupantId then
        (db, .error ⟨403, "No autorizado."⟩)
      else if ¬ (reservation.status = Status.PENDIENTE ∨ reservation.status = Status.ACEPTADA) then
        (db, .error ⟨400, "Solo se pueden cancelar reservas PENDIENTE o ACEPTADA."⟩)
      else if reservation.startAt < now then
        (db, .error ⟨400, "No puedes cancelar una reserva que ya inició."⟩)
      else
        let upd : Reservation → Reservation :=
          fun r => { r with status := Status.CANCELADA, cancelledReason := cleanReason }
        ({ db with reservations := updateUnique db.reservations id upd }, .ok (upd reservation))

/-- The rows counted by `accept` as already holding capacity against the
reservation being accepted. -/
def acceptedWhere (id : Int) (reservation : Reservation) (r : Reservation) : Bool :=
  decide (r.id ≠ id) && decide (r.spaceId = reservation.spaceId)
    && decide (r.status ∈ [Status.ACEPTADA, Status.CHECKIN_SOLICITADO, Status.EN_CURSO])
    && (decide (r.startAt < reservation.endAt) && decide (r.endAt > reservation.startAt))

/-- The pending rows `accept` rejects once capacity is reached. -/
def pendingOverlapWhere (reservation : Reservation) (r : Reservation) : Bool :=
  decide (r.spaceId = reservation.spaceId) && decide (r.status = Status.PENDIENTE)
    && (decide (r.startAt < reservation.endAt) && decide (r.endAt > reservation.startAt))
    && !decide (r.id = reservation.id)

/-- The `data` written by `accept` on the accepted row. -/
def acceptData (deadline : Time) (r : Reservation) : Reservation :=
  { r with status := Status.ACEPTADA, rejectReason := none, checkInDeadline := some deadline }

/-- The `data` written by `accept` on the pending rows it rejects. -/
def capacityRejectData (r : Reservation) : Reservation :=
  { r with status := Status.RECHAZADA, rejectReason := some "Cupo ocupado (capacidad alcanzada)" }

/-- Embedding of `accept`.  The body runs in one transaction: a throw leaves the
store as it was. -/
def accept (db : Db) (now : Time) (providerId reservationId : Int) :
    Db × Except ServiceError (Option Reservation) :=
  match parseIntParam reservationId "reservationId" with
  | .error err => (db, .error err)
  | .ok id =>
    match findUnique db.reservations id with
    | none => (db, .error ⟨404, "Reserva no encontrada."⟩)
    | some reservation =>
      if reservation.providerId ≠ providerId then
        (db, .error ⟨403, "No autorizado."⟩)
      else if reservation.status ≠ Status.PENDIENTE then
        (db, .error ⟨409, "Solo se pueden aceptar reservas PENDIENTE."⟩)
      else if reservation.startAt < now then
        (db, .error ⟨400, "No puedes aceptar una reserva en fecha pasada."⟩)
      else
        match findSpace db.spaces reservation.spaceId with
        | none => (db, .error ⟨404, "Espacio no encontrado."⟩)
        | some space =>
          if space.idPropietario ≠ providerId then
            (db, .error ⟨403, "El espacio no pertenece al prestador."⟩)
          else
            let capacity : Int := space.capacity.getD 1
            let acceptedCount : Nat := db.reservations.countP (acceptedWhere id reservation)
            if (acceptedCount : Int) ≥ capacity then
              (db, .error ⟨409, "No se puede aceptar: se alcanzó la capacidad en ese horario."⟩)
            else
              let deadline := computeDeadline reservation.startAt DEFAULT_CHECKIN_TOLERANCE_MIN
              let updated := updateMany db.reservations
                (fun r => decide (r.id = id) && decide (r.status = Status.PENDIENTE))
                (acceptData deadline)
              if updated.2 ≠ 1 then
                (db, .error ⟨409, "No se pudo aceptar; la reserva ya fue atendida por otra acción."⟩)
              else
                let acceptedNow : Int := (acceptedCount : Int) + 1
                let rows :=
                  if acceptedNow ≥ capacity then
                    (updateMany updated.1 (pendingOverlapWhere reservation) capacityRejectData).1
                  else updated.1
                ({ db with reservations := rows }, .ok (findUnique rows id))

/-- Embedding of `reject`; `none` is a missing reason. -/
def reject (db : Db) (providerId reservationId : Int) (reason : Option String) :
    Db × Except ServiceError (Option Reservation) :=
  match parseIntParam reservationId "reservationId" with
  | .error err => (db, .error err)
  | .ok id =>
    match ensureNonEmptyString reason "El motivo de rechazo" with
    | .error err => (db, .error err)
    | .ok cleanReason =>
      match findUnique db.reservations id with
      | none => (db, .error ⟨404, "Reserva no encontrada."⟩)
      | some reservation =>
        if reservation.providerId ≠ providerId then
          (db, .error ⟨403, "No autorizado."⟩)
        else if reservation.status ≠ Status.PENDIENTE then
          (db, .error ⟨409, "Solo se pueden rechazar reservas PENDIENTE."⟩)
        else
          match findSpace db.spaces reservation.spaceId with
          | none => (db, .error ⟨404, "Espacio no encontrado."⟩)
          | some space =>
            if space.idPropietario ≠ providerId then
              (db, .error ⟨403, "El espacio no pertenece al prestador."⟩)
            else
              let updated := updateMany db.reservations
                (fun r => decide (r.id = id) && decide (r.status = Status.PENDIENTE))
                (fun r => { r with status := Status.RECHAZADA, rejectReason := some cleanReason })
              if updated.2 ≠ 1 then
                (db, .error ⟨409, "No se pudo rechazar; la reserva ya fue atendida por otra acción."⟩)
              else
                ({ db with reservations := updated.1 }, .ok (findUnique updated.1 id))

/-- Embedding of `checkIn`.  `toleranceMinutes` is `none` when `Number` of the
argument is not finite. -/
def checkIn (db : Db) (now : Time) (occupantId reservationId : Int)
    (toleranceMinutes : Option ℚ) : Db × Except ServiceError Reservation :=
  match parseIntParam reservationId "reservationId" with
  | .error err => (db, .error err)
  | .ok id =>
    let tolMin : ℚ :=
      match toleranceMinutes with
      | some tol => if tol > 0 then tol else 15
      | none => 15
    match findUnique db.reservations id with
    | none => (db, .error ⟨404, "Reserva no encontrada."⟩)
    | some r =>
      if r.occupantId ≠ occupantId then
        (db, .error ⟨403, "No autorizado."⟩)
      else if r.status ≠ Status.ACEPTADA then
        (db, .error ⟨409, "Solo puedes marcar llegada cuando la reserva está ACEPTADA."⟩)
      else
        let deadline : Time := r.checkInDeadline.getD (computeDeadline r.startAt tolMin)
        if now > deadline then
          let exp : Reservation → Reservation :=
            fun x => { x with status := Status.EXPIRADA, checkInDeadline := some deadline }
          ({ db with reservations := updateUnique db.reservations id exp },
            .error ⟨409, "Se venció el tiempo de tolerancia para llegar."⟩)
        else
          let upd : Reservation → Reservation :=
            fun x => { x with checkInAt := some now, checkInDeadline := some deadline,
                              status := Status.CHECKIN_SOLICITADO }
          ({ db with reservations := updateUnique db.reservations id upd }, .ok (upd r))

/-- Embedding of `startStay`. -/
def startStay (db : Db) (now : Time) (providerId reservationId : Int) :
    Db × Except ServiceError Reservation :=
  match parseIntParam reservationId "reservationId" with
  | .error err => (db, .error err)
  | .ok id =>
    match findUnique db.reservations id with
    | none => (db, .error ⟨404, "Reserva no encontrada."⟩)
    | some r =>
      if r.providerId ≠ providerId then
        (db, .error ⟨403, "No autorizado."⟩)
      else if (match r.checkInDeadline with
               | some d => decide (now > d)
               | none => false) = true ∧ r.status ≠ Status.EN_CURSO then
        let exp : Reservation → Reservation := fun x => { x with status := Status.EXPIRADA }
        ({ db with reservations := updateUnique db.reservations id exp },
          .error ⟨409, "No se puede iniciar: tolerancia vencida (reserva expirada)."⟩)
      else if r.status ≠ Status.CHECKIN_SOLICITADO then
        (db, .error ⟨409, "Solo puedes iniciar cuando el ocupante marcó llegada."⟩)
      else if r.startedAt.isSome then
        (db, .error ⟨409, "La estancia ya fue iniciada."⟩)
      else
        let upd : Reservation → Reservation :=
          fun x => { x with startedAt := some now, status := Status.EN_CURSO }
        ({ db with reservations := updateUnique db.reservations id upd }, .ok (upd r))

/-- Embedding of `finishStay`.  The included `space` is the row the reservation
references; a missing one makes `calcTotalPrice` throw a `TypeError`, an error
without a `statusCode` (written 0 here). -/
def finishStay (db : Db) (now : Time) (providerId reservationId : Int) :
    Db × Except ServiceError Reservation :=
  match parseIntParam reservationId "reservationId" with
  | .error err => (db, .error err)
  | .ok id =>
    match findUnique db.reservations id with
    | none => (db, .error ⟨404, "Reserva no encontrada."⟩)
    | some r =>
      if r.providerId ≠ providerId then
        (db, .error ⟨403, "No autorizado."⟩)
      else if r.status ≠ Status.EN_CURSO then
        (db, .error ⟨409, "Solo puedes finalizar una reserva EN_CURSO."⟩)
      else
        match r.startedAt with
        | none => (db, .error ⟨500, "No hay startedAt. No se puede calcular el tiempo real."⟩)
        | some startedAt =>
          match findSpace db.spaces r.spaceId with
          | none => (db, .error ⟨0, "TypeError"⟩)
          | some space =>
            let pricing := calcTotalPrice space.precioHora space.precioDia startedAt now r.billingMode
            let upd : Reservation → Reservation :=
              fun x => { x with endedAt := some now, status := Status.FINALIZADA,
                                totalPrice := pricing.total }
            ({ db with reservations := updateUnique db.reservations id upd }, .ok (upd r))

/-- The `whereBase` objects the listing functions pass to the sweeper. -/
inductive WhereBase where
  | occupantId (n : Int)
  | providerId (n : Int)
deriving DecidableEq

/-- Whether a row satisfies a `whereBase` filter. -/
def WhereBase.holds : WhereBase → Reservation → Bool
  | WhereBase.occupantId n, r => decide (r.occupantId = n)
  | WhereBase.providerId n, r => decide (r.providerId = n)

/-- The `findMany` filter of the sweeper. -/
def expiredWhere (whereBase : WhereBase) (now : Time) (r : Reservation) : Bool :=
  whereBase.holds r && decide (r.status = Status.ACEPTADA) && r.checkInAt.isNone
    && (match r.checkInDeadline with
        | some d => decide (d < now)
        | none => false)

/-- Embedding of `expireAcceptedPastDeadline`: the store left and the number returned. -/
def expireAcceptedPastDeadline (db : Db) (now : Time) (whereBase : WhereBase) : Db × Nat :=
  let expired := db.reservations.filter (expiredWhere whereBase now)
  if expired.length = 0 then (db, 0)
  else
    let ids := expired.map (fun x => x.id)
    let updated := updateMany db.reservations (fun r => decide (r.id ∈ ids))
      (fun r => { r with status := Status.EXPIRADA })
    ({ db with reservations := updated.1 }, expired.length)

/-! ## Calls and runs -/

/-- A call of one service operation, with the clock value it observes. -/
inductive ServiceCall where
  | create (now : Time) (occupantId spaceId : Int) (startAt endAt : Option Time)
      (billingMode : BillingMode) (vehicleId : Option Int)
  | cancel (now : Time) (occupantId reservationId : Int) (reason : Option String)
  | accept (now : Time) (providerId reservationId : Int)
  | reject (providerId reservationId : Int) (reason : Option String)
  | checkIn (now : Time) (occupantId reservationId : Int) (toleranceMinutes : Option ℚ)
  | startStay (now : Time) (providerId reservationId : Int)
  | finishStay (now : Time) (providerId reservationId : Int)
  | expireAcceptedPastDeadline (now : Time) (whereBase : WhereBase)

/-- The store a call leaves behind, whether it returns or throws. -/
def ServiceCall.run : ServiceCall → Db → Db
  | ServiceCall.create now o s a b m v, db => (Cicoche.create db now o s a b m v).1
  | ServiceCall.cancel now o r reason, db => (Cicoche.cancel db now o r reason).1
  | ServiceCall.accept now p r, db => (Cicoche.accept db now p r).1
  | ServiceCall.reject p r reason, db => (Cicoche.reject db p r reason).1
  | ServiceCall.checkIn now o r t, db => (Cicoche.checkIn db now o r t).1
  | ServiceCall.startStay now p r, db => (Cicoche.startStay db now p r).1
  | ServiceCall.finishStay now p r, db => (Cicoche.finishStay db now p r).1
  | ServiceCall.expireAcceptedPastDeadline now w, db =>
      (Cicoche.expireAcceptedPastDeadline db now w).1

/-- Whether a call is a `create` or an `accept`. -/
def ServiceCall.isCreateOrAccept : ServiceCall → Bool
  | ServiceCall.create .. => true
  | ServiceCall.accept .. => true
  | _ => false

/-- The store after a sequence of calls made one after the other. -/
def runCalls (calls : List ServiceCall) (db : Db) : Db :=
  calls.foldl (fun d c => c.run d) db

/-! ## Definitions that follow the specification -/

/-- Rounding to two decimals, ties upward, as the specification words it:
the nearest multiple of one hundredth, a half cent going up. -/
def roundHalfUp2 (x : ℚ) : ℚ := ((⌊x * 100 + 1 / 2⌋ : Int) : ℚ) / 100

/-- The number of reservations the Availability Guard counts, in the words of
the specification: rows of the space in ACEPTADA, CHECKIN_SOLICITADO or EN_CURSO,
other than the excluded one, with `existing.start < end` and `existing.end > start`. -/
def overlapCountSpec (rs : List Reservation) (spaceId : Int) (startAt endAt : Time)
    (excluded : Option Int) : Nat :=
  (rs.filter (fun r =>
    decide (r.spaceId = spaceId
      ∧ (r.status = Status.ACEPTADA ∨ r.status = Status.CHECKIN_SOLICITADO
          ∨ r.status = Status.EN_CURSO)
      ∧ excluded ≠ some r.id
      ∧ r.startAt < endAt ∧ r.endAt > startAt))).length

/-- A pending reservation over the hours 1 to 2 on space 1, used in examples. -/
def examplePending : Reservation :=
  { id := 1, spaceId := 1, occupantId := 20, providerId := 10, vehicleId := some 5
    startAt := 3600000, endAt := 7200000, status := Status.PENDIENTE
    totalPrice := 10, billingMode := BillingMode.HORA
    checkInDeadline := none, checkInAt := none, startedAt := none, endedAt := none
    rejectReason := none, cancelledReason := none }

/-- Space 1 of provider 10: capacity 1, 10 per hour, 50 per day. -/
def exampleSpace : Space :=
  { id := 1, activo := true, idPropietario := 10, precioHora := some 10, precioDia := some 50
    capacity := some 1, allowedVehicleTypes := [] }

/-- A store holding `exampleSpace`, two vehicles and the given reservation rows. -/
def exampleDb (rs : List Reservation) : Db :=
  { reservations := rs, spaces := [exampleSpace]
    vehicles := [⟨5, 20, "COCHE"⟩, ⟨6, 21, "COCHE"⟩], nextId := 100 }

/-- The number of reservations of a space that overlap an interval and are in the
active set PENDIENTE, ACEPTADA, CHECKIN_SOLICITADO, EN_CURSO, as the
specification words the check made by `create`. -/
def activeOverlapCount (rs : List Reservation) (spaceId : Int) (startAt endAt : Time) : Nat :=
  (rs.filter (fun r =>
    decide (r.spaceId = spaceId ∧ r.status ∈ ACTIVE_STATUSES
      ∧ r.startAt < endAt ∧ r.endAt > startAt))).length

/-- A full stay on `exampleSpace`: booked, accepted, checked in, started and
finished, after which the provider calls `startStay` once more. -/
def finishedThenStart : List ServiceCall :=
  [ ServiceCall.create 0 20 1 (some 3600000) (some 7200000) BillingMode.AUTO (some 5),
    ServiceCall.accept 1 10 100,
    ServiceCall.checkIn 3700000 20 100 none,
    ServiceCall.startStay 3800000 10 100,
    ServiceCall.finishStay 7000000 10 100,
    ServiceCall.startStay 7100000 10 100 ]

/-- A booking that is accepted and then cancelled by its occupant before it starts. -/
def acceptedThenCancelled : List ServiceCall :=
  [ ServiceCall.create 0 20 1 (some 3600000) (some 7200000) BillingMode.AUTO (some 5),
    ServiceCall.accept 1 10 100,
    ServiceCall.cancel 2 20 100 none ]

/-- The rows `accept` leaves when it succeeds on reservation `reservation` with
key `id`: the conditional update, then the rejection of overlapping pending rows
when `acceptedCount + 1` reaches the capacity. -/
def acceptRows (rs : List Reservation) (id : Int) (reservation : Reservation) (capacity : Int) :
    List Reservation :=
  if ((rs.countP (acceptedWhere id reservation) : Nat) : Int) + 1 ≥ capacity then
    (updateMany
      (updateMany rs (fun r => decide (r.id = id) && decide (r.status = Status.PENDIENTE))
        (acceptData (computeDeadline reservation.startAt DEFAULT_CHECKIN_TOLERANCE_MIN))).1
      (pendingOverlapWhere reservation) capacityRejectData).1
  else
    (updateMany rs (fun r => decide (r.id = id) && decide (r.status = Status.PENDIENTE))
      (acceptData (computeDeadline reservation.startAt DEFAULT_CHECKIN_TOLERANCE_MIN))).1

deriving instance DecidableEq for Except

/-- The row `examplePending` once accepted: deadline 15 minutes after its start. -/
def exampleAccepted : Reservation :=
  { examplePending with status := Status.ACEPTADA, checkInDeadline := some 4500000 }

/-- The number of capacity-consuming reservations on the space of `R` that
overlap the interval of `R`, in the words of the specification. -/
def consumedOver (rs : List Reservation) (R : Reservation) : Nat :=
  (rs.filter (fun r =>
    decide (r.spaceId = R.spaceId
      ∧ (r.status = Status.ACEPTADA ∨ r.status = Status.CHECKIN_SOLICITADO
          ∨ r.status = Status.EN_CURSO)
      ∧ r.startAt < R.endAt ∧ r.endAt > R.startAt))).length

/-- The number of capacity-consuming reservations of a space that cover the
instant `t`, a reservation covering the instants from `startAt` up to but not
including `endAt`. -/
def coveringCount (rs : List Reservation) (spaceId : Int) (t : Time) : Nat :=
  (rs.filter (fun r =>
    decide (r.spaceId = spaceId
      ∧ (r.status = Status.ACEPTADA ∨ r.status = Status.CHECKIN_SOLICITADO
          ∨ r.status = Status.EN_CURSO)
      ∧ r.startAt ≤ t ∧ t < r.endAt))).length

/-- Key integrity of the reservation table: ids are pairwise distinct (primary
key) and below the autoincrement counter. -/
def Db.keysOk (db : Db) : Prop :=
  (db.reservations.map (fun r => r.id)).Nodup ∧ ∀ r ∈ db.reservations, r.id < db.nextId

/-- Two occupants book the same hour on `exampleSpace`; the provider then accepts
both requests in turn. -/
def twoBookingsBothAccepted : List ServiceCall :=
  [ ServiceCall.create 0 20 1 (some 3600000) (some 7200000) BillingMode.AUTO (some 5),
    ServiceCall.create 0 21 1 (some 3600000) (some 7200000) BillingMode.AUTO (some 6),
    ServiceCall.accept 1 10 100,
    ServiceCall.accept 2 10 101 ]

/-- A second pending row for the same hour as `examplePending`, by occupant 21. -/
def examplePendingTwo : Reservation :=
  { examplePending with id := 2, occupantId := 21, vehicleId := some 6 }

/-- A third pending row, over hours 2 to 3, which only touches the first hour. -/
def examplePendingLater : Reservation :=
  { examplePending with id := 3, startAt := 7200000, endAt := 10800000 }

/-- The row `examplePendingTwo` once rejected because capacity was reached. -/
def exampleRejectedTwo : Reservation :=
  { examplePendingTwo with status := Status.RECHAZADA,
                           rejectReason := some "Cupo ocupado (capacidad alcanzada)" }

/-- The accepted example row once its occupant has checked in at 1 h 1 min 40 s. -/
def exampleCheckedIn : Reservation :=
  { exampleAccepted with checkInAt := some 3700000, status := Status.CHECKIN_SOLICITADO }

/-- The checked-in example row once the provider has started the stay. -/
def exampleRunning : Reservation :=
  { exampleCheckedIn with startedAt := some 3800000, status := Status.EN_CURSO }

/-- A reason is blank, in the words of the specification, when it is missing,
empty or made of white space only. -/
def isBlankReason (reason : Option String) : Bool :=
  match reason with
  | none => true
  | some s => s.toList.all isJsWhitespace

/-- The example store with the rates of the finish-pricing scenario: 20 per hour
and 100 per day, no reservation yet. -/
def rateDb : Db :=
  { reservations := []
    spaces := [{ exampleSpace with precioHora := some 20, precioDia := some 100 }]
    vehicles := [⟨5, 20, "COCHE"⟩, ⟨6, 21, "COCHE"⟩], nextId := 100 }

/-- A booking in AUTO mode for one hour whose actual stay lasts ten hours. -/
def shortBookingLongStay : List ServiceCall :=
  [ ServiceCall.create 0 20 1 (some 3600000) (some 7200000) BillingMode.AUTO (some 5),
    ServiceCall.accept 1 10 100,
    ServiceCall.checkIn 3700000 20 100 none,
    ServiceCall.startStay 3800000 10 100,
    ServiceCall.finishStay 39800000 10 100 ]

/-- A booking in AUTO mode for nine hours whose actual stay lasts ten hours. -/
def longBookingLongStay : List ServiceCall :=
  [ ServiceCall.create 0 20 1 (some 3600000) (some 36000000) BillingMode.AUTO (some 5),
    ServiceCall.accept 1 10 100,
    ServiceCall.checkIn 3700000 20 100 none,
    ServiceCall.startStay 3800000 10 100,
    ServiceCall.finishStay 39800000 10 100 ]

/-! ## Quote service (`src/services/quotes.service.js`) -/

/-- Embedding of `ceilDiv(a, b)`: `Math.floor((a + b - 1) / b)`. -/
def Quotes.ceilDiv (a b : Int) : Int := ⌊(((a + b - 1 : Int) : ℚ)) / (b : ℚ)⌋

/-- Embedding of `calcTotalPrice(space, startAt, endAt)` of the quote service.  The
value `Number.POSITIVE_INFINITY` of `byDay` is `none`. -/
def Quotes.calcTotalPrice (precioHora precioDia : Option ℚ) (startAt endAt : Time) : ℚ :=
  let priceHour : ℚ := precioHora.getD 0
  let priceDay : ℚ := precioDia.getD 0
  let ms : Int := endAt - startAt
  let minutes : Int := ⌈(ms : ℚ) / 60000⌉
  let hours : Int := Quotes.ceilDiv minutes 60
  let days : Int := Quotes.ceilDiv hours 24
  let byHour : ℚ := (hours : ℚ) * priceHour
  let byDay : Option ℚ := if priceDay > 0 then some ((days : ℚ) * priceDay) else none
  let total : ℚ :=
    match byDay with
    | some d => min byHour d
    | none => byHour
  (mathRound (total * 100) : ℚ) / 100

/-- The object returned by `quote`; the dates are returned as they were parsed. -/
structure Quotes.Quote where
  totalPrice : ℚ
  currency : String
  startAt : Time
  endAt : Time
deriving DecidableEq

/-- Embedding of `quote`; `none` for a date stands for a value `toDate` cannot parse. -/
def Quotes.quote (db : Db) (now : Time) (spaceId : Int) (startAt endAt : Option Time) :
    Except ServiceError Quotes.Quote :=
  match startAt, endAt with
  | some start, some end_ =>
    if start ≥ end_ then
      .error ⟨400, "Rango inválido (startAt debe ser menor que endAt)."⟩
    else if start < now then
      .error ⟨400, "No puedes cotizar en una fecha pasada."⟩
    else
      match findSpace db.spaces spaceId with
      | none => .error ⟨404, "Espacio no disponible."⟩
      | some space =>
        if space.activo = false then
          .error ⟨404, "Espacio no disponible."⟩
        else
          .ok { totalPrice := Quotes.calcTotalPrice space.precioHora space.precioDia start end_
                currency := "MXN", startAt := start, endAt := end_ }
  | _, _ => .error ⟨400, "Fechas inválidas."⟩

/-- The quote in the words of the specification: the smaller of the total billed
by whole hours rounded up and the total billed by whole days rounded up, rounded
to two decimals. -/
def quoteSpec (pricePerHour pricePerDay : ℚ) (startAt endAt : Time) : ℚ :=
  roundHalfUp2 (min ((⌈((endAt - startAt : Int) : ℚ) / 3600000⌉ : ℚ) * pricePerHour)
    ((⌈((endAt - startAt : Int) : ℚ) / 86400000⌉ : ℚ) * pricePerDay))

/-! ## Realtime gateway: the chat channel (`src/socket.js`)

Joining rooms and emitting to rooms are not part of the stored state and are left
out; the clock readings of one `chat:send` are taken equal. -/

/-- A row of the chat message table. -/
structure ChatMessage where
  id : Int
  reservationId : Int
  senderId : Int
  body : String
  type : String
  createdAt : Time
deriving DecidableEq

/-- A row of the read-cursor table, keyed by reservation and user. -/
structure ChatReadState where
  reservationId : Int
  userId : Int
  lastReadMessageId : Int
  lastReadAt : Time
deriving DecidableEq

/-- The chat tables and the autoincrement counter of message ids. -/
structure ChatDb where
  messages : List ChatMessage
  readStates : List ChatReadState
  nextMessageId : Int
deriving DecidableEq

/-- The object passed to the acknowledgment callback; absent keys are `none`. -/
structure Ack where
  ok : Bool
  error : Option String
  code : Option Nat
  status : Option Status
  message : Option ChatMessage
deriving DecidableEq

/-- An error thrown by `assertParticipant`: `err.message` and `err.code`. -/
structure ChatError where
  message : String
  code : Nat
deriving DecidableEq

/-- Embedding of `canSendChat`. -/
def canSendChat (status : Status) : Bool :=
  decide (status ∈ [Status.ACEPTADA, Status.CHECKIN_SOLICITADO, Status.EN_CURSO])

/-- Embedding of `assertParticipant`. -/
def assertParticipant (db : Db) (reservationId userId : Int) : Except ChatError Reservation :=
  match findUnique db.reservations reservationId with
  | none => .error ⟨"RESERVATION_NOT_FOUND", 404⟩
  | some r =>
    if ¬ (r.occupantId = userId ∨ r.providerId = userId) then .error ⟨"FORBIDDEN", 403⟩
    else .ok r

/-- Embedding of `upsertRead`: the cursor of the pair is rewritten, or created
when the pair has none. -/
def upsertRead (chat : ChatDb) (now : Time) (reservationId userId lastReadMessageId : Int) :
    ChatDb :=
  if chat.readStates.any
      (fun s => decide (s.reservationId = reservationId) && decide (s.userId = userId)) then
    { chat with readStates := chat.readStates.map (fun s =>
        if s.reservationId = reservationId ∧ s.userId = userId then
          { s with lastReadMessageId := lastReadMessageId, lastReadAt := now }
        else s) }
  else
    { chat with readStates := chat.readStates ++ [⟨reservationId, userId, lastReadMessageId, now⟩] }

/-- The `length` of a JavaScript string: UTF-16 code units. -/
def jsLength (s : String) : Nat :=
  (s.toList.map (fun c => if c.toNat ≥ 0x10000 then 2 else 1)).sum

/-- Embedding of the `chat:send` handler for the connected user `userId`: the chat
tables it leaves and the acknowledgment it sends.  `none` is a missing body. -/
def chatSend (db : Db) (chat : ChatDb) (now : Time) (userId reservationId : Int)
    (body : Option String) : ChatDb × Ack :=
  let text := jsTrim (body.getD "")
  if text = "" then
    (chat, { ok := false, error := some "EMPTY_MESSAGE", code := none, status := none,
             message := none })
  else if jsLength text > 1000 then
    (chat, { ok := false, error := some "TOO_LONG", code := none, status := none,
             message := none })
  else
    match assertParticipant db reservationId userId with
    | .error e =>
      (chat, { ok := false, error := some e.message
               code := some (if e.code = 0 then 500 else e.code), status := none
               message := none })
    | .ok r =>
      if canSendChat r.status = false then
        (chat, { ok := false, error := some "CHAT_DISABLED_FOR_STATUS", code := none
                 status := some r.status, message := none })
      else
        let msg : ChatMessage :=
          { id := chat.nextMessageId, reservationId := reservationId, senderId := userId
            body := text, type := "TEXT", createdAt := now }
        let stored : ChatDb :=
          { chat with messages := chat.messages ++ [msg]
                      nextMessageId := chat.nextMessageId + 1 }
        (upsertRead stored now reservationId userId msg.id,
          { ok := true, error := none, code := none, status := none, message := some msg })

/-- An empty chat store. -/
def emptyChat : ChatDb := { messages := [], readStates := [], nextMessageId := 1 }

/-! ## Row transitions -/

/-- The reservation id a call accepts: the id of an `accept` call that returns. -/
def ServiceCall.accepted (c : ServiceCall) (db : Db) : Option Int :=
  match c with
  | ServiceCall.accept now p r =>
    match (Cicoche.accept db now p r).2 with
    | Except.ok _ => some r
    | Except.error _ => none
  | _ => none

/-- The ids accepted along a sequence of calls made one after the other. -/
def acceptedIds : List ServiceCall → Db → List Int
  | [], _ => []
  | c :: cs, db => (c.accepted db).toList ++ acceptedIds cs (c.run db)

/-- What one service call can do to a stored row; `accepted` is the id the call
accepts, if any.  Each constructor is one write of the service. -/
inductive RowStep (accepted : Option Int) : Reservation → Reservation → Prop
  | same (r : Reservation) : accepted ≠ some r.id → RowStep accepted r r
  | accept (r : Reservation) (d : Time) : accepted = some r.id → r.status = Status.PENDIENTE →
      RowStep accepted r
        { r with status := Status.ACEPTADA, rejectReason := none, checkInDeadline := some d }
  | reject (r : Reservation) (reason : String) : accepted ≠ some r.id →
      r.status = Status.PENDIENTE →
      RowStep accepted r { r with status := Status.RECHAZADA, rejectReason := some reason }
  | cancel (r : Reservation) (reason : Option String) : accepted ≠ some r.id →
      (r.status = Status.PENDIENTE ∨ r.status = Status.ACEPTADA) →
      RowStep accepted r { r with status := Status.CANCELADA, cancelledReason := reason }
  | checkInExpire (r : Reservation) (d : Time) : accepted ≠ some r.id →
      r.status = Status.ACEPTADA →
      RowStep accepted r { r with status := Status.EXPIRADA, checkInDeadline := some d }
  | checkIn (r : Reservation) (d now : Time) : accepted ≠ some r.id →
      r.status = Status.ACEPTADA →
      RowStep accepted r
        { r with checkInAt := some now, checkInDeadline := some d,
                 status := Status.CHECKIN_SOLICITADO }
  | expire (r : Reservation) (d : Time) : accepted ≠ some r.id →
      r.checkInDeadline = some d → r.status ≠ Status.EN_CURSO →
      RowStep accepted r { r with status := Status.EXPIRADA }
  | start (r : Reservation) (now : Time) : accepted ≠ some r.id →
      r.status = Status.CHECKIN_SOLICITADO → r.startedAt = none →
      RowStep accepted r { r with startedAt := some now, status := Status.EN_CURSO }
  | finish (r : Reservation) (now s : Time) (price : ℚ) : accepted ≠ some r.id →
      r.status = Status.EN_CURSO → r.startedAt = some s →
      RowStep accepted r
        { r with endedAt := some now, status := Status.FINALIZADA, totalPrice := price }

/-- The deadline invariant of a row, given the list of ids accepted so far: the
deadline is set exactly when the id was accepted; it is null in PENDIENTE and
RECHAZADA and set in ACEPTADA, CHECKIN_SOLICITADO, EN_CURSO, FINALIZADA and
EXPIRADA. -/
def deadlineOk (acceptedSoFar : List Int) (r : Reservation) : Prop :=
  (r.checkInDeadline ≠ none ↔ r.id ∈ acceptedSoFar)
    ∧ (r.status = Status.PENDIENTE ∨ r.status = Status.RECHAZADA → r.checkInDeadline = none)
    ∧ (r.status = Status.ACEPTADA ∨ r.status = Status.CHECKIN_SOLICITADO
        ∨ r.status = Status.EN_CURSO ∨ r.status = Status.FINALIZADA
        ∨ r.status = Status.EXPIRADA → r.checkInDeadline ≠ none)

/-- A booking that is accepted, one that is rejected and one that is cancelled
while still pending, on the example space. -/
def acceptedRejectedCancelled : List ServiceCall :=
  [ ServiceCall.create 0 20 1 (some 3600000) (some 7200000) BillingMode.AUTO (some 5),
    ServiceCall.create 0 21 1 (some 7200000) (some 10800000) BillingMode.AUTO (some 6),
    ServiceCall.create 0 21 1 (some 10800000) (some 14400000) BillingMode.AUTO (some 6),
    ServiceCall.accept 1 10 100,
    ServiceCall.reject 10 101 (some "no"),
    ServiceCall.cancel 2 21 102 none ]

/-- The reason `cancel` stores, in the words of the specification: null when no
reason is given (missing or the empty string), the trimmed reason otherwise. -/
def trimmedReason (reason : Option String) : Option String :=
  match reason with
  | none => none
  | some s => if s = "" then none else some (jsTrim s)

/-- The row `cancel` leaves behind. -/
def cancelData (reason : Option String) (r : Reservation) : Reservation :=
  { r with status := Status.CANCELADA, cancelledReason := trimmedReason reason }

/-- The status stored under an id, if a row has that id. -/
def statusAfter (rs : List Reservation) (id : Int) : Option Status :=
  (findUnique rs id).map (fun r => r.status)

/-- The status code of the error a call threw, if it threw. -/
def errorCode {α : Type} (res : Except ServiceError α) : Option Nat :=
  match res with
  | .error e => some e.statusCode
  | .ok _ => none

/-- A space like `exampleSpace` with room for two vehicles. -/
def exampleSpaceTwo : Space := { exampleSpace with capacity := some 2 }

/-- Two accepted reservations on space 1 over the hours 0 to 1 and 2 to 3, and a
pending request over the hours 0 to 3. -/
def conservativeRows : List Reservation :=
  [ { exampleAccepted with id := 1, startAt := 0, endAt := 3600000,
                           checkInDeadline := some 900000 },
    { exampleAccepted with id := 2, occupantId := 21, vehicleId := some 6,
                           startAt := 7200000, endAt := 10800000,
                           checkInDeadline := some 8100000 },
    { examplePending with id := 3, occupantId := 22, vehicleId := none,
                          startAt := 0, endAt := 10800000 } ]

/-- The store of the conservative-capacity example: a space of capacity 2 and
`conservativeRows`. -/
def conservativeDb : Db :=
  { reservations := conservativeRows, spaces := [exampleSpaceTwo], vehicles := [], nextId := 4 }

/-! ## Notifications (`io.to(room).emit(event, payload)`) -/

/-- One call `io.to("user:" + userId).emit(event, payload)`: the user whose personal
room is addressed, the event name and the `reservationId` of the payload. -/
structure Emission where
  userId : Int
  event : String
  reservationId : Int
deriving DecidableEq

/-- The emissions of `checkIn`, in order; `io` tells whether a socket server was
passed (`if (io)`).  On expiry the occupant is addressed first, on check-in the
provider. -/
def checkInEmits (db : Db) (now : Time) (occupantId reservationId : Int)
    (toleranceMinutes : Option ℚ) (io : Bool) : List Emission :=
  match parseIntParam reservationId "reservationId" with
  | .error _ => []
  | .ok id =>
    let tolMin : ℚ :=
      match toleranceMinutes with
      | some tol => if tol > 0 then tol else 15
      | none => 15
    match findUnique db.reservations id with
    | none => []
    | some r =>
      if r.occupantId ≠ occupantId then []
      else if r.status ≠ Status.ACEPTADA then []
      else
        let deadline : Time := r.checkInDeadline.getD (computeDeadline r.startAt tolMin)
        if now > deadline then
          if io then
            [⟨r.occupantId, "reservation.expired", r.id⟩,
             ⟨r.providerId, "reservation.expired", r.id⟩]
          else []
        else
          if io then
            [⟨r.providerId, "reservation.checkin_requested", r.id⟩,
             ⟨r.occupantId, "reservation.checkin_requested", r.id⟩]
          else []

/-- The emissions of `startStay`, in order. -/
def startStayEmits (db : Db) (now : Time) (providerId reservationId : Int) (io : Bool) :
    List Emission :=
  match parseIntParam reservationId "reservationId" with
  | .error _ => []
  | .ok id =>
    match findUnique db.reservations id with
    | none => []
    | some r =>
      if r.providerId ≠ providerId then []
      else if (match r.checkInDeadline with
               | some d => decide (now > d)
               | none => false) = true ∧ r.status ≠ Status.EN_CURSO then
        if io then
          [⟨r.occupantId, "reservation.expired", r.id⟩,
           ⟨r.providerId, "reservation.expired", r.id⟩]
        else []
      else if r.status ≠ Status.CHECKIN_SOLICITADO then []
      else if r.startedAt.isSome then []
      else
        if io then
          [⟨r.occupantId, "reservation.started", r.id⟩,
           ⟨r.providerId, "reservation.started", r.id⟩]
        else []

/-- The emissions of `finishStay`, in order. -/
def finishStayEmits (db : Db) (providerId reservationId : Int) (io : Bool) : List Emission :=
  match parseIntParam reservationId "reservationId" with
  | .error _ => []
  | .ok id =>
    match findUnique db.reservations id with
    | none => []
    | some r =>
      if r.providerId ≠ providerId then []
      else if r.status ≠ Status.EN_CURSO then []
      else
        match r.startedAt with
        | none => []
        | some _ =>
          match findSpace db.spaces r.spaceId with
          | none => []
          | some _ =>
            if io then
              [⟨r.occupantId, "reservation.finished", r.id⟩,
               ⟨r.providerId, "reservation.finished", r.id⟩]
            else []

/-- The emissions of `expireAcceptedPastDeadline`: for each row found, in order,
one to the occupant and one to the provider. -/
def expireAcceptedPastDeadlineEmits (db : Db) (now : Time) (whereBase : WhereBase)
    (io : Bool) : List Emission :=
  let expired := db.reservations.filter (expiredWhere whereBase now)
  if expired.length = 0 then []
  else if io then
    (expired.map (fun r =>
      [(⟨r.occupantId, "reservation.expired", r.id⟩ : Emission),
       ⟨r.providerId, "reservation.expired", r.id⟩])).flatten
  else []

/-- Whether the operation takes the socket server `io` as an argument:
`create`, `cancel`, `accept` and `reject` do not. -/
def ServiceCall.takesIo : ServiceCall → Bool
  | ServiceCall.checkIn .. => true
  | ServiceCall.startStay .. => true
  | ServiceCall.finishStay .. => true
  | ServiceCall.expireAcceptedPastDeadline .. => true
  | _ => false

/-- The emissions of a call.  `create`, `cancel`, `accept` and `reject` contain no
`emit` (and the routes calling them emit nothing either). -/
def ServiceCall.emits : ServiceCall → Db → Bool → List Emission
  | ServiceCall.create .., _, _ => []
  | ServiceCall.cancel .., _, _ => []
  | ServiceCall.accept .., _, _ => []
  | ServiceCall.reject .., _, _ => []
  | ServiceCall.checkIn now o r t, db, io => checkInEmits db now o r t io
  | ServiceCall.startStay now p r, db, io => startStayEmits db now p r io
  | ServiceCall.finishStay _ p r, db, io => finishStayEmits db p r io
  | ServiceCall.expireAcceptedPastDeadline now w, db, io =>
      expireAcceptedPastDeadlineEmits db now w io

/-- The event that announces a row entering a status. -/
def eventOf : Status → String
  | Status.CHECKIN_SOLICITADO => "reservation.checkin_requested"
  | Status.EN_CURSO => "reservation.started"
  | Status.FINALIZADA => "reservation.finished"
  | Status.EXPIRADA => "reservation.expired"
  | _ => ""

/-- Both participants of a row are sent the event about it: the list holds an
emission to `user:<occupantId>` and one to `user:<providerId>`. -/
def notifiesBoth (es : List Emission) (event : String) (r : Reservation) : Prop :=
  (⟨r.occupantId, event, r.id⟩ : Emission) ∈ es ∧ (⟨r.providerId, event, r.id⟩ : Emission) ∈ es

instance (es : List Emission) (event : String) (r : Reservation) :
    Decidable (notifiesBoth es event r) := by
  unfold notifiesBoth
  infer_instance

/-- A call that writes at most the row under key `rid`, with its emissions `es`
(as a function of whether `io` was passed): either nothing is written and nothing
emitted, or the row `R` under the key is rewritten by `f`, both participants of `R`
are sent the event of its new status when `io` was passed, and nothing is emitted
when it was not. -/
def SingleWrite (db db' : Db) (rid : Int) (es : Bool → List Emission) : Prop :=
  (db' = db ∧ ∀ io, es io = [])
    ∨ ∃ (R : Reservation) (f : Reservation → Reservation),
        findUnique db.reservations rid = some R
          ∧ (∀ x, (f x).id = x.id ∧ (f x).occupantId = x.occupantId
              ∧ (f x).providerId = x.providerId)
          ∧ db'.reservations = updateUnique db.reservations rid f
          ∧ notifiesBoth (es true) (eventOf (f R).status) R
          ∧ es false = []

/-! ## Double-precision arithmetic

JavaScript numbers are binary64 values.  `fl` gives the value a real result is
rounded to (nearest, ties to even); every arithmetic operation of the source
returns `fl` of the exact result.  Overflow to `Infinity`, `NaN` and the sign of
zero are not modelled, so the statements about `fl` are read for operands far
below `2 ^ 1023`. -/

/-- The nearest integer, a tie going to the even neighbour. -/
def roundHalfEven (y : ℚ) : Int :=
  if Int.fract y < 1 / 2 then ⌊y⌋
  else if 1 / 2 < Int.fract y then ⌊y⌋ + 1
  else if ⌊y⌋ % 2 = 0 then ⌊y⌋ else ⌊y⌋ + 1

/-- The exponent of the binade of `x`: `floor (log2 |x|)`, and `-1022` throughout
the subnormal range. -/
def binade (x : ℚ) : Int := max (Int.log 2 |x|) (-1022)

/-- The binary64 value nearest to `x`: `x` rounded to a multiple of
`2 ^ (binade x - 52)`, a tie going to the even multiple. -/
def fl (x : ℚ) : ℚ :=
  (roundHalfEven (x / (2 : ℚ) ^ (binade x - 52)) : ℚ) * (2 : ℚ) ^ (binade x - 52)

/-- Embedding of `round2` with the rounding of each operation:
`Math.round((n + Number.EPSILON) * 100) / 100`.  `Math.round` is exact. -/
def round2Fl (n : ℚ) : ℚ :=
  fl ((mathRound (fl (fl (n + EPSILON) * 100)) : ℚ) / 100)

/-- Embedding of `calcTotalPrice` of the reservations service with the rounding of
each operation.  `Number(...)` of a stored rate is the binary64 value nearest to
it; `getTime()` is an integer; `Math.max` and `Math.ceil` are exact. -/
def calcTotalPriceFl (precioHora precioDia : Option ℚ) (startAt endAt : Time)
    (billingMode : BillingMode) : Pricing :=
  let priceHour : ℚ := fl (precioHora.getD 0)
  let priceDay : ℚ := fl (precioDia.getD 0)
  let diffMs : ℚ := fl ((endAt - startAt : Int) : ℚ)
  let hours : ℚ := max 0 (fl (diffMs / (1000 * 60 * 60)))
  let daysForBilling : Int := max 1 ⌈fl (hours / 24)⌉
  let hourTotal : ℚ := fl (hours * priceHour)
  let dayTotal : ℚ := fl ((daysForBilling : ℚ) * priceDay)
  match billingMode with
  | BillingMode.HORA =>
      { total := round2Fl hourTotal, hours := hours, days := daysForBilling, used := BillingMode.HORA }
  | BillingMode.DIA =>
      { total := round2Fl dayTotal, hours := hours, days := daysForBilling, used := BillingMode.DIA }
  | BillingMode.AUTO =>
      let used := if AUTO_DAY_THRESHOLD_HOURS ≤ hours then BillingMode.DIA else BillingMode.HORA
      let total := if used = BillingMode.DIA then dayTotal else hourTotal
      { total := round2Fl total, hours := hours, days := daysForBilling, used := used }

/-- The value of the local `hourTotal` of `calcTotalPrice`: the product of the
hours and the hourly rate as the source computes it. -/
def hourTotalFl (precioHora precioDia : Option ℚ) (startAt endAt : Time) : ℚ :=
  fl ((calcTotalPriceFl precioHora precioDia startAt endAt BillingMode.HORA).hours
    * fl (precioHora.getD 0))

/-- The value of the local `dayTotal` of `calcTotalPrice`: the product of the
billed days and the daily rate as the source computes it. -/
def dayTotalFl (precioHora precioDia : Option ℚ) (startAt endAt : Time) : ℚ :=
  fl (((calcTotalPriceFl precioHora precioDia startAt endAt BillingMode.DIA).days : ℚ)
    * fl (precioDia.getD 0))

/-- The whole number of cents `round2` arrives at before its last division:
`Math.round((n + Number.EPSILON) * 100)`. -/
def round2Cents (n : ℚ) : Int := mathRound (fl (fl (n + EPSILON) * 100))

/-- A bound on the distance between `(n + Number.EPSILON) * 100` as the source
computes it and `n * 100`: `100 * (n + 1) / 2 ^ 51`. -/
def tieMargin (n : ℚ) : ℚ := 100 * (n + 1) / 2 ^ 51

/-- An amount is clear of a half-cent tie when `n * 100 + 1 / 2` keeps the distance
`tieMargin n` from the integers below and above it. -/
def clearOfTieFl (n : ℚ) : Prop :=
  tieMargin n ≤ Int.fract (n * 100 + 1 / 2) ∧ Int.fract (n * 100 + 1 / 2) + tieMargin n < 1

/-! ## Pricing calculator: theorems -/

theorem round2_eq_roundHalfUp2_shift (x : ℚ) : round2 x = roundHalfUp2 (x + EPSILON) := by
  simp [round2, roundHalfUp2, mathRound]

theorem EPSILON_nonneg : (0 : ℚ) ≤ 100 * EPSILON := by
  unfold EPSILON; positivity

/-- C1: in AUTO mode `calcTotalPrice` returns exactly the HORA result when the span
is shorter than 8 hours and exactly the DIA result otherwise, where the hours are
`(endAt - startAt) / 1h`; total, hours, days and `used` all agree. -/
theorem calcTotalPrice_auto (precioHora precioDia : Option ℚ) (startAt endAt : Time) :
    calcTotalPrice precioHora precioDia startAt endAt BillingMode.AUTO =
      if ((endAt - startAt : Int) : ℚ) / (1000 * 60 * 60) < 8 then
        calcTotalPrice precioHora precioDia startAt endAt BillingMode.HORA
      else
        calcTotalPrice precioHora precioDia startAt endAt BillingMode.DIA := by
  have key : (8 : ℚ) ≤ max 0 (((endAt - startAt : Int) : ℚ) / (1000 * 60 * 60)) ↔
      ¬ (((endAt - startAt : Int) : ℚ) / (1000 * 60 * 60) < 8) := by
    rw [not_lt, le_max_iff]
    constructor
    · rintro (h | h)
      · norm_num at h
      · exact h
    · intro h; exact Or.inr h
  by_cases h : ((endAt - startAt : Int) : ℚ) / (1000 * 60 * 60) < 8
  · have h8 : ¬ (8 : ℚ) ≤ max 0 (((endAt - startAt : Int) : ℚ) / (1000 * 60 * 60)) :=
      fun c => key.mp c h
    simp only [calcTotalPrice, AUTO_DAY_THRESHOLD_HOURS, if_pos h, if_neg h8]
    simp
  · have h8 : (8 : ℚ) ≤ max 0 (((endAt - startAt : Int) : ℚ) / (1000 * 60 * 60)) := key.mpr h
    simp only [calcTotalPrice, AUTO_DAY_THRESHOLD_HOURS, if_neg h, if_pos h8]
    simp

/-! ## Availability guard: theorems -/

theorem capacityWhere_eq_spec (spaceId : Int) (startAt endAt : Time) (excluded : Option Int)
    (hx : excluded ≠ some 0) (r : Reservation) :
    capacityWhere spaceId startAt endAt excluded r =
      decide (r.spaceId = spaceId
        ∧ (r.status = Status.ACEPTADA ∨ r.status = Status.CHECKIN_SOLICITADO
            ∨ r.status = Status.EN_CURSO)
        ∧ excluded ≠ some r.id
        ∧ r.startAt < endAt ∧ r.endAt > startAt) := by
  cases excluded with
  | none => simp [capacityWhere, CAPACITY_STATUSES, Bool.and_assoc]
  | some x =>
    have hx0 : x ≠ 0 := fun h => hx (by rw [h])
    simp only [capacityWhere, CAPACITY_STATUSES, if_neg hx0]
    rw [Bool.eq_iff_iff]
    simp only [Bool.and_eq_true, decide_eq_true_eq, List.mem_cons, List.mem_singleton,
      List.mem_nil_iff, or_false, ne_eq, Option.some.injEq]
    constructor
    · rintro ⟨⟨⟨h1, h2⟩, h3, h4⟩, h5⟩
      exact ⟨h1, h2, fun h => h5 h.symm, h3, h4⟩
    · rintro ⟨h1, h2, h5, h3, h4⟩
      exact ⟨⟨⟨h1, h2⟩, h3, h4⟩, fun h => h5 h.symm⟩

theorem countP_capacityWhere_eq_spec (rs : List Reservation) (spaceId : Int)
    (startAt endAt : Time) (excluded : Option Int) (hx : excluded ≠ some 0) :
    rs.countP (capacityWhere spaceId startAt endAt excluded)
      = overlapCountSpec rs spaceId startAt endAt excluded := by
  unfold overlapCountSpec
  rw [List.countP_eq_length_filter]
  congr 2
  funext r
  exact capacityWhere_eq_spec spaceId startAt endAt excluded hx r

/-- C4: for a capacity other than 0 and an excluded id that is absent or not 0,
`assertCapacityAvailable` throws (status 409) exactly when the number of rows of
the space in ACEPTADA, CHECKIN_SOLICITADO or EN_CURSO, other than the excluded id,
with `existing.startAt < endAt` and `existing.endAt > startAt`, is at least the
capacity, and otherwise returns that number; adding a row that only touches the
interval at an endpoint, or a PENDIENTE row, changes nothing. -/
theorem assertCapacityAvailable_spec (db : Db) (spaceId : Int) (startAt endAt : Time)
    (capacity : Int) (excluded : Option Int) (hc : capacity ≠ 0) (hx : excluded ≠ some 0) :
    assertCapacityAvailable db spaceId startAt endAt (some capacity) excluded
        = (if (overlapCountSpec db.reservations spaceId startAt endAt excluded : Int) ≥ capacity
            then Except.error ⟨409, "No hay cupo disponible en ese horario."⟩
            else Except.ok (overlapCountSpec db.reservations spaceId startAt endAt excluded))
      ∧ ∀ r : Reservation,
          (r.endAt = startAt ∨ r.startAt = endAt ∨ r.status = Status.PENDIENTE) →
          assertCapacityAvailable { db with reservations := r :: db.reservations }
              spaceId startAt endAt (some capacity) excluded
            = assertCapacityAvailable db spaceId startAt endAt (some capacity) excluded := by
  constructor
  · simp only [assertCapacityAvailable, capacityOrOne, if_neg hc,
      countP_capacityWhere_eq_spec _ _ _ _ _ hx]
  · intro r hr
    have hfalse : capacityWhere spaceId startAt endAt excluded r = false := by
      rw [capacityWhere_eq_spec _ _ _ _ hx, decide_eq_false_iff_not]
      rintro ⟨_, hs, _, h1, h2⟩
      rcases hr with h | h | h
      · rw [h] at h2; exact lt_irrefl _ h2
      · rw [h] at h1; exact lt_irrefl _ h1
      · rw [h] at hs; simp at hs
    simp only [assertCapacityAvailable, List.countP_cons, hfalse]
    simp

/-- Witness for C4: on a capacity-1 space with one accepted row over hours 1 to 2,
a request for hours 1 to 2 is refused and a request for hours 2 to 3 returns 0. -/
theorem assertCapacityAvailable_spec_witness :
    assertCapacityAvailable (exampleDb [{ examplePending with status := Status.ACEPTADA }])
        1 3600000 7200000 (some 1) none
        = Except.error ⟨409, "No hay cupo disponible en ese horario."⟩
      ∧ assertCapacityAvailable (exampleDb [{ examplePending with status := Status.ACEPTADA }])
        1 7200000 10800000 (some 1) none = Except.ok 0 := by
  have h1 := (assertCapacityAvailable_spec
    (exampleDb [{ examplePending with status := Status.ACEPTADA }])
    1 3600000 7200000 1 none (by decide) (by decide)).1
  have h2 := (assertCapacityAvailable_spec
    (exampleDb [{ examplePending with status := Status.ACEPTADA }])
    1 7200000 10800000 1 none (by decide) (by decide)).1
  constructor
  · rw [h1]; rfl
  · rw [h2]; rfl

/-! ## Service operations: evaluations -/

/-- C5: on the capacity-1 `exampleSpace` with one PENDIENTE reservation over hours
1 to 2 the active-set count for that interval is 1, at least the capacity, and yet
`create` for the same interval succeeds and stores a second PENDIENTE row. -/
theorem create_ignores_pending_rows :
    activeOverlapCount (exampleDb [examplePending]).reservations 1 3600000 7200000 = 1
      ∧ exampleSpace.capacity = some 1
      ∧ (∃ row, (create (exampleDb [examplePending]) 0 21 1 (some 3600000) (some 7200000)
            BillingMode.HORA (some 6)).2 = Except.ok row)
      ∧ ((create (exampleDb [examplePending]) 0 21 1 (some 3600000) (some 7200000)
            BillingMode.HORA (some 6)).1.reservations.map (fun r => r.status))
          = [Status.PENDIENTE, Status.PENDIENTE] := by
  refine ⟨by decide, rfl, ⟨_, rfl⟩, by decide!⟩

/-- C6: after a complete stay (create, accept, checkIn, startStay, finishStay) the
reservation is FINALIZADA; one more `startStay` by the provider, after the check-in
deadline, throws 409 and leaves the row in EXPIRADA. -/
theorem startStay_expires_finished_row :
    ((runCalls (finishedThenStart.take 5) (exampleDb [])).reservations.map
        (fun r => (r.id, r.status, r.checkInDeadline)))
        = [(100, Status.FINALIZADA, some 4500000)]
      ∧ (startStay (runCalls (finishedThenStart.take 5) (exampleDb [])) 7100000 10 100).2
        = Except.error ⟨409, "No se puede iniciar: tolerancia vencida (reserva expirada)."⟩
      ∧ ((runCalls finishedThenStart (exampleDb [])).reservations.map
          (fun r => (r.id, r.status)))
        = [(100, Status.EXPIRADA)] := by
  refine ⟨by decide!, ?_, by decide!⟩
  have h : (match (startStay (runCalls (finishedThenStart.take 5) (exampleDb [])) 7100000 10 100).2
      with
      | Except.error e => decide (e = ⟨409, "No se puede iniciar: tolerancia vencida (reserva expirada)."⟩)
      | Except.ok _ => false) = true := by decide!
  revert h
  cases (startStay (runCalls (finishedThenStart.take 5) (exampleDb [])) 7100000 10 100).2 with
  | error e => intro h; rw [of_decide_eq_true h]
  | ok _ => intro h; cases h

/-- C7: `startStay` called by the provider on a CANCELADA reservation whose
check-in deadline has passed throws 409 and yet rewrites the row: its status
becomes EXPIRADA. -/
theorem startStay_modifies_cancelled_row :
    ((runCalls acceptedThenCancelled (exampleDb [])).reservations.map
        (fun r => (r.id, r.providerId, r.status, r.checkInDeadline)))
        = [(100, 10, Status.CANCELADA, some 4500000)]
      ∧ ((startStay (runCalls acceptedThenCancelled (exampleDb [])) 4500001 10 100).1.reservations.map
          (fun r => (r.id, r.status)))
        = [(100, Status.EXPIRADA)]
      ∧ (match (startStay (runCalls acceptedThenCancelled (exampleDb [])) 4500001 10 100).2 with
          | Except.error e => e.statusCode
          | Except.ok _ => 0) = 409 := by
  refine ⟨by decide!, by decide!, by decide!⟩

/-! ## Actor checks -/

theorem parseIntParam_pos (value : Int) (name : String) (h : 0 < value) :
    parseIntParam value name = Except.ok value := by
  unfold parseIntParam
  rw [if_neg (not_le.mpr h)]

/-- C8, as stated, fails: `reject` called by user 99 on a reservation of provider 10
with a missing reason throws 400, not 403 (the reason is validated before the
reservation is read). -/
theorem reject_wrong_provider_blank_reason_counterexample :
    (findUnique (exampleDb [examplePending]).reservations 1).map (fun r => r.providerId) = some 10
      ∧ reject (exampleDb [examplePending]) 99 1 none
        = (exampleDb [examplePending], Except.error ⟨400, "El motivo de rechazo es obligatorio"⟩) := by
  constructor
  · rfl
  · rfl

/-- C8, amended: for a positive reservation id, `cancel` and `checkIn` by a user
other than the occupant, and `accept`, `startStay` and `finishStay` by a user other
than the provider, throw 403 and leave the store unchanged; `reject` by a user
other than the provider does so when its reason is not blank, and throws 400 with
the store unchanged when it is blank; when no reservation has the id, each call
throws 404 (`reject` with a blank reason: 400) and leaves the store unchanged. -/
theorem wrong_actor_is_refused (db : Db) (now : Time) (actor reservationId : Int)
    (hid : 0 < reservationId) :
    (findUnique db.reservations reservationId = none →
        (∀ reason, cancel db now actor reservationId reason
            = (db, Except.error ⟨404, "Reserva no encontrada."⟩))
        ∧ (∀ tol, checkIn db now actor reservationId tol
            = (db, Except.error ⟨404, "Reserva no encontrada."⟩))
        ∧ accept db now actor reservationId = (db, Except.error ⟨404, "Reserva no encontrada."⟩)
        ∧ (∀ reason, reject db actor reservationId reason
            = if jsTrim (reason.getD "") = "" then
                (db, Except.error ⟨400, "El motivo de rechazo es obligatorio"⟩)
              else (db, Except.error ⟨404, "Reserva no encontrada."⟩))
        ∧ startStay db now actor reservationId
            = (db, Except.error ⟨404, "Reserva no encontrada."⟩)
        ∧ finishStay db now actor reservationId
            = (db, Except.error ⟨404, "Reserva no encontrada."⟩))
      ∧ (∀ r, findUnique db.reservations reservationId = some r → r.occupantId ≠ actor →
        (∀ reason, cancel db now actor reservationId reason
            = (db, Except.error ⟨403, "No autorizado."⟩))
        ∧ (∀ tol, checkIn db now actor reservationId tol
            = (db, Except.error ⟨403, "No autorizado."⟩)))
      ∧ (∀ r, findUnique db.reservations reservationId = some r → r.providerId ≠ actor →
        accept db now actor reservationId = (db, Except.error ⟨403, "No autorizado."⟩)
        ∧ (∀ reason, reject db actor reservationId reason
            = if jsTrim (reason.getD "") = "" then
                (db, Except.error ⟨400, "El motivo de rechazo es obligatorio"⟩)
              else (db, Except.error ⟨403, "No autorizado."⟩))
        ∧ startStay db now actor reservationId = (db, Except.error ⟨403, "No autorizado."⟩)
        ∧ finishStay db now actor reservationId = (db, Except.error ⟨403, "No autorizado."⟩)) := by
  have hp := parseIntParam_pos reservationId "reservationId" hid
  refine ⟨?_, ?_, ?_⟩
  · intro hnone
    refine ⟨?_, ?_, ?_, ?_, ?_, ?_⟩
    · intro reason; simp only [cancel, hp, hnone]
    · intro tol; simp only [checkIn, hp, hnone]
    · simp only [accept, hp, hnone]
    · intro reason
      by_cases hb : jsTrim (reason.getD "") = ""
      · simp only [reject, hp, ensureNonEmptyString, hb, if_true]; rfl
      · simp only [reject, hp, ensureNonEmptyString, hb, if_false, hnone]
    · simp only [startStay, hp, hnone]
    · simp only [finishStay, hp, hnone]
  · intro r hr hne
    refine ⟨?_, ?_⟩
    · intro reason; simp only [cancel, hp, hr, ne_eq, hne, not_false_eq_true, if_true]
    · intro tol; simp only [checkIn, hp, hr, ne_eq, hne, not_false_eq_true, if_true]
  · intro r hr hne
    refine ⟨?_, ?_, ?_, ?_⟩
    · simp only [accept, hp, hr, ne_eq, hne, not_false_eq_true, if_true]
    · intro reason
      by_cases hb : jsTrim (reason.getD "") = ""
      · simp only [reject, hp, ensureNonEmptyString, hb, if_true]; rfl
      · simp only [reject, hp, ensureNonEmptyString, hb, if_false, hr, ne_eq, hne,
          not_false_eq_true, if_true]
    · simp only [startStay, hp, hr, ne_eq, hne, not_false_eq_true, if_true]
    · simp only [finishStay, hp, hr, ne_eq, hne, not_false_eq_true, if_true]

/-- Witness for C8 amended: on the example store user 99 is not the provider of
reservation 1, and reservation 7 does not exist. -/
theorem wrong_actor_is_refused_witness :
    accept (exampleDb [examplePending]) 0 99 1
        = (exampleDb [examplePending], Except.error ⟨403, "No autorizado."⟩)
      ∧ cancel (exampleDb [examplePending]) 0 99 1 none
        = (exampleDb [examplePending], Except.error ⟨403, "No autorizado."⟩)
      ∧ finishStay (exampleDb [examplePending]) 0 10 7
        = (exampleDb [examplePending], Except.error ⟨404, "Reserva no encontrada."⟩) :=
  ⟨((wrong_actor_is_refused (exampleDb [examplePending]) 0 99 1 (by decide)).2.2
      examplePending rfl (by decide)).1,
    ((wrong_actor_is_refused (exampleDb [examplePending]) 0 99 1 (by decide)).2.1
      examplePending rfl (by decide)).1 none,
    ((wrong_actor_is_refused (exampleDb [examplePending]) 0 10 7 (by decide)).1 rfl).2.2.2.2.2⟩

/-! ## State checks -/

/-- Apart from the early deadline test of `startStay` the state checks hold:
called by the actor of record on a reservation that is not in the required source
state, `accept`, `checkIn` and `finishStay` throw 409, `reject` throws 400 (blank
reason) or 409, and `startStay` throws 409 when the stored deadline is null or has
not passed; the store is unchanged in each case. -/
theorem wrong_state_is_refused (db : Db) (now : Time) (actor reservationId : Int)
    (r : Reservation) (hid : 0 < reservationId)
    (hr : findUnique db.reservations reservationId = some r) :
    (r.providerId = actor → r.status ≠ Status.PENDIENTE →
        accept db now actor reservationId
          = (db, Except.error ⟨409, "Solo se pueden aceptar reservas PENDIENTE."⟩))
      ∧ (r.providerId = actor → r.status ≠ Status.PENDIENTE → ∀ reason,
        reject db actor reservationId reason
          = if jsTrim (reason.getD "") = "" then
              (db, Except.error ⟨400, "El motivo de rechazo es obligatorio"⟩)
            else (db, Except.error ⟨409, "Solo se pueden rechazar reservas PENDIENTE."⟩))
      ∧ (r.occupantId = actor → r.status ≠ Status.ACEPTADA → ∀ tol,
        checkIn db now actor reservationId tol
          = (db, Except.error
              ⟨409, "Solo puedes marcar llegada cuando la reserva está ACEPTADA."⟩))
      ∧ (r.providerId = actor → r.status ≠ Status.EN_CURSO →
        finishStay db now actor reservationId
          = (db, Except.error ⟨409, "Solo puedes finalizar una reserva EN_CURSO."⟩))
      ∧ (r.providerId = actor → r.status ≠ Status.CHECKIN_SOLICITADO →
        (∀ d, r.checkInDeadline = some d → now ≤ d) →
        startStay db now actor reservationId
          = (db, Except.error ⟨409, "Solo puedes iniciar cuando el ocupante marcó llegada."⟩)) := by
  have hp := parseIntParam_pos reservationId "reservationId" hid
  refine ⟨?_, ?_, ?_, ?_, ?_⟩
  · intro ha hs
    simp only [accept, hp, hr, ne_eq, ha, not_true_eq_false, if_false, hs, not_false_eq_true,
      if_true]
  · intro ha hs reason
    by_cases hb : jsTrim (reason.getD "") = ""
    · simp only [reject, hp, ensureNonEmptyString, hb, if_true]; rfl
    · simp only [reject, hp, ensureNonEmptyString, hb, if_false, hr, ne_eq, ha,
        not_true_eq_false, hs, not_false_eq_true, if_true]
  · intro ha hs tol
    simp only [checkIn, hp, hr, ne_eq, ha, not_true_eq_false, if_false, hs, not_false_eq_true,
      if_true]
  · intro ha hs
    simp only [finishStay, hp, hr, ne_eq, ha, not_true_eq_false, if_false, hs,
      not_false_eq_true, if_true]
  · intro ha hs hd
    cases hdl : r.checkInDeadline with
    | none =>
      simp [startStay, hp, hr, hdl, ha, hs]
    | some d =>
      have hle : ¬ d < now := not_lt.mpr (hd d hdl)
      simp [startStay, hp, hr, hdl, ha, hs, hle]

/-! ## Store primitives: lemmas -/

theorem truncMs_intCast (z : Int) : truncMs (z : ℚ) = z := by
  unfold truncMs
  split <;> simp

theorem computeDeadline_default (startAt : Time) :
    computeDeadline startAt DEFAULT_CHECKIN_TOLERANCE_MIN = startAt + 900000 := by
  unfold computeDeadline DEFAULT_CHECKIN_TOLERANCE_MIN
  have h : ((startAt : Int) : ℚ) + 15 * 60 * 1000 = ((startAt + 900000 : Int) : ℚ) := by
    push_cast; norm_num
  rw [h, truncMs_intCast]

theorem parseIntParam_ok (value : Int) (name : String) (id : Int)
    (h : parseIntParam value name = Except.ok id) : id = value ∧ 0 < value := by
  unfold parseIntParam at h
  split at h
  · cases h
  · rename_i hv
    cases h
    exact ⟨rfl, not_le.mp hv⟩

theorem findUnique_some (rs : List Reservation) (id : Int) (r : Reservation)
    (h : findUnique rs id = some r) : r ∈ rs ∧ r.id = id := by
  unfold findUnique at h
  have h1 := List.find?_some h
  exact ⟨List.mem_of_find?_eq_some h, of_decide_eq_true h1⟩

theorem findUnique_map (rs : List Reservation) (g : Reservation → Reservation)
    (hg : ∀ r, (g r).id = r.id) (id : Int) :
    findUnique (rs.map g) id = (findUnique rs id).map g := by
  induction rs with
  | nil => rfl
  | cons a rs ih =>
    unfold findUnique at ih ⊢
    simp only [List.map_cons, List.find?_cons, hg]
    by_cases h : a.id = id
    · simp [h]
    · simp [h, ih]

theorem eq_of_id_eq (rs : List Reservation) (hids : (rs.map (fun r => r.id)).Nodup)
    (a b : Reservation) (ha : a ∈ rs) (hb : b ∈ rs) (h : a.id = b.id) : a = b :=
  List.inj_on_of_nodup_map hids ha hb h

theorem countP_or_of_disjoint (rs : List Reservation) (a b : Reservation → Bool)
    (hd : ∀ r ∈ rs, a r = true → b r = true → False) :
    rs.countP (fun r => a r || b r) = rs.countP a + rs.countP b := by
  induction rs with
  | nil => rfl
  | cons x rs ih =>
    have ih1 := ih (fun r hr => hd r (List.mem_cons_of_mem _ hr))
    have hx := hd x (List.mem_cons_self _ _)
    simp only [List.countP_cons, ih1]
    cases hax : a x <;> cases hbx : b x <;> simp
    · omega
    · omega
    · exact (hx hax hbx).elim

/-! ## accept: structure of a call -/

theorem accept_cases (db : Db) (now : Time) (providerId reservationId : Int) :
    (∃ e, accept db now providerId reservationId = (db, Except.error e))
    ∨ ∃ R space, 0 < reservationId ∧ findUnique db.reservations reservationId = some R
        ∧ R.providerId = providerId ∧ R.status = Status.PENDIENTE ∧ ¬ R.startAt < now
        ∧ findSpace db.spaces R.spaceId = some space ∧ space.idPropietario = providerId
        ∧ ((db.reservations.countP (acceptedWhere reservationId R) : Nat) : Int)
            < space.capacity.getD 1
        ∧ db.reservations.countP
            (fun r => decide (r.id = reservationId) && decide (r.status = Status.PENDIENTE)) = 1
        ∧ accept db now providerId reservationId
            = ({ db with reservations :=
                    acceptRows db.reservations reservationId R (space.capacity.getD 1) },
               Except.ok (findUnique
                 (acceptRows db.reservations reservationId R (space.capacity.getD 1))
                 reservationId)) := by
  unfold accept
  cases hp : parseIntParam reservationId "reservationId" with
  | error e => exact Or.inl ⟨e, rfl⟩
  | ok id =>
    obtain ⟨hid, hpos⟩ := parseIntParam_ok _ _ _ hp
    subst hid
    simp only []
    cases hf : findUnique db.reservations id with
    | none => exact Or.inl ⟨_, rfl⟩
    | some R =>
      simp only []
      by_cases h1 : R.providerId ≠ providerId
      · rw [if_pos h1]; exact Or.inl ⟨_, rfl⟩
      rw [if_neg h1]
      by_cases h2 : R.status ≠ Status.PENDIENTE
      · rw [if_pos h2]; exact Or.inl ⟨_, rfl⟩
      rw [if_neg h2]
      by_cases h3 : R.startAt < now
      · rw [if_pos h3]; exact Or.inl ⟨_, rfl⟩
      rw [if_neg h3]
      cases hs : findSpace db.spaces R.spaceId with
      | none => exact Or.inl ⟨_, rfl⟩
      | some space =>
        simp only []
        by_cases h4 : space.idPropietario ≠ providerId
        · rw [if_pos h4]; exact Or.inl ⟨_, rfl⟩
        rw [if_neg h4]
        by_cases h5 : ((db.reservations.countP (acceptedWhere id R) : Nat) : Int)
            ≥ space.capacity.getD 1
        · rw [if_pos h5]; exact Or.inl ⟨_, rfl⟩
        rw [if_neg h5]
        by_cases h6 : (updateMany db.reservations
            (fun r => decide (r.id = id) && decide (r.status = Status.PENDIENTE))
            (acceptData (computeDeadline R.startAt DEFAULT_CHECKIN_TOLERANCE_MIN))).2 ≠ 1
        · rw [if_pos h6]; exact Or.inl ⟨_, rfl⟩
        rw [if_neg h6]
        refine Or.inr ⟨R, space, hpos, rfl, not_not.mp h1, not_not.mp h2, h3, hs,
          not_not.mp h4, not_le.mp h5, not_not.mp h6, ?_⟩
        unfold acceptRows
        by_cases h7 : ((db.reservations.countP (acceptedWhere id R) : Nat) : Int) + 1
            ≥ space.capacity.getD 1
        · simp only [if_pos h7]
        · simp only [if_neg h7]

theorem findUnique_acceptRows (rs : List Reservation) (id : Int) (R : Reservation) (cap : Int)
    (hR : findUnique rs id = some R) (hP : R.status = Status.PENDIENTE) :
    findUnique (acceptRows rs id R cap) id = some (acceptData (R.startAt + 900000) R) := by
  have hRid : R.id = id := (findUnique_some rs id R hR).2
  have hg1 : ∀ r : Reservation,
      (if (decide (r.id = id) && decide (r.status = Status.PENDIENTE)) = true
        then acceptData (R.startAt + 900000) r else r).id = r.id := by
    intro r; split <;> rfl
  have hg2 : ∀ r : Reservation,
      (if pendingOverlapWhere R r = true then capacityRejectData r else r).id = r.id := by
    intro r; split <;> rfl
  have hstay : pendingOverlapWhere R (acceptData (R.startAt + 900000) R) = false := by
    simp [pendingOverlapWhere, acceptData]
  unfold acceptRows updateMany
  rw [computeDeadline_default]
  split
  · simp only []
    rw [findUnique_map _ _ hg2, findUnique_map _ _ hg1, hR]
    simp [hRid, hP, hstay]
  · simp only []
    rw [findUnique_map _ _ hg1, hR]
    simp [hRid, hP]

theorem acceptRows_eq_map (rs : List Reservation) (id : Int) (R : Reservation) (cap : Int)
    (hids : (rs.map (fun r => r.id)).Nodup) (hR : findUnique rs id = some R)
    (hP : R.status = Status.PENDIENTE) :
    acceptRows rs id R cap = rs.map (fun r =>
      if r.id = id then acceptData (R.startAt + 900000) r
      else if ((rs.countP (acceptedWhere id R) : Nat) : Int) + 1 ≥ cap
          ∧ pendingOverlapWhere R r = true then capacityRejectData r
      else r) := by
  obtain ⟨hmem, hRid⟩ := findUnique_some rs id R hR
  have hstay : pendingOverlapWhere R (acceptData (R.startAt + 900000) R) = false := by
    simp [pendingOverlapWhere, acceptData]
  unfold acceptRows updateMany
  rw [computeDeadline_default]
  by_cases hfull : ((rs.countP (acceptedWhere id R) : Nat) : Int) + 1 ≥ cap
  · simp only [if_pos hfull, List.map_map]
    apply List.map_congr_left
    intro r hr
    by_cases hid : r.id = id
    · have hrR : r = R := eq_of_id_eq rs hids r R hr hmem (hid.trans hRid.symm)
      subst hrR
      simp [hid, hP, hstay]
    · simp [hid, hfull]
  · simp only [if_neg hfull]
    apply List.map_congr_left
    intro r hr
    by_cases hid : r.id = id
    · have hrR : r = R := eq_of_id_eq rs hids r R hr hmem (hid.trans hRid.symm)
      subst hrR
      simp [hid, hP]
    · simp [hid, hfull]

theorem acceptRows_ids (rs : List Reservation) (id : Int) (R : Reservation) (cap : Int) :
    (acceptRows rs id R cap).map (fun r => r.id) = rs.map (fun r => r.id) := by
  unfold acceptRows updateMany
  split
  · simp only [List.map_map]
    apply List.map_congr_left
    intro r _
    simp only [Function.comp]
    split <;> split <;> rfl
  · simp only [List.map_map]
    apply List.map_congr_left
    intro r _
    simp only [Function.comp]
    split <;> rfl

/-- C9: when `accept` returns, the reservation it read was PENDIENTE and the row it
returns, which is the row now stored under that id, is that reservation with
status ACEPTADA, `rejectReason` null and `checkInDeadline` equal to
`startAt` plus 15 minutes; `startAt`, `endAt`, `totalPrice`, `billingMode` and every
other column keep their values. -/
theorem accept_sets_deadline (db db' : Db) (now : Time) (providerId reservationId : Int)
    (res : Option Reservation)
    (h : accept db now providerId reservationId = (db', Except.ok res)) :
    ∃ R, findUnique db.reservations reservationId = some R ∧ R.status = Status.PENDIENTE
      ∧ findUnique db'.reservations reservationId = res
      ∧ res = some { R with status := Status.ACEPTADA, rejectReason := none,
                            checkInDeadline := some (R.startAt + 15 * 60 * 1000) }
      ∧ (∀ r', res = some r' →
          r'.startAt = R.startAt ∧ r'.endAt = R.endAt ∧ r'.totalPrice = R.totalPrice
            ∧ r'.billingMode = R.billingMode) := by
  rcases accept_cases db now providerId reservationId with ⟨e, he⟩ | ⟨R, space, _, hR, _, hP, _, _, _, _, _, hacc⟩
  · rw [he] at h; cases h
  · rw [hacc] at h
    have hdb : db'.reservations
        = acceptRows db.reservations reservationId R (space.capacity.getD 1) :=
      (congrArg (fun x => x.1.reservations) h).symm
    have hres : res = findUnique
        (acceptRows db.reservations reservationId R (space.capacity.getD 1)) reservationId := by
      have := congrArg Prod.snd h
      simp only [Except.ok.injEq] at this
      exact this.symm
    have hfind := findUnique_acceptRows db.reservations reservationId R (space.capacity.getD 1) hR hP
    refine ⟨R, hR, hP, ?_, ?_, ?_⟩
    · rw [hdb, hres]
    · rw [hres, hfind]; rfl
    · intro r' hr'
      rw [hres, hfind] at hr'
      cases hr'
      exact ⟨rfl, rfl, rfl, rfl⟩

/-- Witness for C9: the provider of `exampleSpace` accepts the pending row for
hours 1 to 2; the deadline stored is 1 h 15 min. -/
theorem accept_sets_deadline_witness :
    accept (exampleDb [examplePending]) 0 10 1
        = (exampleDb [exampleAccepted], Except.ok (some exampleAccepted))
      ∧ ∃ R, findUnique (exampleDb [examplePending]).reservations 1 = some R
          ∧ R.status = Status.PENDIENTE
          ∧ findUnique (exampleDb [exampleAccepted]).reservations 1 = some exampleAccepted
          ∧ some exampleAccepted
              = some { R with status := Status.ACEPTADA, rejectReason := none,
                              checkInDeadline := some (R.startAt + 15 * 60 * 1000) }
          ∧ (∀ r', some exampleAccepted = some r' →
              r'.startAt = R.startAt ∧ r'.endAt = R.endAt ∧ r'.totalPrice = R.totalPrice
                ∧ r'.billingMode = R.billingMode) :=
  ⟨by decide!,
    accept_sets_deadline (exampleDb [examplePending]) (exampleDb [exampleAccepted]) 0 10 1
      (some exampleAccepted) (by decide!)⟩

theorem countP_id_eq_one (rs : List Reservation) (id : Int) (R : Reservation)
    (hids : (rs.map (fun r => r.id)).Nodup) (hR : findUnique rs id = some R)
    (hP : R.status = Status.PENDIENTE)
    (h1 : rs.countP (fun r => decide (r.id = id) && decide (r.status = Status.PENDIENTE)) = 1) :
    rs.countP (fun r => decide (r.id = id)) = 1 := by
  obtain ⟨hmem, hRid⟩ := findUnique_some rs id R hR
  rw [← h1]
  apply List.countP_congr
  intro r hr
  simp only [Bool.and_eq_true, decide_eq_true_eq]
  constructor
  · intro hid
    have hrR : r = R := eq_of_id_eq rs hids r R hr hmem (hid.trans hRid.symm)
    exact ⟨hid, hrR ▸ hP⟩
  · exact fun h => h.1

theorem consumedOver_acceptRows (rs : List Reservation) (id : Int) (R : Reservation) (cap : Int)
    (hids : (rs.map (fun r => r.id)).Nodup) (hR : findUnique rs id = some R)
    (hP : R.status = Status.PENDIENTE) (hspan : R.startAt < R.endAt)
    (h1 : rs.countP (fun r => decide (r.id = id) && decide (r.status = Status.PENDIENTE)) = 1) :
    consumedOver (acceptRows rs id R cap) R = rs.countP (acceptedWhere id R) + 1 := by
  obtain ⟨hmem, hRid⟩ := findUnique_some rs id R hR
  rw [acceptRows_eq_map rs id R cap hids hR hP]
  unfold consumedOver
  rw [← List.countP_eq_length_filter, List.countP_map,
    ← countP_id_eq_one rs id R hids hR hP h1,
    ← countP_or_of_disjoint rs (acceptedWhere id R) (fun r => decide (r.id = id))]
  · apply List.countP_congr
    intro r hr
    by_cases hid : r.id = id
    · have hrR : r = R := eq_of_id_eq rs hids r R hr hmem (hid.trans hRid.symm)
      subst hrR
      simp [hid, acceptData, hspan]
    · by_cases hcond : ((rs.countP (acceptedWhere id R) : Nat) : Int) + 1 ≥ cap
          ∧ pendingOverlapWhere R r = true
      · have hpend : r.status = Status.PENDIENTE := by
          have := hcond.2
          simp only [pendingOverlapWhere, Bool.and_eq_true, decide_eq_true_eq] at this
          exact this.1.1.2
        simp [hid, hcond, capacityRejectData, acceptedWhere, hpend]
      · simp only [Function.comp, if_neg hid, if_neg hcond]
        simp [acceptedWhere, hid, and_assoc]
  · intro r _ ha hb
    simp only [acceptedWhere, Bool.and_eq_true, decide_eq_true_eq] at ha hb
    exact ha.1.1.1 hb

/-- C10: in a store with distinct ids and non-empty intervals, when `accept`
returns for reservation R, the rows it leaves are the old rows with R accepted
and, when the capacity-consuming reservations overlapping R on its space (R
included) now number at least the capacity, every other row of that space that was
PENDIENTE and overlaps R set to RECHAZADA with the capacity-reached reason; every
other row, and every row when capacity is not fully consumed, is unchanged. -/
theorem accept_rejects_overlapping_pending (db db' : Db) (now : Time)
    (providerId reservationId : Int) (res : Option Reservation)
    (hids : (db.reservations.map (fun r => r.id)).Nodup)
    (hspan : ∀ r ∈ db.reservations, r.startAt < r.endAt)
    (h : accept db now providerId reservationId = (db', Except.ok res)) :
    ∃ R space, findUnique db.reservations reservationId = some R
      ∧ findSpace db.spaces R.spaceId = some space
      ∧ db'.reservations = db.reservations.map (fun r =>
          if r.id = reservationId then
            { r with status := Status.ACEPTADA, rejectReason := none,
                     checkInDeadline := some (r.startAt + 15 * 60 * 1000) }
          else if ((consumedOver db'.reservations R : Nat) : Int) ≥ space.capacity.getD 1
              ∧ r.spaceId = R.spaceId ∧ r.status = Status.PENDIENTE
              ∧ r.startAt < R.endAt ∧ r.endAt > R.startAt then
            { r with status := Status.RECHAZADA,
                     rejectReason := some "Cupo ocupado (capacidad alcanzada)" }
          else r) := by
  rcases accept_cases db now providerId reservationId with
    ⟨e, he⟩ | ⟨R, space, _, hR, _, hP, _, hS, _, _, h1, hacc⟩
  · rw [he] at h; cases h
  · rw [hacc] at h
    have hdb : db'.reservations
        = acceptRows db.reservations reservationId R (space.capacity.getD 1) :=
      (congrArg (fun x => x.1.reservations) h).symm
    obtain ⟨hmem, hRid⟩ := findUnique_some db.reservations reservationId R hR
    have hcons := consumedOver_acceptRows db.reservations reservationId R
      (space.capacity.getD 1) hids hR hP (hspan R hmem) h1
    refine ⟨R, space, hR, hS, ?_⟩
    rw [hdb, hcons, acceptRows_eq_map db.reservations reservationId R _ hids hR hP]
    apply List.map_congr_left
    intro r hr
    by_cases hid : r.id = reservationId
    · have hrR : r = R := eq_of_id_eq db.reservations hids r R hr hmem (hid.trans hRid.symm)
      subst hrR
      simp only [if_pos hid, acceptData]
      norm_num
    · simp only [if_neg hid]
      have hiff : (((db.reservations.countP (acceptedWhere reservationId R) : Nat) : Int) + 1
            ≥ space.capacity.getD 1 ∧ pendingOverlapWhere R r = true)
          ↔ ((((db.reservations.countP (acceptedWhere reservationId R) + 1 : Nat)) : Int)
            ≥ space.capacity.getD 1 ∧ r.spaceId = R.spaceId ∧ r.status = Status.PENDIENTE
              ∧ r.startAt < R.endAt ∧ r.endAt > R.startAt) := by
        have hne : ¬ r.id = R.id := fun hh => hid (hh.trans hRid)
        simp only [pendingOverlapWhere, Bool.and_eq_true, decide_eq_true_eq, Bool.not_eq_true',
          decide_eq_false_iff_not, Nat.cast_add, Nat.cast_one]
        constructor
        · rintro ⟨hc, ⟨⟨⟨a, b⟩, c, d⟩, _⟩⟩
          exact ⟨hc, a, b, c, d⟩
        · rintro ⟨hc, a, b, c, d⟩
          exact ⟨hc, ⟨⟨⟨a, b⟩, c, d⟩, hne⟩⟩
      by_cases hc : ((db.reservations.countP (acceptedWhere reservationId R) : Nat) : Int) + 1
            ≥ space.capacity.getD 1 ∧ pendingOverlapWhere R r = true
      · rw [if_pos hc, if_pos (hiff.mp hc)]
        rfl
      · rw [if_neg hc, if_neg (fun hh => hc (hiff.mpr hh))]

/-- Witness for C10: three pending rows on the capacity-1 space, two over the same
hour and one over the next hour; accepting the first rejects the second and leaves
the third as it was. -/
theorem accept_rejects_overlapping_pending_witness :
    accept (exampleDb [examplePending, examplePendingTwo, examplePendingLater]) 0 10 1
        = (exampleDb [exampleAccepted, exampleRejectedTwo, examplePendingLater],
            Except.ok (some exampleAccepted))
      ∧ ∃ R space,
          findUnique (exampleDb [examplePending, examplePendingTwo, examplePendingLater]).reservations
              1 = some R
          ∧ findSpace (exampleDb [examplePending, examplePendingTwo, examplePendingLater]).spaces
              R.spaceId = some space
          ∧ (exampleDb [exampleAccepted, exampleRejectedTwo, examplePendingLater]).reservations
            = (exampleDb [examplePending, examplePendingTwo, examplePendingLater]).reservations.map
              (fun r =>
                if r.id = 1 then
                  { r with status := Status.ACEPTADA, rejectReason := none,
                           checkInDeadline := some (r.startAt + 15 * 60 * 1000) }
                else if ((consumedOver
                      (exampleDb [exampleAccepted, exampleRejectedTwo, examplePendingLater]).reservations
                      R : Nat) : Int) ≥ space.capacity.getD 1
                    ∧ r.spaceId = R.spaceId ∧ r.status = Status.PENDIENTE
                    ∧ r.startAt < R.endAt ∧ r.endAt > R.startAt then
                  { r with status := Status.RECHAZADA,
                           rejectReason := some "Cupo ocupado (capacidad alcanzada)" }
                else r) :=
  ⟨by decide!,
    accept_rejects_overlapping_pending
      (exampleDb [examplePending, examplePendingTwo, examplePendingLater])
      (exampleDb [exampleAccepted, exampleRejectedTwo, examplePendingLater]) 0 10 1
      (some exampleAccepted) (by decide) (by decide) (by decide!)⟩

/-! ## Capacity invariant -/

theorem coveringCount_acceptRows (rs : List Reservation) (id : Int) (R : Reservation) (cap : Int)
    (spaceId : Int) (N : Int) (t : Time)
    (hids : (rs.map (fun r => r.id)).Nodup) (hR : findUnique rs id = some R)
    (hP : R.status = Status.PENDIENTE)
    (h1 : rs.countP (fun r => decide (r.id = id) && decide (r.status = Status.PENDIENTE)) = 1)
    (hlt : ((rs.countP (acceptedWhere id R) : Nat) : Int) < cap)
    (hcap : R.spaceId = spaceId → cap = N)
    (hN : (coveringCount rs spaceId t : Int) ≤ N) :
    (coveringCount (acceptRows rs id R cap) spaceId t : Int) ≤ N := by
  obtain ⟨hmem, hRid⟩ := findUnique_some rs id R hR
  rw [acceptRows_eq_map rs id R cap hids hR hP]
  unfold coveringCount at hN ⊢
  rw [← List.countP_eq_length_filter] at hN ⊢
  rw [List.countP_map]
  by_cases hcov : R.spaceId = spaceId ∧ R.startAt ≤ t ∧ t < R.endAt
  · have hle : rs.countP ((fun r => decide (r.spaceId = spaceId
          ∧ (r.status = Status.ACEPTADA ∨ r.status = Status.CHECKIN_SOLICITADO
              ∨ r.status = Status.EN_CURSO)
          ∧ r.startAt ≤ t ∧ t < r.endAt)) ∘ (fun r =>
          if r.id = id then acceptData (R.startAt + 900000) r
          else if ((rs.countP (acceptedWhere id R) : Nat) : Int) + 1 ≥ cap
              ∧ pendingOverlapWhere R r = true then capacityRejectData r
          else r))
        ≤ rs.countP (fun r => acceptedWhere id R r || decide (r.id = id)) := by
      apply List.countP_mono_left
      intro r _ hq
      by_cases hid : r.id = id
      · simp [hid]
      · by_cases hcond : ((rs.countP (acceptedWhere id R) : Nat) : Int) + 1 ≥ cap
            ∧ pendingOverlapWhere R r = true
        · simp [Function.comp, hid, hcond, capacityRejectData] at hq
        · simp only [Function.comp, if_neg hid, if_neg hcond, decide_eq_true_eq] at hq
          obtain ⟨hs, hst, ha, hb⟩ := hq
          have h1 : r.startAt < R.endAt := lt_of_le_of_lt ha hcov.2.2
          have h2 : R.startAt < r.endAt := lt_of_le_of_lt hcov.2.1 hb
          simp [acceptedWhere, hid, hs, hcov.1, hst, h1, h2]
    rw [countP_or_of_disjoint rs (acceptedWhere id R) (fun r => decide (r.id = id)),
      countP_id_eq_one rs id R hids hR hP h1] at hle
    · have hc := hcap hcov.1
      omega
    · intro r _ ha hb
      simp only [acceptedWhere, Bool.and_eq_true, decide_eq_true_eq] at ha hb
      exact ha.1.1.1 hb
  · have heq : rs.countP ((fun r => decide (r.spaceId = spaceId
          ∧ (r.status = Status.ACEPTADA ∨ r.status = Status.CHECKIN_SOLICITADO
              ∨ r.status = Status.EN_CURSO)
          ∧ r.startAt ≤ t ∧ t < r.endAt)) ∘ (fun r =>
          if r.id = id then acceptData (R.startAt + 900000) r
          else if ((rs.countP (acceptedWhere id R) : Nat) : Int) + 1 ≥ cap
              ∧ pendingOverlapWhere R r = true then capacityRejectData r
          else r))
        = rs.countP (fun r => decide (r.spaceId = spaceId
          ∧ (r.status = Status.ACEPTADA ∨ r.status = Status.CHECKIN_SOLICITADO
              ∨ r.status = Status.EN_CURSO)
          ∧ r.startAt ≤ t ∧ t < r.endAt)) := by
      apply List.countP_congr
      intro r hr
      by_cases hid : r.id = id
      · have hrR : r = R := eq_of_id_eq rs hids r R hr hmem (hid.trans hRid.symm)
        subst hrR
        simp only [Function.comp, if_pos hid, acceptData, decide_eq_true_eq, hP]
        constructor
        · rintro ⟨a, _, b, c⟩; exact (hcov ⟨a, b, c⟩).elim
        · rintro ⟨_, hst, _⟩; simp at hst
      · by_cases hcond : ((rs.countP (acceptedWhere id R) : Nat) : Int) + 1 ≥ cap
            ∧ pendingOverlapWhere R r = true
        · have hpend : r.status = Status.PENDIENTE := by
            have := hcond.2
            simp only [pendingOverlapWhere, Bool.and_eq_true, decide_eq_true_eq] at this
            exact this.1.1.2
          simp [Function.comp, hid, hcond, capacityRejectData, hpend]
        · simp only [Function.comp, if_neg hid, if_neg hcond]
    rw [heq]
    exact hN
theorem create_cases (db : Db) (now : Time) (occupantId spaceId : Int)
    (startAt endAt : Option Time) (billingMode : BillingMode) (vehicleId : Option Int) :
    (∃ e, create db now occupantId spaceId startAt endAt billingMode vehicleId
        = (db, Except.error e))
    ∨ ∃ row : Reservation, row.id = db.nextId ∧ row.status = Status.PENDIENTE
        ∧ row.startAt < row.endAt ∧ ¬ row.startAt < now ∧ row.checkInDeadline = none
        ∧ row.checkInAt = none ∧ row.startedAt = none
        ∧ create db now occupantId spaceId startAt endAt billingMode vehicleId
          = ({ db with reservations := db.reservations ++ [row], nextId := db.nextId + 1 },
              Except.ok row) := by
  unfold create
  rcases startAt with _ | start
  · exact Or.inl ⟨_, rfl⟩
  rcases endAt with _ | end_
  · exact Or.inl ⟨_, rfl⟩
  simp only []
  by_cases h1 : start ≥ end_
  · rw [if_pos h1]; exact Or.inl ⟨_, rfl⟩
  rw [if_neg h1]
  by_cases h2 : start < now
  · rw [if_pos h2]; exact Or.inl ⟨_, rfl⟩
  rw [if_neg h2]
  rcases vehicleId with _ | v
  · exact Or.inl ⟨_, rfl⟩
  simp only []
  cases parseIntParam v "vehicleId" with
  | error e => exact Or.inl ⟨_, rfl⟩
  | ok vId =>
    simp only []
    cases findSpace db.spaces spaceId with
    | none => exact Or.inl ⟨_, rfl⟩
    | some space =>
      simp only []
      by_cases h3 : space.activo = false
      · rw [if_pos h3]; exact Or.inl ⟨_, rfl⟩
      rw [if_neg h3]
      by_cases h4 : space.idPropietario = occupantId
      · rw [if_pos h4]; exact Or.inl ⟨_, rfl⟩
      rw [if_neg h4]
      cases db.vehicles.find? (fun x => decide (x.id = vId) && decide (x.userId = occupantId)) with
      | none => exact Or.inl ⟨_, rfl⟩
      | some vehicle =>
        simp only []
        by_cases h5 : space.allowedVehicleTypes.length > 0
            ∧ space.allowedVehicleTypes.any (fun x => decide (x = vehicle.type)) = false
        · rw [if_pos h5]; exact Or.inl ⟨_, rfl⟩
        rw [if_neg h5]
        cases assertCapacityAvailable db space.id start end_ (some (space.capacity.getD 1)) none with
        | error e => exact Or.inl ⟨_, rfl⟩
        | ok n =>
          simp only []
          exact Or.inr ⟨_, rfl, rfl, not_le.mp h1, h2, rfl, rfl, rfl, rfl⟩

theorem coveringCount_append_pending (rs : List Reservation) (row : Reservation)
    (spaceId : Int) (t : Time) (hrow : row.status = Status.PENDIENTE) :
    coveringCount (rs ++ [row]) spaceId t = coveringCount rs spaceId t := by
  unfold coveringCount
  simp [List.filter_append, List.filter_cons, hrow]

theorem keysOk_append (db : Db) (row : Reservation) (hk : db.keysOk) (hrow : row.id = db.nextId) :
    Db.keysOk { db with reservations := db.reservations ++ [row], nextId := db.nextId + 1 } := by
  obtain ⟨hnd, hlt⟩ := hk
  constructor
  · simp only [List.map_append, List.map_cons, List.map_nil]
    rw [List.nodup_append]
    refine ⟨hnd, List.nodup_singleton _, ?_⟩
    intro x hx hx'
    rw [List.mem_singleton] at hx'
    obtain ⟨r, hr, hrx⟩ := List.mem_map.mp hx
    have := hlt r hr
    rw [hrx, hx', hrow] at this
    exact lt_irrefl _ this
  · intro r hr
    simp only [List.mem_append, List.mem_singleton] at hr
    rcases hr with hr | hr
    · have := hlt r hr
      show r.id < db.nextId + 1
      omega
    · show r.id < db.nextId + 1
      rw [hr, hrow]; omega

theorem keysOk_acceptRows (db : Db) (id : Int) (R : Reservation) (cap : Int) (hk : db.keysOk) :
    Db.keysOk { db with reservations := acceptRows db.reservations id R cap } := by
  obtain ⟨hnd, hlt⟩ := hk
  have hids := acceptRows_ids db.reservations id R cap
  constructor
  · show ((acceptRows db.reservations id R cap).map (fun r => r.id)).Nodup
    rw [hids]; exact hnd
  · intro r hr
    have hmem : r.id ∈ (acceptRows db.reservations id R cap).map (fun r => r.id) :=
      List.mem_map.mpr ⟨r, hr, rfl⟩
    rw [hids] at hmem
    obtain ⟨r0, hr0, h0⟩ := List.mem_map.mp hmem
    have := hlt r0 hr0
    show r.id < db.nextId
    rw [← h0]; exact this

theorem capacity_step (db : Db) (space : Space) (N : Int) (c : ServiceCall)
    (hc : c.isCreateOrAccept = true) (hk : db.keysOk)
    (hs : findSpace db.spaces space.id = some space) (hN : space.capacity.getD 1 = N)
    (hinv : ∀ t, (coveringCount db.reservations space.id t : Int) ≤ N) :
    (c.run db).keysOk ∧ findSpace (c.run db).spaces space.id = some space
      ∧ ∀ t, (coveringCount (c.run db).reservations space.id t : Int) ≤ N := by
  cases c with
  | create now o s a b m v =>
    simp only [ServiceCall.run]
    rcases create_cases db now o s a b m v with ⟨e, he⟩ | ⟨row, hid, hst, _, _, _, _, _, hcr⟩
    · rw [he]; exact ⟨hk, hs, hinv⟩
    · rw [hcr]
      refine ⟨keysOk_append db row hk hid, hs, ?_⟩
      intro t
      show (coveringCount (db.reservations ++ [row]) space.id t : Int) ≤ N
      rw [coveringCount_append_pending _ _ _ _ hst]
      exact hinv t
  | accept now p r =>
    simp only [ServiceCall.run]
    rcases accept_cases db now p r with
      ⟨e, he⟩ | ⟨R, space', _, hR, _, hP, _, hS, _, hlt, h1, hacc⟩
    · rw [he]; exact ⟨hk, hs, hinv⟩
    · rw [hacc]
      refine ⟨keysOk_acceptRows db r R _ hk, hs, ?_⟩
      intro t
      show (coveringCount (acceptRows db.reservations r R (space'.capacity.getD 1)) space.id t
        : Int) ≤ N
      apply coveringCount_acceptRows db.reservations r R _ space.id N t hk.1 hR hP h1 hlt
      · intro hsp
        rw [hsp, hs] at hS
        cases hS
        exact hN
      · exact hinv t
  | cancel _ _ _ _ => cases hc
  | reject _ _ _ => cases hc
  | checkIn _ _ _ _ => cases hc
  | startStay _ _ _ => cases hc
  | finishStay _ _ _ => cases hc
  | expireAcceptedPastDeadline _ _ => cases hc

/-- C3: take a store with key integrity, a space of that store and its capacity N
(the column, or 1 when it is null).  If no instant is covered by more than N
reservations of the space in ACEPTADA, CHECKIN_SOLICITADO or EN_CURSO, then after
any sequence of `create` and `accept` calls made one after the other, returning or
throwing, every instant is still covered by at most N such reservations. -/
theorem capacity_invariant (db : Db) (space : Space) (N : Int) (calls : List ServiceCall)
    (hk : db.keysOk) (hs : findSpace db.spaces space.id = some space)
    (hN : space.capacity.getD 1 = N)
    (hcalls : ∀ c ∈ calls, c.isCreateOrAccept = true)
    (hinit : ∀ t, (coveringCount db.reservations space.id t : Int) ≤ N) :
    ∀ t, (coveringCount (runCalls calls db).reservations space.id t : Int) ≤ N := by
  induction calls generalizing db with
  | nil => exact hinit
  | cons c cs ih =>
    have hstep := capacity_step db space N c (hcalls c (List.mem_cons_self _ _)) hk hs hN hinit
    have := ih (c.run db) hstep.1 hstep.2.1
      (fun c' hc' => hcalls c' (List.mem_cons_of_mem _ hc')) hstep.2.2
    simpa [runCalls] using this

/-- Witness for C3: on the empty example store two occupants book the same hour
of the capacity-1 space and the provider accepts both in turn; the hour ends up
covered by exactly one capacity-consuming reservation. -/
theorem capacity_invariant_witness :
    (exampleDb []).keysOk
      ∧ findSpace (exampleDb []).spaces exampleSpace.id = some exampleSpace
      ∧ exampleSpace.capacity.getD 1 = 1
      ∧ coveringCount (runCalls twoBookingsBothAccepted (exampleDb [])).reservations
          exampleSpace.id 3600000 = 1
      ∧ (coveringCount (runCalls twoBookingsBothAccepted (exampleDb [])).reservations
          exampleSpace.id 3600000 : Int) ≤ 1 :=
  ⟨⟨by decide, by decide⟩, rfl, rfl, by decide!,
    capacity_invariant (exampleDb []) exampleSpace 1 twoBookingsBothAccepted
      ⟨by decide, by decide⟩ rfl rfl (by decide)
      (fun t => by simp [exampleDb, coveringCount]) 3600000⟩

/-! ## update by key: lemmas -/

theorem findUnique_updateUnique_self (rs : List Reservation) (id : Int)
    (f : Reservation → Reservation) (r : Reservation)
    (hf : ∀ x, (f x).id = x.id) (hr : findUnique rs id = some r) :
    findUnique (updateUnique rs id f) id = some (f r) := by
  induction rs with
  | nil => cases hr
  | cons a rs ih =>
    unfold findUnique at hr ih ⊢
    by_cases h : a.id = id
    · simp only [List.find?_cons, h, decide_True] at hr
      cases hr
      simp [updateUnique, h, List.find?_cons, hf]
    · simp only [List.find?_cons, h, decide_False] at hr
      simp [updateUnique, h, List.find?_cons, ih hr]

theorem findUnique_updateUnique_ne (rs : List Reservation) (id id' : Int)
    (f : Reservation → Reservation) (hf : ∀ x, (f x).id = x.id) (hne : id' ≠ id) :
    findUnique (updateUnique rs id f) id' = findUnique rs id' := by
  induction rs with
  | nil => rfl
  | cons a rs ih =>
    unfold findUnique at ih ⊢
    by_cases h : a.id = id
    · have h' : ¬ a.id = id' := fun hh => hne (hh.symm.trans h)
      have h'' : ¬ (f a).id = id' := by rw [hf]; exact h'
      simp only [updateUnique, if_pos h, List.find?_cons, h', h'', decide_False]
    · by_cases h2 : a.id = id'
      · rw [updateUnique, if_neg h]
        simp only [List.find?_cons, h2, decide_True]
      · rw [updateUnique, if_neg h]
        simp only [List.find?_cons, h2, decide_False, ih]

theorem updateUnique_eq_map (rs : List Reservation) (id : Int) (f : Reservation → Reservation)
    (hids : (rs.map (fun r => r.id)).Nodup) :
    updateUnique rs id f = rs.map (fun r => if r.id = id then f r else r) := by
  induction rs with
  | nil => rfl
  | cons a rs ih =>
    rw [List.map_cons, List.nodup_cons] at hids
    by_cases h : a.id = id
    · simp only [updateUnique, h, if_true, List.map_cons]
      congr 1
      symm
      calc rs.map (fun r => if r.id = id then f r else r) = rs.map (fun r => r) := by
            apply List.map_congr_left
            intro r hr
            have : r.id ≠ id := by
              intro hh
              apply hids.1
              rw [h, ← hh]
              exact List.mem_map.mpr ⟨r, hr, rfl⟩
            simp [this]
        _ = rs := List.map_id' rs
    · simp only [updateUnique, h, if_false, List.map_cons, ih hids.2]

/-! ## checkIn, startStay, finishStay on a row in the source state -/

/-- C11: for an ACEPTADA reservation with stored deadline `d`, called by its
occupant: when `now > d`, `checkIn` throws 409 and leaves the row with status
EXPIRADA and nothing else changed (`checkInAt` is not set); when `now ≤ d` it
returns the row with `checkInAt = now` and status CHECKIN_SOLICITADO, which is the
row stored; rows under other ids are untouched. -/
theorem checkIn_on_accepted (db : Db) (now : Time) (occupantId reservationId : Int)
    (tol : Option ℚ) (r : Reservation) (d : Time)
    (hid : 0 < reservationId) (hr : findUnique db.reservations reservationId = some r)
    (hocc : r.occupantId = occupantId) (hst : r.status = Status.ACEPTADA)
    (hd : r.checkInDeadline = some d) :
    (now > d →
        (checkIn db now occupantId reservationId tol).2
            = Except.error ⟨409, "Se venció el tiempo de tolerancia para llegar."⟩
          ∧ findUnique (checkIn db now occupantId reservationId tol).1.reservations reservationId
            = some { r with status := Status.EXPIRADA })
      ∧ (now ≤ d →
        (checkIn db now occupantId reservationId tol).2
            = Except.ok { r with checkInAt := some now, status := Status.CHECKIN_SOLICITADO }
          ∧ findUnique (checkIn db now occupantId reservationId tol).1.reservations reservationId
            = some { r with checkInAt := some now, status := Status.CHECKIN_SOLICITADO })
      ∧ ∀ id', id' ≠ reservationId →
          findUnique (checkIn db now occupantId reservationId tol).1.reservations id'
            = findUnique db.reservations id' := by
  have hp := parseIntParam_pos reservationId "reservationId" hid
  subst hocc
  refine ⟨?_, ?_, ?_⟩
  · intro hlt
    have hlt' : d < now := hlt
    simp only [checkIn, hp, hr, hst, hd, ne_eq, not_true_eq_false, if_false,
      Option.getD_some, gt_iff_lt, hlt', if_true, true_and]
    refine (findUnique_updateUnique_self _ _ _ r (by intro _; rfl) hr).trans ?_
    simp only [hd]
  · intro hle
    have hlt' : ¬ d < now := not_lt.mpr hle
    simp only [checkIn, hp, hr, hst, hd, ne_eq, not_true_eq_false, if_false,
      Option.getD_some, gt_iff_lt, hlt']
    refine ⟨trivial, (findUnique_updateUnique_self _ _ _ r (by intro _; rfl) hr).trans ?_⟩
    simp only [hd]
  · intro id' hne
    by_cases hlt : d < now
    · simp only [checkIn, hp, hr, hst, hd, ne_eq, not_true_eq_false, if_false,
        Option.getD_some, gt_iff_lt, hlt, if_true]
      exact findUnique_updateUnique_ne _ _ _ _ (by intro _; rfl) hne
    · simp only [checkIn, hp, hr, hst, hd, ne_eq, not_true_eq_false, if_false,
        Option.getD_some, gt_iff_lt, hlt]
      exact findUnique_updateUnique_ne _ _ _ _ (by intro _; rfl) hne

/-- Witness for C11: the accepted example row has deadline 1 h 15 min; one
millisecond later `checkIn` expires it, at the deadline itself it checks in. -/
theorem checkIn_on_accepted_witness :
    ((checkIn (exampleDb [exampleAccepted]) 4500001 20 1 none).2
          = Except.error ⟨409, "Se venció el tiempo de tolerancia para llegar."⟩
        ∧ findUnique (checkIn (exampleDb [exampleAccepted]) 4500001 20 1 none).1.reservations 1
          = some { exampleAccepted with status := Status.EXPIRADA })
      ∧ ((checkIn (exampleDb [exampleAccepted]) 4500000 20 1 none).2
          = Except.ok { exampleAccepted with checkInAt := some 4500000,
                                             status := Status.CHECKIN_SOLICITADO }
        ∧ findUnique (checkIn (exampleDb [exampleAccepted]) 4500000 20 1 none).1.reservations 1
          = some { exampleAccepted with checkInAt := some 4500000,
                                        status := Status.CHECKIN_SOLICITADO }) :=
  ⟨(checkIn_on_accepted (exampleDb [exampleAccepted]) 4500001 20 1 none exampleAccepted 4500000
      (by decide) rfl rfl rfl rfl).1 (by decide),
    (checkIn_on_accepted (exampleDb [exampleAccepted]) 4500000 20 1 none exampleAccepted 4500000
      (by decide) rfl rfl rfl rfl).2.1 (by decide)⟩

/-- C12: for a CHECKIN_SOLICITADO reservation, called by its provider: when the
stored deadline has passed (`now > checkInDeadline`), `startStay` throws 409 and
leaves the row with status EXPIRADA and nothing else changed; otherwise, when
`startedAt` is already set it throws 409 and the store is unchanged, and when it
is not set it returns the row with `startedAt = now` and status EN_CURSO, every
other column unchanged, which is the row stored.  Rows under other ids are
untouched. -/
theorem startStay_on_checked_in (db : Db) (now : Time) (providerId reservationId : Int)
    (r : Reservation)
    (hid : 0 < reservationId) (hr : findUnique db.reservations reservationId = some r)
    (hprov : r.providerId = providerId) (hst : r.status = Status.CHECKIN_SOLICITADO) :
    ((∃ d, r.checkInDeadline = some d ∧ now > d) →
        (startStay db now providerId reservationId).2
            = Except.error ⟨409, "No se puede iniciar: tolerancia vencida (reserva expirada)."⟩
          ∧ findUnique (startStay db now providerId reservationId).1.reservations reservationId
            = some { r with status := Status.EXPIRADA })
      ∧ ((∀ d, r.checkInDeadline = some d → now ≤ d) → r.startedAt ≠ none →
        startStay db now providerId reservationId
          = (db, Except.error ⟨409, "La estancia ya fue iniciada."⟩))
      ∧ ((∀ d, r.checkInDeadline = some d → now ≤ d) → r.startedAt = none →
        (startStay db now providerId reservationId).2
            = Except.ok { r with startedAt := some now, status := Status.EN_CURSO }
          ∧ findUnique (startStay db now providerId reservationId).1.reservations reservationId
            = some { r with startedAt := some now, status := Status.EN_CURSO })
      ∧ ∀ id', id' ≠ reservationId →
          findUnique (startStay db now providerId reservationId).1.reservations id'
            = findUnique db.reservations id' := by
  have hp := parseIntParam_pos reservationId "reservationId" hid
  subst hprov
  refine ⟨?_, ?_, ?_, ?_⟩
  · rintro ⟨d, hd, hlt⟩
    have hlt' : d < now := hlt
    simp only [startStay, hp, hr, hst, hd, ne_eq, not_true_eq_false, if_false, gt_iff_lt, hlt',
      decide_True, reduceCtorEq, not_false_eq_true, and_self, if_true, true_and]
    refine (findUnique_updateUnique_self _ _ _ r (by intro _; rfl) hr).trans ?_
    simp only [hd]
  · intro hle hs
    cases hdl : r.checkInDeadline with
    | none =>
      cases hsa : r.startedAt with
      | none => exact absurd hsa hs
      | some s => simp [startStay, hp, hr, hst, hdl, hsa]
    | some d =>
      have hno : ¬ d < now := not_lt.mpr (hle d hdl)
      cases hsa : r.startedAt with
      | none => exact absurd hsa hs
      | some s => simp [startStay, hp, hr, hst, hdl, hsa, hno]
  · intro hle hs
    cases hdl : r.checkInDeadline with
    | none =>
      simp only [startStay, hp, hr, hst, hdl, hs, ne_eq, not_true_eq_false, if_false,
        Bool.false_eq_true, false_and, Option.isSome_none, true_and]
      refine (findUnique_updateUnique_self _ _ _ r (by intro _; rfl) hr).trans ?_
      simp only [hdl, hs]
    | some d =>
      have hno : ¬ d < now := not_lt.mpr (hle d hdl)
      simp only [startStay, hp, hr, hst, hdl, hs, ne_eq, not_true_eq_false, if_false,
        gt_iff_lt, hno, decide_False, Bool.false_eq_true, false_and, Option.isSome_none,
        true_and]
      refine (findUnique_updateUnique_self _ _ _ r (by intro _; rfl) hr).trans ?_
      simp only [hdl, hs]
  · intro id' hne
    have hE : findUnique (updateUnique db.reservations reservationId
        (fun x => { x with status := Status.EXPIRADA })) id' = findUnique db.reservations id' :=
      findUnique_updateUnique_ne _ _ _ _ (by intro _; rfl) hne
    have hS : findUnique (updateUnique db.reservations reservationId
        (fun x => { x with startedAt := some now, status := Status.EN_CURSO })) id'
        = findUnique db.reservations id' :=
      findUnique_updateUnique_ne _ _ _ _ (by intro _; rfl) hne
    cases hsa : r.startedAt with
    | none =>
      cases hdl : r.checkInDeadline with
      | none => simp [startStay, hp, hr, hst, hdl, hsa, hS]
      | some d =>
        by_cases hlt : d < now
        · simp [startStay, hp, hr, hst, hdl, hsa, hlt, hE]
        · simp [startStay, hp, hr, hst, hdl, hsa, hlt, hS]
    | some s =>
      cases hdl : r.checkInDeadline with
      | none => simp [startStay, hp, hr, hst, hdl, hsa]
      | some d =>
        by_cases hlt : d < now
        · simp [startStay, hp, hr, hst, hdl, hsa, hlt, hE]
        · simp [startStay, hp, hr, hst, hdl, hsa, hlt]

/-- Witness for C12: the checked-in example row is started before its deadline
and expired after it. -/
theorem startStay_on_checked_in_witness :
    ((startStay (exampleDb [exampleCheckedIn]) 4500001 10 1).2
          = Except.error ⟨409, "No se puede iniciar: tolerancia vencida (reserva expirada)."⟩
        ∧ findUnique (startStay (exampleDb [exampleCheckedIn]) 4500001 10 1).1.reservations 1
          = some { exampleCheckedIn with status := Status.EXPIRADA })
      ∧ ((startStay (exampleDb [exampleCheckedIn]) 3800000 10 1).2
          = Except.ok { exampleCheckedIn with startedAt := some 3800000,
                                              status := Status.EN_CURSO }
        ∧ findUnique (startStay (exampleDb [exampleCheckedIn]) 3800000 10 1).1.reservations 1
          = some { exampleCheckedIn with startedAt := some 3800000,
                                         status := Status.EN_CURSO }) :=
  ⟨(startStay_on_checked_in (exampleDb [exampleCheckedIn]) 4500001 10 1 exampleCheckedIn
      (by decide) rfl rfl rfl).1 ⟨4500000, rfl, by decide⟩,
    (startStay_on_checked_in (exampleDb [exampleCheckedIn]) 3800000 10 1 exampleCheckedIn
      (by decide) rfl rfl rfl).2.2.1 (fun d hd => by cases hd; decide) rfl⟩

/-- C13: for an EN_CURSO reservation with `startedAt = s`, called by its provider,
`finishStay` returns and stores the row with `endedAt = now`, status FINALIZADA and
`totalPrice` equal to the total `calcTotalPrice` gives for the rates of the
reservation's space over the span from `s` to `now` under the billing mode stored
on the reservation; `startAt`, `endAt`, `startedAt`, `billingMode` and every other
column keep their values, and rows under other ids are untouched. -/
theorem finishStay_on_running (db : Db) (now : Time) (providerId reservationId : Int)
    (r : Reservation) (s : Time) (space : Space)
    (hid : 0 < reservationId) (hr : findUnique db.reservations reservationId = some r)
    (hprov : r.providerId = providerId) (hst : r.status = Status.EN_CURSO)
    (hs : r.startedAt = some s) (hsp : findSpace db.spaces r.spaceId = some space) :
    (finishStay db now providerId reservationId).2
        = Except.ok { r with endedAt := some now, status := Status.FINALIZADA,
                             totalPrice := (calcTotalPrice space.precioHora space.precioDia
                                              s now r.billingMode).total }
      ∧ findUnique (finishStay db now providerId reservationId).1.reservations reservationId
        = some { r with endedAt := some now, status := Status.FINALIZADA,
                        totalPrice := (calcTotalPrice space.precioHora space.precioDia
                                         s now r.billingMode).total }
      ∧ ∀ id', id' ≠ reservationId →
          findUnique (finishStay db now providerId reservationId).1.reservations id'
            = findUnique db.reservations id' := by
  have hp := parseIntParam_pos reservationId "reservationId" hid
  subst hprov
  refine ⟨?_, ?_, ?_⟩
  · simp only [finishStay, hp, hr, hst, hs, hsp, ne_eq, not_true_eq_false, if_false]
  · simp only [finishStay, hp, hr, hst, hs, hsp, ne_eq, not_true_eq_false, if_false]
    refine (findUnique_updateUnique_self _ _ _ r (by intro _; rfl) hr).trans ?_
    simp only [hs]
  · intro id' hne
    simp only [finishStay, hp, hr, hst, hs, hsp, ne_eq, not_true_eq_false, if_false]
    exact findUnique_updateUnique_ne _ _ _ _ (by intro _; rfl) hne

/-- Witness for C13: the running example row, started at 1 h 3 min 20 s, is
finished one hour later; in HORA mode at 10 per hour the total is 10. -/
theorem finishStay_on_running_witness :
    (finishStay (exampleDb [exampleRunning]) 7400000 10 1).2
        = Except.ok { exampleRunning with endedAt := some 7400000, status := Status.FINALIZADA,
                                          totalPrice := (calcTotalPrice exampleSpace.precioHora
                                            exampleSpace.precioDia 3800000 7400000
                                            exampleRunning.billingMode).total }
      ∧ (calcTotalPrice exampleSpace.precioHora exampleSpace.precioDia 3800000 7400000
          exampleRunning.billingMode).total = 10 :=
  ⟨(finishStay_on_running (exampleDb [exampleRunning]) 7400000 10 1 exampleRunning 3800000
      exampleSpace (by decide) rfl rfl rfl rfl rfl).1, by decide!⟩

/-! ## reject -/

theorem dropWhile_eq_nil_iff_all (p : Char → Bool) (l : List Char) :
    l.dropWhile p = [] ↔ l.all p = true := by
  induction l with
  | nil => simp
  | cons a l ih =>
    by_cases h : p a = true
    · simp [List.dropWhile_cons, h, ih]
    · simp [List.dropWhile_cons, h]

theorem jsTrim_eq_empty_iff (s : String) :
    jsTrim s = "" ↔ s.toList.all isJsWhitespace = true := by
  unfold jsTrim
  constructor
  · intro h
    have h1 : ((s.toList.dropWhile isJsWhitespace).reverse.dropWhile isJsWhitespace).reverse
        = [] := by
      have := congrArg String.toList h
      simpa using this
    rw [List.reverse_eq_nil_iff, dropWhile_eq_nil_iff_all] at h1
    rw [← dropWhile_eq_nil_iff_all]
    cases hd : s.toList.dropWhile isJsWhitespace with
    | nil => rfl
    | cons a l =>
      exfalso
      have hhead := List.head_dropWhile_not isJsWhitespace s.toList (by rw [hd]; simp)
      have hall : ∀ x ∈ (a :: l), isJsWhitespace x = true := by
        intro x hx
        rw [hd] at h1
        have := List.all_eq_true.mp h1 x
        exact this (List.mem_reverse.mpr hx)
      simp only [hd, List.head_cons] at hhead
      rw [hall a (List.mem_cons_self _ _)] at hhead
      cases hhead
  · intro h
    have h0 : s.toList.dropWhile isJsWhitespace = [] := (dropWhile_eq_nil_iff_all _ _).mpr h
    rw [h0]
    rfl

theorem isBlankReason_iff (reason : Option String) :
    isBlankReason reason = true ↔ jsTrim (reason.getD "") = "" := by
  cases reason with
  | none => simp [isBlankReason, jsTrim_eq_empty_iff]
  | some s => simp [isBlankReason, jsTrim_eq_empty_iff]

theorem countP_id_of_nodup (rs : List Reservation) (id : Int) (r : Reservation)
    (hids : (rs.map (fun x => x.id)).Nodup) (hr : findUnique rs id = some r) :
    rs.countP (fun x => decide (x.id = id)) = 1 := by
  induction rs with
  | nil => cases hr
  | cons a rs ih =>
    rw [List.map_cons, List.nodup_cons] at hids
    unfold findUnique at hr ih
    by_cases h : a.id = id
    · have hzero : rs.countP (fun x => decide (x.id = id)) = 0 := by
        rw [List.countP_eq_zero]
        intro x hx hxid
        apply hids.1
        rw [h, ← of_decide_eq_true hxid]
        exact List.mem_map.mpr ⟨x, hx, rfl⟩
      simp [List.countP_cons, h, hzero]
    · simp only [List.find?_cons, h, decide_False] at hr
      simp [List.countP_cons, h, ih hids.2 hr]

/-- C20: `reject` with a reason that is missing, empty or only white space throws
an error of status 400 and leaves the store unchanged, whoever calls and whatever
the id.  With any other reason, called with a positive id by the provider who owns
the PENDIENTE reservation and its space, in a store with distinct ids, it returns
the row with status RECHAZADA and `rejectReason` equal to the trimmed reason; that
row replaces the old one and every other row is unchanged. -/
theorem reject_reason (db : Db) (providerId reservationId : Int) (reason : Option String) :
    (isBlankReason reason = true →
        ∃ e, reject db providerId reservationId reason = (db, Except.error e)
          ∧ e.statusCode = 400)
      ∧ (isBlankReason reason = false → ∀ r space, 0 < reservationId →
          (db.reservations.map (fun x => x.id)).Nodup →
          findUnique db.reservations reservationId = some r →
          r.providerId = providerId → r.status = Status.PENDIENTE →
          findSpace db.spaces r.spaceId = some space → space.idPropietario = providerId →
          (reject db providerId reservationId reason).2
              = Except.ok (some { r with status := Status.RECHAZADA,
                                         rejectReason := some (jsTrim (reason.getD "")) })
            ∧ (reject db providerId reservationId reason).1.reservations
              = db.reservations.map (fun x =>
                  if x.id = reservationId then
                    { x with status := Status.RECHAZADA,
                             rejectReason := some (jsTrim (reason.getD "")) }
                  else x)) := by
  constructor
  · intro hb
    have hb' := (isBlankReason_iff reason).mp hb
    unfold reject
    by_cases hpos : reservationId ≤ 0
    · refine ⟨⟨400, "Parámetro inválido: " ++ "reservationId"⟩, ?_, rfl⟩
      simp only [parseIntParam, if_pos hpos]
    · refine ⟨⟨400, "El motivo de rechazo" ++ " es obligatorio"⟩, ?_, rfl⟩
      simp only [parseIntParam, if_neg hpos, ensureNonEmptyString, hb', if_true]
  · intro hb r space hid hids hr hprov hst hsp hown
    have hb' : ¬ jsTrim (reason.getD "") = "" := by
      intro h
      rw [(isBlankReason_iff reason).mpr h] at hb
      cases hb
    have hp := parseIntParam_pos reservationId "reservationId" hid
    obtain ⟨hmem, hrid⟩ := findUnique_some _ _ _ hr
    have hsame : ∀ x ∈ db.reservations, x.id = reservationId → x = r := fun x hx hxid =>
      eq_of_id_eq db.reservations hids x r hx hmem (hxid.trans hrid.symm)
    have hcount : db.reservations.countP
        (fun x => decide (x.id = reservationId) && decide (x.status = Status.PENDIENTE)) = 1 := by
      rw [← countP_id_of_nodup db.reservations reservationId r hids hr]
      apply List.countP_congr
      intro x hx
      simp only [Bool.and_eq_true, decide_eq_true_eq]
      constructor
      · exact fun h => h.1
      · intro h
        exact ⟨h, (hsame x hx h) ▸ hst⟩
    have hrows : db.reservations.map (fun x =>
          if (decide (x.id = reservationId) && decide (x.status = Status.PENDIENTE)) = true then
            { x with status := Status.RECHAZADA,
                     rejectReason := some (jsTrim (reason.getD "")) }
          else x)
        = db.reservations.map (fun x =>
          if x.id = reservationId then
            { x with status := Status.RECHAZADA,
                     rejectReason := some (jsTrim (reason.getD "")) }
          else x) := by
      apply List.map_congr_left
      intro x hx
      by_cases hx' : x.id = reservationId
      · have := hsame x hx hx'
        subst this
        simp [hx', hst]
      · simp [hx']
    subst hprov
    simp only [reject, hp, ensureNonEmptyString, hb', if_false, hr, hst, hsp, hown, ne_eq,
      not_true_eq_false, updateMany, hcount, hrows]
    refine ⟨?_, trivial⟩
    rw [findUnique_map _ _ (by intro x; split <;> rfl), hr]
    simp [hrid]

/-- Witness for C20: on the example store the provider rejects the pending row
with the reason " no " and the row stores "no"; with a reason of blanks only the
call throws 400. -/
theorem reject_reason_witness :
    (∃ e, reject (exampleDb [examplePending]) 10 1 (some "  ")
        = (exampleDb [examplePending], Except.error e) ∧ e.statusCode = 400)
      ∧ (reject (exampleDb [examplePending]) 10 1 (some " no ")).2
        = Except.ok (some { examplePending with status := Status.RECHAZADA,
                                                rejectReason := some "no" }) :=
  ⟨(reject_reason (exampleDb [examplePending]) 10 1 (some "  ")).1 (by decide),
    ((reject_reason (exampleDb [examplePending]) 10 1 (some " no ")).2 (by decide)
      examplePending exampleSpace (by decide) (by decide) rfl rfl rfl rfl rfl).1⟩

/-! ## Deadline sweeper -/

theorem expiredWhere_iff (whereBase : WhereBase) (now : Time) (r : Reservation) :
    expiredWhere whereBase now r = true ↔
      whereBase.holds r = true
      ∧ r.status = Status.ACEPTADA ∧ r.checkInAt = none
      ∧ ∃ d, r.checkInDeadline = some d ∧ d < now := by
  unfold expiredWhere
  cases hd : r.checkInDeadline with
  | none => simp
  | some d => simp [and_assoc]

theorem sweep_rows (db : Db) (now : Time) (whereBase : WhereBase) :
    (expireAcceptedPastDeadline db now whereBase).1.reservations
      = db.reservations.map (fun r =>
          if r.id ∈ (db.reservations.filter (expiredWhere whereBase now)).map (fun x => x.id)
          then { r with status := Status.EXPIRADA } else r) := by
  unfold expireAcceptedPastDeadline
  by_cases h : (db.reservations.filter (expiredWhere whereBase now)).length = 0
  · have hnil : db.reservations.filter (expiredWhere whereBase now) = [] :=
      List.length_eq_zero.mp h
    simp only [h, if_true, hnil, List.map_nil, List.not_mem_nil, if_false]
    exact (List.map_id' _).symm
  · simp only [h, if_false, updateMany, decide_eq_true_eq]

theorem sweep_count (db : Db) (now : Time) (whereBase : WhereBase) :
    (expireAcceptedPastDeadline db now whereBase).2
      = (db.reservations.filter (expiredWhere whereBase now)).length := by
  unfold expireAcceptedPastDeadline
  by_cases h : (db.reservations.filter (expiredWhere whereBase now)).length = 0
  · simp only [h, if_true]
  · simp only [h, if_false]

theorem sweep_other (db : Db) (now : Time) (whereBase : WhereBase) :
    (expireAcceptedPastDeadline db now whereBase).1.spaces = db.spaces
      ∧ (expireAcceptedPastDeadline db now whereBase).1.vehicles = db.vehicles
      ∧ (expireAcceptedPastDeadline db now whereBase).1.nextId = db.nextId := by
  unfold expireAcceptedPastDeadline
  by_cases h : (db.reservations.filter (expiredWhere whereBase now)).length = 0
  · simp only [h, if_true, and_self]
  · simp only [h, if_false, and_self]

/-- C15: in a store with distinct ids, `expireAcceptedPastDeadline` run at `now`
for a scope (the rows on which the `whereBase` filter holds: those of one
occupant, or of one provider) sets status EXPIRADA on exactly the rows of the scope
that are ACEPTADA, have `checkInAt` null and a non-null `checkInDeadline` earlier than
`now`, changing no other column of them and no other row, and returns the number
of those rows. -/
theorem sweep_expires_exactly (db : Db) (now : Time) (whereBase : WhereBase)
    (hids : (db.reservations.map (fun r => r.id)).Nodup) :
    (∀ r, expiredWhere whereBase now r = true ↔
        whereBase.holds r = true
        ∧ r.status = Status.ACEPTADA ∧ r.checkInAt = none
        ∧ ∃ d, r.checkInDeadline = some d ∧ d < now)
      ∧ (expireAcceptedPastDeadline db now whereBase).1.reservations
        = db.reservations.map (fun r =>
            if expiredWhere whereBase now r = true then { r with status := Status.EXPIRADA }
            else r)
      ∧ (expireAcceptedPastDeadline db now whereBase).2
        = (db.reservations.filter (fun r => expiredWhere whereBase now r)).length := by
  refine ⟨expiredWhere_iff whereBase now, ?_, sweep_count db now whereBase⟩
  rw [sweep_rows]
  apply List.map_congr_left
  intro r hr
  have hiff : r.id ∈ (db.reservations.filter (expiredWhere whereBase now)).map (fun x => x.id)
      ↔ expiredWhere whereBase now r = true := by
    constructor
    · intro h
      obtain ⟨x, hx, hxid⟩ := List.mem_map.mp h
      have hx' := List.mem_filter.mp hx
      have : x = r := eq_of_id_eq db.reservations hids x r hx'.1 hr hxid
      rw [← this]; exact hx'.2
    · intro h
      exact List.mem_map.mpr ⟨r, List.mem_filter.mpr ⟨hr, h⟩, rfl⟩
  by_cases he : expiredWhere whereBase now r = true
  · rw [if_pos (hiff.mpr he), if_pos he]
  · rw [if_neg (fun h => he (hiff.mp h)), if_neg he]

/-- Witness for C15: one accepted row past its deadline and one pending row, both
of occupant 20; the sweep expires the first, leaves the second and returns 1. -/
theorem sweep_expires_exactly_witness :
    (expireAcceptedPastDeadline (exampleDb [exampleAccepted, examplePendingLater]) 4500001
        (WhereBase.occupantId 20)).1.reservations
        = [{ exampleAccepted with status := Status.EXPIRADA }, examplePendingLater]
      ∧ (expireAcceptedPastDeadline (exampleDb [exampleAccepted, examplePendingLater]) 4500001
        (WhereBase.occupantId 20)).2 = 1 :=
  ⟨(sweep_expires_exactly (exampleDb [exampleAccepted, examplePendingLater]) 4500001
      (WhereBase.occupantId 20) (by decide)).2.1.trans (by decide),
    (sweep_expires_exactly (exampleDb [exampleAccepted, examplePendingLater]) 4500001
      (WhereBase.occupantId 20) (by decide)).2.2.trans (by decide)⟩

/-- C16, as stated, fails: an accepted row has deadline 4500000; a first sweep reads
the clock at 4500000 and expires nothing, a second sweep right after reads 4500001
and, with no write in between, expires the row and returns 1. -/
theorem sweep_twice_counterexample :
    expireAcceptedPastDeadline (exampleDb [exampleAccepted]) 4500000 (WhereBase.occupantId 20)
        = (exampleDb [exampleAccepted], 0)
      ∧ expireAcceptedPastDeadline
          (expireAcceptedPastDeadline (exampleDb [exampleAccepted]) 4500000
            (WhereBase.occupantId 20)).1 4500001 (WhereBase.occupantId 20)
        = (exampleDb [{ exampleAccepted with status := Status.EXPIRADA }], 1) := by
  constructor <;> decide

/-- C16, amended: when every row that is past its deadline at the clock reading of
the second run was already past it at the reading of the first run (in particular
when both runs read the same clock value), a second sweep of the same scope right
after the first changes no row and returns 0. -/
theorem sweep_twice (db : Db) (now1 now2 : Time) (whereBase : WhereBase)
    (hsame : ∀ r ∈ db.reservations,
      expiredWhere whereBase now2 r = true → expiredWhere whereBase now1 r = true) :
    expireAcceptedPastDeadline (expireAcceptedPastDeadline db now1 whereBase).1 now2 whereBase
      = ((expireAcceptedPastDeadline db now1 whereBase).1, 0) := by
  have hnone : (expireAcceptedPastDeadline db now1 whereBase).1.reservations.filter
      (expiredWhere whereBase now2) = [] := by
    rw [List.filter_eq_nil_iff]
    intro x hx
    rw [sweep_rows] at hx
    obtain ⟨r, hr, hxr⟩ := List.mem_map.mp hx
    by_cases hin : r.id ∈ (db.reservations.filter (expiredWhere whereBase now1)).map
        (fun x => x.id)
    · rw [if_pos hin] at hxr
      rw [← hxr]
      simp [expiredWhere]
    · rw [if_neg hin] at hxr
      rw [← hxr]
      intro h2
      exact hin (List.mem_map.mpr ⟨r, List.mem_filter.mpr ⟨hr, hsame r hr h2⟩, rfl⟩)
  generalize (expireAcceptedPastDeadline db now1 whereBase).1 = db1 at hnone ⊢
  unfold expireAcceptedPastDeadline
  simp only [hnone, List.length_nil, if_true]

/-- Witness for C16 amended: two sweeps at the same clock reading 4500001; the
first expires the accepted row, the second changes nothing and returns 0. -/
theorem sweep_twice_witness :
    (expireAcceptedPastDeadline (exampleDb [exampleAccepted]) 4500001
        (WhereBase.occupantId 20)).2 = 1
      ∧ expireAcceptedPastDeadline
          (expireAcceptedPastDeadline (exampleDb [exampleAccepted]) 4500001
            (WhereBase.occupantId 20)).1 4500001 (WhereBase.occupantId 20)
        = ((expireAcceptedPastDeadline (exampleDb [exampleAccepted]) 4500001
            (WhereBase.occupantId 20)).1, 0) :=
  ⟨by decide, sweep_twice (exampleDb [exampleAccepted]) 4500001 4500001
    (WhereBase.occupantId 20) (fun _ _ h => h)⟩

/-! ## Finish pricing -/

theorem create_ok_row (db db' : Db) (now : Time) (occupantId spaceId : Int)
    (startAt endAt : Option Time) (billingMode : BillingMode) (vehicleId : Option Int)
    (row : Reservation)
    (h : create db now occupantId spaceId startAt endAt billingMode vehicleId
      = (db', Except.ok row)) :
    ∃ start end_ space, startAt = some start ∧ endAt = some end_ ∧ start < end_
      ∧ ¬ start < now ∧ findSpace db.spaces spaceId = some space
      ∧ row.startAt = start ∧ row.endAt = end_ ∧ row.spaceId = space.id
      ∧ row.occupantId = occupantId ∧ row.providerId = space.idPropietario
      ∧ row.billingMode
          = (calcTotalPrice space.precioHora space.precioDia start end_ billingMode).used
      ∧ row.totalPrice
          = (calcTotalPrice space.precioHora space.precioDia start end_ billingMode).total := by
  unfold create at h
  rcases startAt with _ | start
  · cases h
  rcases endAt with _ | end_
  · cases h
  simp only [] at h
  by_cases h1 : start ≥ end_
  · rw [if_pos h1] at h; cases h
  rw [if_neg h1] at h
  by_cases h2 : start < now
  · rw [if_pos h2] at h; cases h
  rw [if_neg h2] at h
  rcases vehicleId with _ | v
  · cases h
  simp only [] at h
  cases hv : parseIntParam v "vehicleId" with
  | error e => rw [hv] at h; cases h
  | ok vId =>
    rw [hv] at h
    simp only [] at h
    cases hs : findSpace db.spaces spaceId with
    | none => rw [hs] at h; cases h
    | some space =>
      rw [hs] at h
      simp only [] at h
      by_cases h3 : space.activo = false
      · rw [if_pos h3] at h; cases h
      rw [if_neg h3] at h
      by_cases h4 : space.idPropietario = occupantId
      · rw [if_pos h4] at h; cases h
      rw [if_neg h4] at h
      cases hveh : db.vehicles.find?
          (fun x => decide (x.id = vId) && decide (x.userId = occupantId)) with
      | none => rw [hveh] at h; cases h
      | some vehicle =>
        rw [hveh] at h
        simp only [] at h
        by_cases h5 : space.allowedVehicleTypes.length > 0
            ∧ space.allowedVehicleTypes.any (fun x => decide (x = vehicle.type)) = false
        · rw [if_pos h5] at h; cases h
        rw [if_neg h5] at h
        cases hcap : assertCapacityAvailable db space.id start end_
            (some (space.capacity.getD 1)) none with
        | error e => rw [hcap] at h; cases h
        | ok n =>
          rw [hcap] at h
          simp only [Prod.mk.injEq, Except.ok.injEq] at h
          obtain ⟨_, hrow⟩ := h
          subst hrow
          exact ⟨start, end_, space, rfl, rfl, not_le.mp h1, h2, rfl, rfl, rfl, rfl, rfl,
            rfl, rfl, rfl⟩

theorem calcTotalPrice_used_auto (precioHora precioDia : Option ℚ) (startAt endAt : Time) :
    (calcTotalPrice precioHora precioDia startAt endAt BillingMode.AUTO).used
      = if 8 * 3600000 ≤ endAt - startAt then BillingMode.DIA else BillingMode.HORA := by
  have key : (8 : ℚ) ≤ max 0 (((endAt - startAt : Int) : ℚ) / (1000 * 60 * 60))
      ↔ 8 * 3600000 ≤ endAt - startAt := by
    rw [le_max_iff]
    constructor
    · rintro (h | h)
      · norm_num at h
      · rw [le_div_iff₀ (by norm_num)] at h
        have h' : ((8 * 3600000 : Int) : ℚ) ≤ ((endAt - startAt : Int) : ℚ) := by
          push_cast; push_cast at h; linarith
        exact_mod_cast h'
    · intro h
      right
      rw [le_div_iff₀ (by norm_num)]
      have h' : ((8 * 3600000 : Int) : ℚ) ≤ ((endAt - startAt : Int) : ℚ) := by exact_mod_cast h
      push_cast at h' ⊢; linarith
  simp only [calcTotalPrice, AUTO_DAY_THRESHOLD_HOURS]
  by_cases h : 8 * 3600000 ≤ endAt - startAt
  · rw [if_pos h, if_pos (key.mpr h)]
  · rw [if_neg h, if_neg (fun c => h (key.mp c))]

theorem calcTotalPrice_ten_hours (s : Time) (mode : BillingMode) :
    (calcTotalPrice (some 20) (some 100) s (s + 36000000) mode).total
      = if mode = BillingMode.HORA then 200 else 100 := by
  have hdiff : (((s + 36000000 - s : Int) : ℚ)) / (1000 * 60 * 60) = 10 := by
    have : (s + 36000000 - s : Int) = 36000000 := by ring
    rw [this]; norm_num
  have hceil : ⌈(10 : ℚ) / 24⌉ = 1 := by
    rw [Int.ceil_eq_iff]; constructor <;> norm_num
  have hceil' : ⌈(5 : ℚ) / 12⌉ = 1 := by
    rw [Int.ceil_eq_iff]; constructor <;> norm_num
  have h200 : round2 200 = 200 := by
    simp only [round2, mathRound, EPSILON]; norm_num
  have h100 : round2 100 = 100 := by
    simp only [round2, mathRound, EPSILON]; norm_num
  cases mode with
  | HORA =>
    simp only [calcTotalPrice, hdiff, Option.getD_some]
    norm_num [h200]
  | DIA =>
    simp only [calcTotalPrice, hdiff, Option.getD_some]
    norm_num [hceil, hceil', h100]
    rfl
  | AUTO =>
    simp only [calcTotalPrice, hdiff, Option.getD_some, AUTO_DAY_THRESHOLD_HOURS]
    norm_num [hceil, hceil', h100]
    rfl

/-- C14, as stated, fails: on a space at 20 per hour and 100 per day a booking in
AUTO mode for one hour records HORA; the stay then lasts ten hours (started at
3800000, finished at 39800000) and `finishStay` stores `totalPrice` 200 with
billing mode HORA. -/
theorem finish_pricing_counterexample :
    ((runCalls shortBookingLongStay rateDb).reservations.map
        (fun r => (r.status, r.startedAt, r.endedAt, r.billingMode, r.totalPrice)))
      = [(Status.FINALIZADA, some 3800000, some 39800000, BillingMode.HORA, 200)] := by
  decide!

/-- C14, amended: a booking in AUTO mode records DIA when the requested span is at
least 8 hours and HORA when it is shorter; on a space at 20 per hour and 100 per
day, `finishStay` of a stay lasting from `startedAt` to `startedAt + 10h` stores
`totalPrice` 100 when the recorded mode is DIA and 200 when it is HORA, and leaves
the recorded mode as it was. -/
theorem finish_pricing (db : Db) (providerId reservationId : Int) (r : Reservation)
    (s : Time) (space : Space)
    (hid : 0 < reservationId) (hr : findUnique db.reservations reservationId = some r)
    (hprov : r.providerId = providerId) (hst : r.status = Status.EN_CURSO)
    (hs : r.startedAt = some s) (hsp : findSpace db.spaces r.spaceId = some space)
    (hh : space.precioHora = some 20) (hd : space.precioDia = some 100) :
    (∀ db0 db1 now occupantId spaceId startAt endAt vehicleId row,
        create db0 now occupantId spaceId (some startAt) (some endAt) BillingMode.AUTO vehicleId
            = (db1, Except.ok row) →
          row.billingMode
            = if 8 * 3600000 ≤ endAt - startAt then BillingMode.DIA else BillingMode.HORA)
      ∧ findUnique (finishStay db (s + 36000000) providerId reservationId).1.reservations
          reservationId
        = some { r with endedAt := some (s + 36000000), status := Status.FINALIZADA,
                        totalPrice := if r.billingMode = BillingMode.HORA then 200 else 100 }
      ∧ (r.billingMode = BillingMode.DIA →
          ∃ r', (finishStay db (s + 36000000) providerId reservationId).2 = Except.ok r'
            ∧ r'.totalPrice = 100 ∧ r'.billingMode = BillingMode.DIA)
      ∧ (r.billingMode = BillingMode.HORA →
          ∃ r', (finishStay db (s + 36000000) providerId reservationId).2 = Except.ok r'
            ∧ r'.totalPrice = 200 ∧ r'.billingMode = BillingMode.HORA) := by
  have hp := parseIntParam_pos reservationId "reservationId" hid
  subst hprov
  refine ⟨?_, ?_, ?_, ?_⟩
  · intro db0 db1 now occupantId spaceId startAt endAt vehicleId row hc
    obtain ⟨start, end_, sp, ha, hb, _, _, _, _, _, _, _, _, hmode, _⟩ :=
      create_ok_row db0 db1 now occupantId spaceId _ _ _ vehicleId row hc
    cases ha; cases hb
    rw [hmode, calcTotalPrice_used_auto]
  · simp only [finishStay, hp, hr, hst, hs, hsp, hh, hd, ne_eq, not_true_eq_false, if_false,
      calcTotalPrice_ten_hours]
    refine (findUnique_updateUnique_self _ _ _ r (by intro _; rfl) hr).trans ?_
    simp only [hs]
  · intro hm
    have hres : (finishStay db (s + 36000000) r.providerId reservationId).2
        = Except.ok { r with endedAt := some (s + 36000000), status := Status.FINALIZADA,
                             totalPrice := 100 } := by
      simp only [finishStay, hp, hr, hst, hs, hsp, hh, hd, ne_eq, not_true_eq_false, if_false,
        calcTotalPrice_ten_hours, hm, reduceCtorEq]
    exact ⟨_, hres, rfl, hm⟩
  · intro hm
    have hres : (finishStay db (s + 36000000) r.providerId reservationId).2
        = Except.ok { r with endedAt := some (s + 36000000), status := Status.FINALIZADA,
                             totalPrice := 200 } := by
      simp only [finishStay, hp, hr, hst, hs, hsp, hh, hd, ne_eq, not_true_eq_false, if_false,
        calcTotalPrice_ten_hours, hm, if_true]
    exact ⟨_, hres, rfl, hm⟩

/-- Witness for C14 amended: the same ten-hour stay after a booking in AUTO mode
for nine hours; DIA was recorded and the row is finished at 100.  Its last step is
the `finishStay` of the theorem, on the running row. -/
theorem finish_pricing_witness :
    ((runCalls longBookingLongStay rateDb).reservations.map
        (fun r => (r.status, r.startedAt, r.endedAt, r.billingMode, r.totalPrice)))
        = [(Status.FINALIZADA, some 3800000, some 39800000, BillingMode.DIA, 100)]
      ∧ ∃ r', (finishStay (runCalls (longBookingLongStay.take 4) rateDb) (3800000 + 36000000)
            10 100).2 = Except.ok r'
          ∧ r'.totalPrice = 100 ∧ r'.billingMode = BillingMode.DIA := by
  refine ⟨by decide!, ?_⟩
  have hr : findUnique (runCalls (longBookingLongStay.take 4) rateDb).reservations 100
      = some { id := 100, spaceId := 1, occupantId := 20, providerId := 10, vehicleId := some 5
               startAt := 3600000, endAt := 36000000, status := Status.EN_CURSO
               totalPrice := 100, billingMode := BillingMode.DIA
               checkInDeadline := some 4500000, checkInAt := some 3700000
               startedAt := some 3800000, endedAt := none
               rejectReason := none, cancelledReason := none } := by
    decide!
  exact (finish_pricing (runCalls (longBookingLongStay.take 4) rateDb) 10 100 _ 3800000
    { exampleSpace with precioHora := some 20, precioDia := some 100 }
    (by decide) hr rfl rfl rfl (by decide!) rfl rfl).2.2.1 rfl

/-! ## Quote service: theorems -/

theorem ceil_ceil_div (y : ℚ) (n : ℚ) (k : Int) (hn : n = (k : ℚ)) (hk : 0 < k) :
    ⌈((⌈y⌉ : Int) : ℚ) / n⌉ = ⌈y / n⌉ := by
  have hnpos : (0 : ℚ) < n := by rw [hn]; exact_mod_cast hk
  rw [Int.ceil_eq_iff]
  constructor
  · have h1 : ((⌈y / n⌉ : Int) : ℚ) - 1 < y / n := by
      have := Int.ceil_lt_add_one (y / n)
      linarith
    rw [lt_div_iff₀ hnpos] at h1 ⊢
    exact lt_of_lt_of_le h1 (Int.le_ceil y)
  · rw [div_le_iff₀ hnpos]
    have h2 : y ≤ ((⌈y / n⌉ * k : Int) : ℚ) := by
      have := Int.le_ceil (y / n)
      rw [div_le_iff₀ hnpos] at this
      push_cast; rw [← hn]; exact this
    have h3 : ⌈y⌉ ≤ ⌈y / n⌉ * k := Int.ceil_le.mpr h2
    have h4 : ((⌈y⌉ : Int) : ℚ) ≤ ((⌈y / n⌉ * k : Int) : ℚ) := by exact_mod_cast h3
    push_cast at h4; rw [← hn] at h4; exact h4

theorem ceilDiv_eq_ceil (a b : Int) (hb : 0 < b) :
    Quotes.ceilDiv a b = ⌈(a : ℚ) / (b : ℚ)⌉ := by
  have hbq : (0 : ℚ) < (b : ℚ) := by exact_mod_cast hb
  unfold Quotes.ceilDiv
  symm
  rw [Int.ceil_eq_iff]
  constructor
  · have h := Int.lt_floor_add_one ((((a + b - 1 : Int)) : ℚ) / (b : ℚ))
    rw [div_lt_iff₀ hbq] at h
    rw [lt_div_iff₀ hbq]
    have hint : (a + b - 1 : Int) < (⌊(((a + b - 1 : Int)) : ℚ) / (b : ℚ)⌋ + 1) * b := by
      exact_mod_cast h
    have hint' : a < ⌊(((a + b - 1 : Int)) : ℚ) / (b : ℚ)⌋ * b + 1 := by linarith
    have hle : a ≤ ⌊(((a + b - 1 : Int)) : ℚ) / (b : ℚ)⌋ * b := by omega
    have hlt : (⌊(((a + b - 1 : Int)) : ℚ) / (b : ℚ)⌋ - 1) * b < a := by
      have hfl := Int.floor_le ((((a + b - 1 : Int)) : ℚ) / (b : ℚ))
      rw [le_div_iff₀ hbq] at hfl
      have : ⌊(((a + b - 1 : Int)) : ℚ) / (b : ℚ)⌋ * b ≤ a + b - 1 := by exact_mod_cast hfl
      linarith
    have hq : (((⌊(((a + b - 1 : Int)) : ℚ) / (b : ℚ)⌋ - 1) * b : Int) : ℚ) < (a : ℚ) := by
      exact_mod_cast hlt
    rw [Int.cast_mul, Int.cast_sub, Int.cast_one] at hq
    exact hq
  · have h := Int.lt_floor_add_one ((((a + b - 1 : Int)) : ℚ) / (b : ℚ))
    rw [div_lt_iff₀ hbq] at h
    rw [div_le_iff₀ hbq]
    have hint : (a + b - 1 : Int) < (⌊(((a + b - 1 : Int)) : ℚ) / (b : ℚ)⌋ + 1) * b := by
      exact_mod_cast h
    have hle : a ≤ ⌊(((a + b - 1 : Int)) : ℚ) / (b : ℚ)⌋ * b := by linarith
    exact_mod_cast hle

theorem quote_hours (ms : Int) :
    Quotes.ceilDiv ⌈(ms : ℚ) / 60000⌉ 60 = ⌈(ms : ℚ) / 3600000⌉ := by
  rw [ceilDiv_eq_ceil _ _ (by norm_num)]
  have h := ceil_ceil_div ((ms : ℚ) / 60000) ((60 : Int) : ℚ) 60 rfl (by norm_num)
  rw [h]
  congr 1
  push_cast
  ring

theorem quote_days (ms : Int) :
    Quotes.ceilDiv ⌈(ms : ℚ) / 3600000⌉ 24 = ⌈(ms : ℚ) / 86400000⌉ := by
  rw [ceilDiv_eq_ceil _ _ (by norm_num)]
  have h := ceil_ceil_div ((ms : ℚ) / 3600000) ((24 : Int) : ℚ) 24 rfl (by norm_num)
  rw [h]
  congr 1
  push_cast
  ring

/-- C18, as stated, fails: for a space at 10 per hour with no daily rate (read as
0 by the code) and a span of one hour, the quote is 10, while the smaller of the
hourly total 10 and the daily total 0 is 0. -/
theorem quote_min_counterexample :
    Quotes.calcTotalPrice (some 10) none 0 3600000 = 10
      ∧ quoteSpec ((some (10 : ℚ)).getD 0) ((none : Option ℚ).getD 0) 0 3600000 = 0 := by
  constructor
  · have hc : ⌈(60 : ℚ)⌉ = 60 := by
      rw [Int.ceil_eq_iff]; constructor <;> norm_num
    simp only [Quotes.calcTotalPrice, Quotes.ceilDiv, mathRound, Option.getD]
    norm_num [hc]
  · have hc1 : ⌈(1 : ℚ)⌉ = 1 := by
      rw [Int.ceil_eq_iff]; constructor <;> norm_num
    have hc2 : ⌈(1 : ℚ) / 24⌉ = 1 := by
      rw [Int.ceil_eq_iff]; constructor <;> norm_num
    simp only [quoteSpec, roundHalfUp2, Option.getD]
    norm_num [hc1, hc2]

/-- C18, amended: for every rate pair and span, the quote is, rounded half-up to
two decimals, the smaller of whole hours rounded up times the hourly rate and whole
days rounded up times the daily rate when the daily rate is positive, and the
hourly total alone when the daily rate is missing or not positive. -/
theorem quote_min (precioHora precioDia : Option ℚ) (startAt endAt : Time) :
    Quotes.calcTotalPrice precioHora precioDia startAt endAt
      = if 0 < precioDia.getD 0 then
          quoteSpec (precioHora.getD 0) (precioDia.getD 0) startAt endAt
        else
          roundHalfUp2 ((⌈((endAt - startAt : Int) : ℚ) / 3600000⌉ : ℚ) * precioHora.getD 0) := by
  unfold Quotes.calcTotalPrice quoteSpec
  simp only [quote_hours, quote_days, gt_iff_lt]
  by_cases h : 0 < precioDia.getD 0
  · simp only [h, if_true, mathRound, roundHalfUp2]
  · simp only [h, if_false, mathRound, roundHalfUp2]

/-! ## Chat gating -/

theorem upsertRead_messages (chat : ChatDb) (now : Time) (reservationId userId last : Int) :
    (upsertRead chat now reservationId userId last).messages = chat.messages := by
  unfold upsertRead
  split <;> rfl

/-- C17: for a `chat:send` by the occupant or the provider of the reservation with
a body that is non-empty after trimming and at most 1000 characters long, the
acknowledgment has `ok: true` exactly when the status is ACEPTADA,
CHECKIN_SOLICITADO or EN_CURSO; in that case the trimmed message is appended to the
stored messages and returned; for every other status the acknowledgment is the
error CHAT_DISABLED_FOR_STATUS with the status, and the chat tables (messages and
read cursors) are unchanged. -/
theorem chatSend_gating (db : Db) (chat : ChatDb) (now : Time) (userId reservationId : Int)
    (body : Option String) (r : Reservation)
    (hr : findUnique db.reservations reservationId = some r)
    (hpart : r.occupantId = userId ∨ r.providerId = userId)
    (hne : jsTrim (body.getD "") ≠ "") (hlen : jsLength (jsTrim (body.getD "")) ≤ 1000) :
    ((chatSend db chat now userId reservationId body).2.ok = true ↔
        (r.status = Status.ACEPTADA ∨ r.status = Status.CHECKIN_SOLICITADO
          ∨ r.status = Status.EN_CURSO))
      ∧ ((r.status = Status.ACEPTADA ∨ r.status = Status.CHECKIN_SOLICITADO
            ∨ r.status = Status.EN_CURSO) →
          (chatSend db chat now userId reservationId body).1.messages
              = chat.messages ++ [⟨chat.nextMessageId, reservationId, userId,
                  jsTrim (body.getD ""), "TEXT", now⟩]
            ∧ (chatSend db chat now userId reservationId body).2.message
              = some ⟨chat.nextMessageId, reservationId, userId,
                  jsTrim (body.getD ""), "TEXT", now⟩)
      ∧ (¬ (r.status = Status.ACEPTADA ∨ r.status = Status.CHECKIN_SOLICITADO
            ∨ r.status = Status.EN_CURSO) →
          chatSend db chat now userId reservationId body
            = (chat, { ok := false, error := some "CHAT_DISABLED_FOR_STATUS", code := none
                       status := some r.status, message := none })) := by
  have hlen' : ¬ jsLength (jsTrim (body.getD "")) > 1000 := not_lt.mpr hlen
  have hap : assertParticipant db reservationId userId = Except.ok r := by
    simp only [assertParticipant, hr, hpart, not_true_eq_false, if_false]
  have hcan : canSendChat r.status = true ↔
      (r.status = Status.ACEPTADA ∨ r.status = Status.CHECKIN_SOLICITADO
        ∨ r.status = Status.EN_CURSO) := by
    simp [canSendChat]
  by_cases hs : canSendChat r.status = true
  · have hs' := hcan.mp hs
    have hf : ¬ canSendChat r.status = false := by rw [hs]; simp
    refine ⟨?_, ?_, ?_⟩
    · simp [chatSend, hne, hlen', hap, hs, hs']
    · intro _
      simp [chatSend, hne, hlen', hap, hs, upsertRead_messages]
    · intro hno; exact absurd hs' hno
  · have hs' : ¬ (r.status = Status.ACEPTADA ∨ r.status = Status.CHECKIN_SOLICITADO
        ∨ r.status = Status.EN_CURSO) := fun h => hs (hcan.mpr h)
    have hf : canSendChat r.status = false := by
      cases h : canSendChat r.status
      · rfl
      · exact absurd h hs
    refine ⟨?_, ?_, ?_⟩
    · simp [chatSend, hne, hlen', hap, hf, hs']
    · intro h; exact absurd h hs'
    · intro _
      simp [chatSend, hne, hlen', hap, hf]

/-- Witness for C17: occupant 20 sends " hola " on the accepted example row and the
message "hola" is stored; on the same row once FINALIZADA the send is refused and
nothing is written. -/
theorem chatSend_gating_witness :
    (chatSend (exampleDb [exampleAccepted]) emptyChat 5 20 1 (some " hola ")).1.messages
        = [⟨1, 1, 20, "hola", "TEXT", 5⟩]
      ∧ chatSend (exampleDb [{ exampleAccepted with status := Status.FINALIZADA }]) emptyChat 5
          20 1 (some " hola ")
        = (emptyChat, { ok := false, error := some "CHAT_DISABLED_FOR_STATUS", code := none
                        status := some Status.FINALIZADA, message := none }) :=
  ⟨((chatSend_gating (exampleDb [exampleAccepted]) emptyChat 5 20 1 (some " hola ")
      exampleAccepted rfl (Or.inl rfl) (by decide) (by decide)).2.1 (Or.inl rfl)).1,
    (chatSend_gating (exampleDb [{ exampleAccepted with status := Status.FINALIZADA }])
      emptyChat 5 20 1 (some " hola ") { exampleAccepted with status := Status.FINALIZADA }
      rfl (Or.inl rfl) (by decide) (by decide)).2.2 (by decide)⟩

/-! ## Row transitions of each operation -/

theorem RowStep.id_eq {accepted : Option Int} {r r' : Reservation}
    (h : RowStep accepted r r') : r'.id = r.id := by
  cases h <;> rfl

theorem rows_unchanged (db : Db) :
    ∃ g : Reservation → Reservation, db.reservations = db.reservations.map g
      ∧ (∀ r ∈ db.reservations, RowStep none r (g r)) ∧ db.nextId = db.nextId :=
  ⟨id, (List.map_id _).symm, fun r _ => RowStep.same r (by simp), rfl⟩

theorem rows_updateUnique (db : Db) (id : Int) (f : Reservation → Reservation) (R : Reservation)
    (hids : (db.reservations.map (fun r => r.id)).Nodup)
    (hR : findUnique db.reservations id = some R) (hstep : RowStep none R (f R)) :
    ∃ g : Reservation → Reservation,
      updateUnique db.reservations id f = db.reservations.map g
      ∧ (∀ r ∈ db.reservations, RowStep none r (g r)) ∧ db.nextId = db.nextId := by
  obtain ⟨hmem, hRid⟩ := findUnique_some _ _ _ hR
  refine ⟨fun r => if r.id = id then f r else r, updateUnique_eq_map _ _ _ hids, ?_, rfl⟩
  intro r hr
  by_cases h : r.id = id
  · have : r = R := eq_of_id_eq db.reservations hids r R hr hmem (h.trans hRid.symm)
    subst this
    simp only [h, if_true]
    exact hstep
  · simp only [h, if_false]
    exact RowStep.same r (by simp)

theorem cancel_rows (db : Db) (now : Time) (occupantId reservationId : Int)
    (reason : Option String) (hids : (db.reservations.map (fun r => r.id)).Nodup) :
    ∃ g : Reservation → Reservation,
      (cancel db now occupantId reservationId reason).1.reservations = db.reservations.map g
      ∧ (∀ r ∈ db.reservations, RowStep none r (g r))
      ∧ (cancel db now occupantId reservationId reason).1.nextId = db.nextId := by
  unfold cancel
  cases hp : parseIntParam reservationId "reservationId" with
  | error e => exact rows_unchanged db
  | ok id =>
    obtain ⟨hid, _⟩ := parseIntParam_ok _ _ _ hp
    subst hid
    simp only []
    cases hf : findUnique db.reservations id with
    | none => exact rows_unchanged db
    | some R =>
      simp only []
      by_cases h1 : R.occupantId ≠ occupantId
      · rw [if_pos h1]; exact rows_unchanged db
      rw [if_neg h1]
      by_cases h2 : ¬ (R.status = Status.PENDIENTE ∨ R.status = Status.ACEPTADA)
      · rw [if_pos h2]; exact rows_unchanged db
      rw [if_neg h2]
      by_cases h3 : R.startAt < now
      · rw [if_pos h3]; exact rows_unchanged db
      rw [if_neg h3]
      exact rows_updateUnique db id _ R hids hf
        (RowStep.cancel R _ (by simp) (not_not.mp h2))

theorem checkIn_rows (db : Db) (now : Time) (occupantId reservationId : Int)
    (tol : Option ℚ) (hids : (db.reservations.map (fun r => r.id)).Nodup) :
    ∃ g : Reservation → Reservation,
      (checkIn db now occupantId reservationId tol).1.reservations = db.reservations.map g
      ∧ (∀ r ∈ db.reservations, RowStep none r (g r))
      ∧ (checkIn db now occupantId reservationId tol).1.nextId = db.nextId := by
  unfold checkIn
  cases hp : parseIntParam reservationId "reservationId" with
  | error e => exact rows_unchanged db
  | ok id =>
    obtain ⟨hid, _⟩ := parseIntParam_ok _ _ _ hp
    subst hid
    simp only []
    cases hf : findUnique db.reservations id with
    | none => exact rows_unchanged db
    | some R =>
      simp only []
      by_cases h1 : R.occupantId ≠ occupantId
      · rw [if_pos h1]; exact rows_unchanged db
      rw [if_neg h1]
      by_cases h2 : R.status ≠ Status.ACEPTADA
      · rw [if_pos h2]; exact rows_unchanged db
      rw [if_neg h2]
      split
      · exact rows_updateUnique db id _ R hids hf
          (RowStep.checkInExpire R _ (by simp) (not_not.mp h2))
      · exact rows_updateUnique db id _ R hids hf
          (RowStep.checkIn R _ now (by simp) (not_not.mp h2))

theorem finishStay_rows (db : Db) (now : Time) (providerId reservationId : Int)
    (hids : (db.reservations.map (fun r => r.id)).Nodup) :
    ∃ g : Reservation → Reservation,
      (finishStay db now providerId reservationId).1.reservations = db.reservations.map g
      ∧ (∀ r ∈ db.reservations, RowStep none r (g r))
      ∧ (finishStay db now providerId reservationId).1.nextId = db.nextId := by
  unfold finishStay
  cases hp : parseIntParam reservationId "reservationId" with
  | error e => exact rows_unchanged db
  | ok id =>
    obtain ⟨hid, _⟩ := parseIntParam_ok _ _ _ hp
    subst hid
    simp only []
    cases hf : findUnique db.reservations id with
    | none => exact rows_unchanged db
    | some R =>
      simp only []
      by_cases h1 : R.providerId ≠ providerId
      · rw [if_pos h1]; exact rows_unchanged db
      rw [if_neg h1]
      by_cases h2 : R.status ≠ Status.EN_CURSO
      · rw [if_pos h2]; exact rows_unchanged db
      rw [if_neg h2]
      cases hs : R.startedAt with
      | none => exact rows_unchanged db
      | some s =>
        simp only []
        cases hsp : findSpace db.spaces R.spaceId with
        | none => exact rows_unchanged db
        | some space =>
          exact rows_updateUnique db id _ R hids hf
            (RowStep.finish R now s _ (by simp) (not_not.mp h2) hs)

theorem startStay_rows (db : Db) (now : Time) (providerId reservationId : Int)
    (hids : (db.reservations.map (fun r => r.id)).Nodup) :
    ∃ g : Reservation → Reservation,
      (startStay db now providerId reservationId).1.reservations = db.reservations.map g
      ∧ (∀ r ∈ db.reservations, RowStep none r (g r))
      ∧ (startStay db now providerId reservationId).1.nextId = db.nextId := by
  unfold startStay
  cases hp : parseIntParam reservationId "reservationId" with
  | error e => exact rows_unchanged db
  | ok id =>
    obtain ⟨hid, _⟩ := parseIntParam_ok _ _ _ hp
    subst hid
    simp only []
    cases hf : findUnique db.reservations id with
    | none => exact rows_unchanged db
    | some R =>
      simp only []
      by_cases h1 : R.providerId ≠ providerId
      · rw [if_pos h1]; exact rows_unchanged db
      rw [if_neg h1]
      cases hdl : R.checkInDeadline with
      | none =>
        simp only [Bool.false_eq_true, false_and, if_false]
        by_cases h2 : R.status ≠ Status.CHECKIN_SOLICITADO
        · rw [if_pos h2]; exact rows_unchanged db
        rw [if_neg h2]
        by_cases h3 : R.startedAt.isSome = true
        · rw [if_pos h3]; exact rows_unchanged db
        rw [if_neg h3]
        have hnone : R.startedAt = none := by
          cases hs : R.startedAt with
          | none => rfl
          | some s => rw [hs] at h3; exact absurd rfl h3
        exact rows_updateUnique db id _ R hids hf
          (RowStep.start R now (by simp) (not_not.mp h2) hnone)
      | some d =>
        simp only []
        by_cases h4 : decide (now > d) = true ∧ R.status ≠ Status.EN_CURSO
        · rw [if_pos h4]
          exact rows_updateUnique db id _ R hids hf
            (RowStep.expire R d (by simp) hdl h4.2)
        · rw [if_neg h4]
          by_cases h2 : R.status ≠ Status.CHECKIN_SOLICITADO
          · rw [if_pos h2]; exact rows_unchanged db
          rw [if_neg h2]
          by_cases h3 : R.startedAt.isSome = true
          · rw [if_pos h3]; exact rows_unchanged db
          rw [if_neg h3]
          have hnone : R.startedAt = none := by
            cases hs : R.startedAt with
            | none => rfl
            | some s => rw [hs] at h3; exact absurd rfl h3
          exact rows_updateUnique db id _ R hids hf
            (RowStep.start R now (by simp) (not_not.mp h2) hnone)

theorem reject_rows (db : Db) (providerId reservationId : Int) (reason : Option String) :
    ∃ g : Reservation → Reservation,
      (reject db providerId reservationId reason).1.reservations = db.reservations.map g
      ∧ (∀ r ∈ db.reservations, RowStep none r (g r))
      ∧ (reject db providerId reservationId reason).1.nextId = db.nextId := by
  unfold reject
  cases hp : parseIntParam reservationId "reservationId" with
  | error e => exact rows_unchanged db
  | ok id =>
    simp only []
    cases hreason : ensureNonEmptyString reason "El motivo de rechazo" with
    | error e => exact rows_unchanged db
    | ok cleanReason =>
      simp only []
      cases hf : findUnique db.reservations id with
      | none => exact rows_unchanged db
      | some R =>
        simp only []
        by_cases h1 : R.providerId ≠ providerId
        · rw [if_pos h1]; exact rows_unchanged db
        rw [if_neg h1]
        by_cases h2 : R.status ≠ Status.PENDIENTE
        · rw [if_pos h2]; exact rows_unchanged db
        rw [if_neg h2]
        cases hsp : findSpace db.spaces R.spaceId with
        | none => exact rows_unchanged db
        | some space =>
          simp only []
          by_cases h3 : space.idPropietario ≠ providerId
          · rw [if_pos h3]; exact rows_unchanged db
          rw [if_neg h3]
          split
          · exact rows_unchanged db
          · refine ⟨_, rfl, ?_, rfl⟩
            intro r _
            by_cases hr : (decide (r.id = id) && decide (r.status = Status.PENDIENTE)) = true
            · simp only [hr, if_true]
              simp only [Bool.and_eq_true, decide_eq_true_eq] at hr
              exact RowStep.reject r cleanReason (by simp) hr.2
            · simp only [hr, if_false]
              exact RowStep.same r (by simp)

theorem sweep_rowSteps (db : Db) (now : Time) (whereBase : WhereBase)
    (hids : (db.reservations.map (fun r => r.id)).Nodup) :
    ∃ g : Reservation → Reservation,
      (expireAcceptedPastDeadline db now whereBase).1.reservations = db.reservations.map g
      ∧ (∀ r ∈ db.reservations, RowStep none r (g r))
      ∧ (expireAcceptedPastDeadline db now whereBase).1.nextId = db.nextId := by
  refine ⟨_, sweep_rows db now whereBase, ?_, (sweep_other db now whereBase).2.2⟩
  intro r hr
  by_cases h : r.id ∈ (db.reservations.filter (expiredWhere whereBase now)).map (fun x => x.id)
  · simp only [h, if_true]
    obtain ⟨x, hx, hxid⟩ := List.mem_map.mp h
    have hx' := List.mem_filter.mp hx
    have hxr : x = r := eq_of_id_eq db.reservations hids x r hx'.1 hr hxid
    rw [hxr] at hx'
    obtain ⟨_, hst, _, d, hd, _⟩ := (expiredWhere_iff whereBase now r).mp hx'.2
    exact RowStep.expire r d (by simp) hd (by rw [hst]; simp)
  · simp only [h, if_false]
    exact RowStep.same r (by simp)

theorem accept_rowSteps (db : Db) (now : Time) (providerId reservationId : Int)
    (hids : (db.reservations.map (fun r => r.id)).Nodup) :
    ∃ g : Reservation → Reservation,
      (accept db now providerId reservationId).1.reservations = db.reservations.map g
      ∧ (∀ r ∈ db.reservations,
          RowStep ((ServiceCall.accept now providerId reservationId).accepted db) r (g r))
      ∧ (accept db now providerId reservationId).1.nextId = db.nextId
      ∧ (∀ i, (ServiceCall.accept now providerId reservationId).accepted db = some i →
          ∃ r ∈ db.reservations, r.id = i) := by
  rcases accept_cases db now providerId reservationId with
    ⟨e, he⟩ | ⟨R, space, _, hR, _, hP, _, _, _, _, _, hacc⟩
  · have hnone : (ServiceCall.accept now providerId reservationId).accepted db = none := by
      simp only [ServiceCall.accepted, he]
    rw [hnone, he]
    obtain ⟨g, h1, h2, h3⟩ := rows_unchanged db
    exact ⟨g, h1, h2, h3, (fun i hi => by cases hi)⟩
  · have hsome : (ServiceCall.accept now providerId reservationId).accepted db
        = some reservationId := by
      simp only [ServiceCall.accepted, hacc]
    obtain ⟨hmem, hRid⟩ := findUnique_some _ _ _ hR
    rw [hsome, hacc]
    refine ⟨_, acceptRows_eq_map db.reservations reservationId R _ hids hR hP, ?_, rfl, ?_⟩
    · intro r hr
      by_cases hid : r.id = reservationId
      · have hrR : r = R := eq_of_id_eq db.reservations hids r R hr hmem (hid.trans hRid.symm)
        subst hrR
        simp only [hid, if_true]
        exact RowStep.accept r _ (by rw [hid]) hP
      · have hne : some reservationId ≠ some r.id := by
          intro h; cases h; exact hid rfl
        simp only [hid, if_false]
        split
        · rename_i hc
          have hpend : r.status = Status.PENDIENTE := by
            have := hc.2
            simp only [pendingOverlapWhere, Bool.and_eq_true, decide_eq_true_eq] at this
            exact this.1.1.2
          exact RowStep.reject r _ hne hpend
        · exact RowStep.same r hne
    · intro i hi
      cases hi
      exact ⟨R, hmem, hRid⟩

theorem call_rowSteps (c : ServiceCall) (db : Db) (hk : db.keysOk) :
    ∃ (g : Reservation → Reservation) (news : List Reservation),
      (c.run db).reservations = db.reservations.map g ++ news
      ∧ (∀ r ∈ db.reservations, RowStep (c.accepted db) r (g r))
      ∧ (∀ i, c.accepted db = some i → ∃ r ∈ db.reservations, r.id = i)
      ∧ ((news = [] ∧ (c.run db).nextId = db.nextId)
        ∨ ∃ row, news = [row] ∧ row.id = db.nextId ∧ (c.run db).nextId = db.nextId + 1
            ∧ row.status = Status.PENDIENTE ∧ row.checkInDeadline = none
            ∧ row.startedAt = none ∧ row.startAt < row.endAt ∧ c.accepted db = none) := by
  have lift : ∀ rows : List Reservation, ∀ nid : Int,
      (∃ g : Reservation → Reservation, rows = db.reservations.map g
        ∧ (∀ r ∈ db.reservations, RowStep none r (g r)) ∧ nid = db.nextId) →
      ∃ (g : Reservation → Reservation) (news : List Reservation),
        rows = db.reservations.map g ++ news
        ∧ (∀ r ∈ db.reservations, RowStep none r (g r))
        ∧ (∀ i, (none : Option Int) = some i → ∃ r ∈ db.reservations, r.id = i)
        ∧ ((news = [] ∧ nid = db.nextId)
          ∨ ∃ row, news = [row] ∧ row.id = db.nextId ∧ nid = db.nextId + 1
              ∧ row.status = Status.PENDIENTE ∧ row.checkInDeadline = none
              ∧ row.startedAt = none ∧ row.startAt < row.endAt
              ∧ (none : Option Int) = none) := by
    rintro rows nid ⟨g, h1, h2, h3⟩
    exact ⟨g, [], (by rw [List.append_nil]; exact h1), h2, (fun i hi => by cases hi),
      Or.inl ⟨rfl, h3⟩⟩
  cases c with
  | create now o s a b m v =>
    have hacc : (ServiceCall.create now o s a b m v).accepted db = none := rfl
    have hrun : (ServiceCall.create now o s a b m v).run db
        = (Cicoche.create db now o s a b m v).1 := rfl
    rw [hacc, hrun]
    rcases create_cases db now o s a b m v with
      ⟨e, he⟩ | ⟨row, hid, hst, hspan, _, hdl, _, hsa, hcr⟩
    · rw [he]; exact lift _ _ (rows_unchanged db)
    · rw [hcr]
      exact ⟨id, [row], (by simp), (fun r _ => RowStep.same r (by simp)),
        (fun i hi => by cases hi), Or.inr ⟨row, rfl, hid, rfl, hst, hdl, hsa, hspan, rfl⟩⟩
  | cancel now o r reason =>
    exact lift _ _ (cancel_rows db now o r reason hk.1)
  | accept now p r =>
    obtain ⟨g, h1, h2, h3, h4⟩ := accept_rowSteps db now p r hk.1
    exact ⟨g, [], (by rw [List.append_nil]; exact h1), h2, h4, Or.inl ⟨rfl, h3⟩⟩
  | reject p r reason =>
    exact lift _ _ (reject_rows db p r reason)
  | checkIn now o r t =>
    exact lift _ _ (checkIn_rows db now o r t hk.1)
  | startStay now p r =>
    exact lift _ _ (startStay_rows db now p r hk.1)
  | finishStay now p r =>
    exact lift _ _ (finishStay_rows db now p r hk.1)
  | expireAcceptedPastDeadline now w =>
    exact lift _ _ (sweep_rowSteps db now w hk.1)

theorem call_keysOk (c : ServiceCall) (db : Db) (hk : db.keysOk) : (c.run db).keysOk := by
  obtain ⟨g, news, hrows, hstep, _, hnews⟩ := call_rowSteps c db hk
  have hidmap : (db.reservations.map g).map (fun r => r.id)
      = db.reservations.map (fun r => r.id) := by
    rw [List.map_map]
    apply List.map_congr_left
    intro r hr
    exact (hstep r hr).id_eq
  rcases hnews with ⟨hnil, hnid⟩ | ⟨row, hrow, hid, hnid, _⟩
  · constructor
    · rw [hrows, hnil, List.append_nil, hidmap]; exact hk.1
    · intro r hr
      rw [hrows, hnil, List.append_nil] at hr
      obtain ⟨r0, hr0, hg⟩ := List.mem_map.mp hr
      rw [hnid, ← hg, (hstep r0 hr0).id_eq]
      exact hk.2 r0 hr0
  · constructor
    · rw [hrows, hrow, List.map_append, hidmap, List.nodup_append]
      refine ⟨hk.1, List.nodup_singleton _, ?_⟩
      intro x hx hx'
      simp only [List.map_cons, List.map_nil, List.mem_singleton] at hx'
      obtain ⟨r0, hr0, h0⟩ := List.mem_map.mp hx
      have := hk.2 r0 hr0
      rw [h0, hx', hid] at this
      exact lt_irrefl _ this
    · intro r hr
      rw [hrows, hrow, List.mem_append, List.mem_singleton] at hr
      rw [hnid]
      rcases hr with hr | hr
      · obtain ⟨r0, hr0, hg⟩ := List.mem_map.mp hr
        rw [← hg, (hstep r0 hr0).id_eq]
        have := hk.2 r0 hr0
        omega
      · rw [hr, hid]; omega

/-! ## The check-in deadline is set exactly by acceptance -/

theorem mem_append_accepted (A : List Int) (acc : Option Int) (i : Int) :
    i ∈ A ++ acc.toList ↔ i ∈ A ∨ acc = some i := by
  rw [List.mem_append]
  cases acc with
  | none => simp
  | some a =>
    simp only [Option.toList_some, List.mem_singleton, Option.some.injEq]
    constructor
    · rintro (h | h)
      · exact Or.inl h
      · exact Or.inr h.symm
    · rintro (h | h)
      · exact Or.inl h
      · exact Or.inr h.symm

theorem deadlineOk_step (A : List Int) (acc : Option Int) (r r' : Reservation)
    (h : RowStep acc r r') (hr : deadlineOk A r) : deadlineOk (A ++ acc.toList) r' := by
  obtain ⟨hiff, hnull, hset⟩ := hr
  have hmem : ∀ x : Reservation, x.id = r.id → acc ≠ some r.id →
      (x.id ∈ A ++ acc.toList ↔ r.id ∈ A) := by
    intro x hx hne
    rw [mem_append_accepted, hx]
    constructor
    · rintro (h1 | h1)
      · exact h1
      · exact absurd h1 hne
    · exact Or.inl
  cases h with
  | same hne =>
    exact ⟨by rw [hmem r rfl hne]; exact hiff, hnull, hset⟩
  | accept d hacc hst =>
    refine ⟨?_, ?_, ?_⟩
    · rw [mem_append_accepted]
      simp [hacc]
    · simp
    · simp
  | reject reason hne hst =>
    have hnone := hnull (Or.inl hst)
    refine ⟨?_, ?_, ?_⟩
    · rw [hmem _ rfl hne]; exact hiff
    · intro _; exact hnone
    · simp
  | cancel reason hne hst =>
    refine ⟨?_, ?_, ?_⟩
    · rw [hmem _ rfl hne]; exact hiff
    · simp
    · simp
  | checkInExpire d hne hst =>
    have hsome := hset (Or.inl hst)
    refine ⟨?_, ?_, ?_⟩
    · rw [hmem _ rfl hne]
      simp only [ne_eq, reduceCtorEq, not_false_eq_true, true_iff]
      exact hiff.mp hsome
    · simp
    · simp
  | checkIn d now hne hst =>
    have hsome := hset (Or.inl hst)
    refine ⟨?_, ?_, ?_⟩
    · rw [hmem _ rfl hne]
      simp only [ne_eq, reduceCtorEq, not_false_eq_true, true_iff]
      exact hiff.mp hsome
    · simp
    · simp
  | expire d hne hd hst =>
    have hsome : r.checkInDeadline ≠ none := by rw [hd]; simp
    refine ⟨?_, ?_, ?_⟩
    · rw [hmem _ rfl hne]; exact hiff
    · simp
    · intro _; exact hsome
  | start now hne hst hsa =>
    have hsome := hset (Or.inr (Or.inl hst))
    refine ⟨?_, ?_, ?_⟩
    · rw [hmem _ rfl hne]; exact hiff
    · simp
    · intro _; exact hsome
  | finish now s price hne hst hsa =>
    have hsome := hset (Or.inr (Or.inr (Or.inl hst)))
    refine ⟨?_, ?_, ?_⟩
    · rw [hmem _ rfl hne]; exact hiff
    · simp
    · intro _; exact hsome

theorem deadline_call (c : ServiceCall) (db : Db) (A : List Int) (hk : db.keysOk)
    (hA : ∀ a ∈ A, ∃ r ∈ db.reservations, r.id = a)
    (hinv : ∀ r ∈ db.reservations, deadlineOk A r) :
    (∀ a ∈ A ++ (c.accepted db).toList, ∃ r ∈ (c.run db).reservations, r.id = a)
      ∧ ∀ r ∈ (c.run db).reservations, deadlineOk (A ++ (c.accepted db).toList) r := by
  obtain ⟨g, news, hrows, hstep, hacc, hnews⟩ := call_rowSteps c db hk
  constructor
  · intro a ha
    rw [mem_append_accepted] at ha
    have hold : ∃ r ∈ db.reservations, r.id = a := by
      rcases ha with ha | ha
      · exact hA a ha
      · exact hacc a ha
    obtain ⟨r, hr, hra⟩ := hold
    refine ⟨g r, ?_, ?_⟩
    · rw [hrows]
      exact List.mem_append_left _ (List.mem_map.mpr ⟨r, hr, rfl⟩)
    · rw [(hstep r hr).id_eq]; exact hra
  · intro r' hr'
    rw [hrows, List.mem_append] at hr'
    rcases hr' with hr' | hr'
    · obtain ⟨r, hr, hg⟩ := List.mem_map.mp hr'
      rw [← hg]
      exact deadlineOk_step A _ r (g r) (hstep r hr) (hinv r hr)
    · rcases hnews with ⟨hnil, _⟩ | ⟨row, hrow, hid, _, hst, hdl, _, _, hnone⟩
      · rw [hnil] at hr'; cases hr'
      · rw [hrow, List.mem_singleton] at hr'
        subst hr'
        have hfresh : r'.id ∉ A := by
          intro hin
          obtain ⟨r0, hr0, h0⟩ := hA _ hin
          have := hk.2 r0 hr0
          rw [h0, hid] at this
          exact lt_irrefl _ this
        refine ⟨?_, ?_, ?_⟩
        · rw [mem_append_accepted, hnone, hdl]
          simp [hfresh]
        · intro _; exact hdl
        · rw [hst]; simp

theorem deadline_run (calls : List ServiceCall) (db : Db) (A : List Int) (hk : db.keysOk)
    (hA : ∀ a ∈ A, ∃ r ∈ db.reservations, r.id = a)
    (hinv : ∀ r ∈ db.reservations, deadlineOk A r) :
    ∀ r ∈ (runCalls calls db).reservations, deadlineOk (A ++ acceptedIds calls db) r := by
  induction calls generalizing db A with
  | nil =>
    intro r hr
    simp only [acceptedIds, List.append_nil]
    exact hinv r hr
  | cons c cs ih =>
    have hstep := deadline_call c db A hk hA hinv
    have := ih (c.run db) (A ++ (c.accepted db).toList) (call_keysOk c db hk) hstep.1 hstep.2
    simpa [runCalls, acceptedIds, List.append_assoc] using this

/-- C19: in every store reached from a store without reservations by any sequence
of service calls, each reservation has a non-null `checkInDeadline` exactly when
its id was accepted by some `accept` call of the sequence that returned; the
deadline is null for every PENDIENTE and every RECHAZADA reservation (and so for
every reservation cancelled without having been accepted), and non-null for every
reservation in ACEPTADA, CHECKIN_SOLICITADO, EN_CURSO, FINALIZADA or EXPIRADA. -/
theorem checkInDeadline_iff_accepted (spaces : List Space) (vehicles : List Vehicle)
    (nextId : Int) (calls : List ServiceCall) :
    ∀ r ∈ (runCalls calls ⟨[], spaces, vehicles, nextId⟩).reservations,
      (r.checkInDeadline ≠ none ↔ r.id ∈ acceptedIds calls ⟨[], spaces, vehicles, nextId⟩)
        ∧ (r.status = Status.PENDIENTE ∨ r.status = Status.RECHAZADA →
            r.checkInDeadline = none)
        ∧ (r.status = Status.ACEPTADA ∨ r.status = Status.CHECKIN_SOLICITADO
            ∨ r.status = Status.EN_CURSO ∨ r.status = Status.FINALIZADA
            ∨ r.status = Status.EXPIRADA → r.checkInDeadline ≠ none) := by
  intro r hr
  have h := deadline_run calls ⟨[], spaces, vehicles, nextId⟩ []
    ⟨List.nodup_nil, fun r hr => by cases hr⟩ (fun a ha => by cases ha)
    (fun r hr => by cases hr) r hr
  rw [List.nil_append] at h
  exact h

/-- Witness for C19: three bookings on the example space, the first accepted, the
second rejected and the third cancelled while pending; only the accepted one has a
deadline, and its id is the only accepted id. -/
theorem checkInDeadline_iff_accepted_witness :
    ((runCalls acceptedRejectedCancelled (exampleDb [])).reservations.map
        (fun r => (r.id, r.status, r.checkInDeadline)))
        = [(100, Status.ACEPTADA, some 4500000), (101, Status.RECHAZADA, none),
            (102, Status.CANCELADA, none)]
      ∧ acceptedIds acceptedRejectedCancelled (exampleDb []) = [100]
      ∧ ((some (4500000 : Time) ≠ none ↔
            (100 : Int) ∈ acceptedIds acceptedRejectedCancelled (exampleDb []))
        ∧ (Status.ACEPTADA = Status.PENDIENTE ∨ Status.ACEPTADA = Status.RECHAZADA →
            some (4500000 : Time) = none)
        ∧ (Status.ACEPTADA = Status.ACEPTADA ∨ Status.ACEPTADA = Status.CHECKIN_SOLICITADO
            ∨ Status.ACEPTADA = Status.EN_CURSO ∨ Status.ACEPTADA = Status.FINALIZADA
            ∨ Status.ACEPTADA = Status.EXPIRADA → some (4500000 : Time) ≠ none)) :=
  ⟨by decide!, by decide!,
    checkInDeadline_iff_accepted [exampleSpace] [⟨5, 20, "COCHE"⟩, ⟨6, 21, "COCHE"⟩] 100
      acceptedRejectedCancelled { exampleAccepted with id := 100 } (by decide!)⟩

/-! ## Cancellation: theorems -/

theorem cancel_eval (db : Db) (now : Time) (occupantId reservationId : Int)
    (reason : Option String) (r : Reservation) (hid : 0 < reservationId)
    (hfind : findUnique db.reservations reservationId = some r)
    (hocc : r.occupantId = occupantId) :
    cancel db now occupantId reservationId reason
      = if ¬ (r.status = Status.PENDIENTE ∨ r.status = Status.ACEPTADA) then
          (db, .error ⟨400, "Solo se pueden cancelar reservas PENDIENTE o ACEPTADA."⟩)
        else if r.startAt < now then
          (db, .error ⟨400, "No puedes cancelar una reserva que ya inició."⟩)
        else
          ({ db with reservations :=
                updateUnique db.reservations reservationId (cancelData reason) },
            .ok (cancelData reason r)) := by
  subst hocc
  unfold cancel
  rw [parseIntParam_pos _ _ hid]
  simp only [hfind, ne_eq, not_true_eq_false, if_false]
  cases reason <;> rfl

/-- C21: when the occupant of a stored reservation calls `cancel`, the call succeeds
if and only if the status is PENDIENTE or ACEPTADA and `startAt` has not passed
(`now ≤ startAt`).  On success the stored and returned row is the old row with
status CANCELADA and `cancelledReason` the trimmed reason (null when the reason is
missing or empty), and no other row changes; on failure the store is unchanged. -/
theorem cancel_by_occupant (db : Db) (now : Time) (occupantId reservationId : Int)
    (reason : Option String) (r : Reservation) (hid : 0 < reservationId)
    (hfind : findUnique db.reservations reservationId = some r)
    (hocc : r.occupantId = occupantId) :
    ((∃ u, (cancel db now occupantId reservationId reason).2 = .ok u)
        ↔ (r.status = Status.PENDIENTE ∨ r.status = Status.ACEPTADA) ∧ now ≤ r.startAt)
      ∧ ((r.status = Status.PENDIENTE ∨ r.status = Status.ACEPTADA) ∧ now ≤ r.startAt →
          (cancel db now occupantId reservationId reason).2
              = .ok { r with status := Status.CANCELADA, cancelledReason := trimmedReason reason }
            ∧ findUnique (cancel db now occupantId reservationId reason).1.reservations
                reservationId
              = some { r with status := Status.CANCELADA,
                              cancelledReason := trimmedReason reason }
            ∧ (∀ id, id ≠ reservationId →
                findUnique (cancel db now occupantId reservationId reason).1.reservations id
                  = findUnique db.reservations id)
            ∧ (cancel db now occupantId reservationId reason).1.spaces = db.spaces
            ∧ (cancel db now occupantId reservationId reason).1.nextId = db.nextId)
      ∧ (¬ ((r.status = Status.PENDIENTE ∨ r.status = Status.ACEPTADA) ∧ now ≤ r.startAt) →
          (cancel db now occupantId reservationId reason).1 = db) := by
  rw [cancel_eval db now occupantId reservationId reason r hid hfind hocc]
  by_cases hs : r.status = Status.PENDIENTE ∨ r.status = Status.ACEPTADA
  · by_cases ht : r.startAt < now
    · have hnt : ¬ now ≤ r.startAt := not_le.mpr ht
      simp only [hs, ht, hnt, not_true_eq_false, if_false, if_true, and_false, false_implies,
        not_false_eq_true, true_implies, and_true, true_and, iff_false, not_exists]
      intro u h
      cases h
    · have hnt : now ≤ r.startAt := not_lt.mp ht
      simp only [hs, ht, hnt, not_true_eq_false, if_false, and_self, true_implies,
        false_implies, and_true, true_and, iff_true]
      refine ⟨⟨_, rfl⟩, rfl, ?_, ?_⟩
      · exact findUnique_updateUnique_self _ _ _ _ (by intro _; rfl) hfind
      · intro id hne
        exact findUnique_updateUnique_ne _ _ _ _ (by intro _; rfl) hne
  · simp only [hs, not_false_eq_true, if_true, false_and, false_implies, true_implies,
      and_true, true_and, iff_false, not_exists]
    intro u h
    cases h

/-- Witness for C21: the occupant cancels the accepted example reservation before its
start with a padded reason; the call succeeds and stores the trimmed reason. -/
theorem cancel_by_occupant_witness :
    ((∃ u, (cancel (exampleDb [exampleAccepted]) 1000 20 1 (some "  plan changed ")).2 = .ok u)
        ↔ (exampleAccepted.status = Status.PENDIENTE
            ∨ exampleAccepted.status = Status.ACEPTADA) ∧ (1000 : Time) ≤ exampleAccepted.startAt)
      ∧ (cancel (exampleDb [exampleAccepted]) 1000 20 1 (some "  plan changed ")).2
          = .ok { exampleAccepted with status := Status.CANCELADA,
                                       cancelledReason := some "plan changed" } := by
  have h := cancel_by_occupant (exampleDb [exampleAccepted]) 1000 20 1 (some "  plan changed ")
    exampleAccepted (by decide) (by decide!) (by decide)
  refine ⟨h.1, ?_⟩
  have h2 := (h.2.1 ⟨Or.inr rfl, by decide⟩).1
  rw [h2]
  decide!

/-! ## Check-in tolerance, expiry boundary, error codes and conservative capacity -/

/-- C27: for a stored reservation with a stored `checkInDeadline` (as every row
accepted by `accept` has), `checkIn` returns the same result and leaves the same
store for any two values of `toleranceMinutes`. -/
theorem checkIn_tolerance_irrelevant (db : Db) (now : Time) (occupantId reservationId : Int)
    (tol1 tol2 : Option ℚ) (r : Reservation) (d : Time)
    (hr : findUnique db.reservations reservationId = some r)
    (hd : r.checkInDeadline = some d) :
    checkIn db now occupantId reservationId tol1 = checkIn db now occupantId reservationId tol2 := by
  unfold checkIn
  cases hp : parseIntParam reservationId "reservationId" with
  | error e => rfl
  | ok id =>
    obtain ⟨hid, _⟩ := parseIntParam_ok _ _ _ hp
    subst hid
    simp only [hr, hd, Option.getD_some]

/-- Witness for C27: on the accepted example row, whose deadline is stored, a
tolerance of one minute and one of six hundred minutes give the same check-in. -/
theorem checkIn_tolerance_irrelevant_witness :
    checkIn (exampleDb [exampleAccepted]) 4500000 20 1 (some 1)
        = checkIn (exampleDb [exampleAccepted]) 4500000 20 1 (some 600)
      ∧ (checkIn (exampleDb [exampleAccepted]) 4500000 20 1 (some 1)).2
        = .ok { exampleAccepted with checkInAt := some 4500000,
                                     status := Status.CHECKIN_SOLICITADO } :=
  ⟨checkIn_tolerance_irrelevant (exampleDb [exampleAccepted]) 4500000 20 1 (some 1) (some 600)
      exampleAccepted 4500000 (by decide!) rfl, by decide!⟩

theorem findUnique_of_mem (rs : List Reservation) (hids : (rs.map (fun r => r.id)).Nodup)
    (r : Reservation) (hr : r ∈ rs) : findUnique rs r.id = some r := by
  cases h : findUnique rs r.id with
  | none =>
    unfold findUnique at h
    rw [List.find?_eq_none] at h
    exact absurd (h r hr) (by simp)
  | some x =>
    obtain ⟨hx, hxid⟩ := findUnique_some _ _ _ h
    rw [eq_of_id_eq rs hids x r hx hr hxid]

theorem sweep_row (db : Db) (now : Time) (whereBase : WhereBase)
    (hids : (db.reservations.map (fun r => r.id)).Nodup) (r : Reservation)
    (hr : r ∈ db.reservations) :
    findUnique (expireAcceptedPastDeadline db now whereBase).1.reservations r.id
      = some (if expiredWhere whereBase now r = true then { r with status := Status.EXPIRADA }
              else r) := by
  rw [sweep_rows, findUnique_map _ _ (by intro x; split <;> rfl), findUnique_of_mem _ hids r hr]
  simp only [Option.map_some']
  by_cases he : expiredWhere whereBase now r = true
  · rw [if_pos (List.mem_map.mpr ⟨r, List.mem_filter.mpr ⟨hr, he⟩, rfl⟩), if_pos he]
  · rw [if_neg, if_neg he]
    intro hm
    obtain ⟨x, hx, hxid⟩ := List.mem_map.mp hm
    obtain ⟨hx1, hxe⟩ := List.mem_filter.mp hx
    rw [eq_of_id_eq _ hids x r hx1 hr hxid] at hxe
    exact he hxe

/-- C28: for a store with distinct ids and an ACEPTADA row `r` with
`checkInAt = null` and stored deadline `d`, in the scope of the sweep: the sweep at
`now` leaves `r` EXPIRADA exactly when `d < now`, and `checkIn` by the occupant at
the same `now` leaves it EXPIRADA exactly when `d < now`; so one expires the row if
and only if the other does.  When `now ≤ d` (in particular at `now = d`) the sweep
leaves the row as it was and `checkIn` succeeds. -/
theorem sweep_checkIn_agree (db : Db) (now : Time) (whereBase : WhereBase) (tol : Option ℚ)
    (r : Reservation) (d : Time)
    (hids : (db.reservations.map (fun r => r.id)).Nodup) (hr : r ∈ db.reservations)
    (hid : 0 < r.id) (hst : r.status = Status.ACEPTADA) (hci : r.checkInAt = none)
    (hd : r.checkInDeadline = some d) (hwb : whereBase.holds r = true) :
    (statusAfter (expireAcceptedPastDeadline db now whereBase).1.reservations r.id
          = some Status.EXPIRADA ↔ d < now)
      ∧ (statusAfter (checkIn db now r.occupantId r.id tol).1.reservations r.id
          = some Status.EXPIRADA ↔ d < now)
      ∧ (statusAfter (expireAcceptedPastDeadline db now whereBase).1.reservations r.id
            = some Status.EXPIRADA
          ↔ statusAfter (checkIn db now r.occupantId r.id tol).1.reservations r.id
            = some Status.EXPIRADA)
      ∧ (now ≤ d →
          findUnique (expireAcceptedPastDeadline db now whereBase).1.reservations r.id = some r
            ∧ (checkIn db now r.occupantId r.id tol).2
              = .ok { r with checkInAt := some now, status := Status.CHECKIN_SOLICITADO }) := by
  have hfind := findUnique_of_mem _ hids r hr
  have hp := parseIntParam_pos r.id "reservationId" hid
  have hexp : expiredWhere whereBase now r = true ↔ d < now := by
    rw [expiredWhere_iff]
    constructor
    · rintro ⟨_, _, _, d', hd', hlt⟩
      rw [hd] at hd'
      cases hd'
      exact hlt
    · intro hlt
      exact ⟨hwb, hst, hci, d, hd, hlt⟩
  have hsweep : statusAfter (expireAcceptedPastDeadline db now whereBase).1.reservations r.id
      = some Status.EXPIRADA ↔ d < now := by
    unfold statusAfter
    rw [sweep_row db now whereBase hids r hr]
    by_cases hlt : d < now
    · simp only [hexp.mpr hlt, if_true, Option.map_some', hlt]
    · have hne : ¬ expiredWhere whereBase now r = true := fun h => hlt (hexp.mp h)
      rw [if_neg hne]
      simp only [Option.map_some', hst, hlt, iff_false, Option.some.injEq]
      decide
  have hcheck : statusAfter (checkIn db now r.occupantId r.id tol).1.reservations r.id
      = some Status.EXPIRADA ↔ d < now := by
    unfold statusAfter
    by_cases hlt : d < now
    · simp only [checkIn, hp, hfind, hst, hd, ne_eq, not_true_eq_false, if_false,
        Option.getD_some, gt_iff_lt, hlt, if_true, iff_true]
      rw [findUnique_updateUnique_self _ _ _ r (by intro _; rfl) hfind]
      rfl
    · simp only [checkIn, hp, hfind, hst, hd, ne_eq, not_true_eq_false, if_false,
        Option.getD_some, gt_iff_lt, hlt, iff_false]
      rw [findUnique_updateUnique_self _ _ _ r (by intro _; rfl) hfind]
      simp
  refine ⟨hsweep, hcheck, hsweep.trans hcheck.symm, ?_⟩
  intro hle
  have hlt : ¬ d < now := not_lt.mpr hle
  have hne : ¬ expiredWhere whereBase now r = true := fun h => hlt (hexp.mp h)
  constructor
  · rw [sweep_row db now whereBase hids r hr, if_neg hne]
  · simp only [checkIn, hp, hfind, hst, hd, ne_eq, not_true_eq_false, if_false,
      Option.getD_some, gt_iff_lt, hlt]

/-- Witness for C28: one millisecond after the deadline of the accepted example row
the sweep and `checkIn` agree on expiry; at the deadline itself the sweep leaves the
row and `checkIn` succeeds. -/
theorem sweep_checkIn_agree_witness :
    (statusAfter (expireAcceptedPastDeadline (exampleDb [exampleAccepted]) 4500001
          (WhereBase.providerId 10)).1.reservations exampleAccepted.id = some Status.EXPIRADA
        ↔ statusAfter (checkIn (exampleDb [exampleAccepted]) 4500001 exampleAccepted.occupantId
            exampleAccepted.id none).1.reservations exampleAccepted.id = some Status.EXPIRADA)
      ∧ findUnique (expireAcceptedPastDeadline (exampleDb [exampleAccepted]) 4500000
          (WhereBase.providerId 10)).1.reservations exampleAccepted.id = some exampleAccepted
      ∧ (checkIn (exampleDb [exampleAccepted]) 4500000 exampleAccepted.occupantId
            exampleAccepted.id none).2
          = .ok { exampleAccepted with checkInAt := some 4500000,
                                       status := Status.CHECKIN_SOLICITADO } :=
  ⟨(sweep_checkIn_agree (exampleDb [exampleAccepted]) 4500001 (WhereBase.providerId 10) none
      exampleAccepted 4500000 (by decide) (by decide!) (by decide) rfl rfl rfl rfl).2.2.1,
    (sweep_checkIn_agree (exampleDb [exampleAccepted]) 4500000 (WhereBase.providerId 10) none
      exampleAccepted 4500000 (by decide) (by decide!) (by decide) rfl rfl rfl rfl).2.2.2
      (le_refl _)⟩

/-- C23: the code departs from the claim in `cancel`.  On the running example
reservation (status EN_CURSO) the occupant's `cancel` fails on the status test with
status code 400, while `accept`, `reject` and `checkIn` on the same row, and
`startStay` and `finishStay` on the accepted example row, fail on their status
tests with 409. -/
theorem cancel_wrong_state_is_400 :
    (cancel (exampleDb [exampleRunning]) 0 20 1 none).2
        = .error ⟨400, "Solo se pueden cancelar reservas PENDIENTE o ACEPTADA."⟩
      ∧ (accept (exampleDb [exampleRunning]) 0 10 1).2
        = .error ⟨409, "Solo se pueden aceptar reservas PENDIENTE."⟩
      ∧ errorCode (reject (exampleDb [exampleRunning]) 10 1 (some "no")).2 = some 409
      ∧ errorCode (checkIn (exampleDb [exampleRunning]) 0 20 1 none).2 = some 409
      ∧ errorCode (startStay (exampleDb [exampleAccepted]) 0 10 1).2 = some 409
      ∧ errorCode (finishStay (exampleDb [exampleAccepted]) 0 10 1).2 = some 409 := by
  refine ⟨by decide!, by decide!, by decide!, by decide!, by decide!, by decide!⟩

/-- C30: on a space of capacity 2 holding accepted reservations over the hours 0 to
1 and 2 to 3, no instant is covered by more than one capacity-consuming
reservation, yet both overlap the requested hours 0 to 3, so `accept` of the
pending request over those hours is refused with 409, and so is
`assertCapacityAvailable` for that interval. -/
theorem capacity_check_is_conservative :
    (∀ t : Time, coveringCount conservativeDb.reservations 1 t ≤ 1)
      ∧ consumedOver conservativeDb.reservations
          { examplePending with id := 3, occupantId := 22, vehicleId := none,
                                startAt := 0, endAt := 10800000 } = 2
      ∧ (accept conservativeDb 0 10 3).2
        = .error ⟨409, "No se puede aceptar: se alcanzó la capacidad en ese horario."⟩
      ∧ (accept conservativeDb 0 10 3).1 = conservativeDb
      ∧ assertCapacityAvailable conservativeDb 1 0 10800000 (some 2) none
        = .error ⟨409, "No hay cupo disponible en ese horario."⟩ := by
  refine ⟨?_, by decide!, by decide!, by decide!, by decide!⟩
  intro t
  simp only [coveringCount, conservativeDb, conservativeRows, exampleAccepted, examplePending,
    List.filter_cons, List.filter_nil]
  by_cases h1 : t < 3600000
  · have h2 : ¬ (7200000 : Time) ≤ t := by intro h; have := lt_of_le_of_lt h h1; simp at this
    simp [h1, h2]
    split <;> simp
  · simp [h1]
    split <;> simp

/-! ## Quote against estimate: theorems -/

theorem roundHalfUp2_mono (x y : ℚ) (h : x ≤ y) : roundHalfUp2 x ≤ roundHalfUp2 y := by
  unfold roundHalfUp2
  have hf : ⌊x * 100 + 1 / 2⌋ ≤ ⌊y * 100 + 1 / 2⌋ := Int.floor_mono (by linarith)
  have hc : ((⌊x * 100 + 1 / 2⌋ : Int) : ℚ) ≤ ((⌊y * 100 + 1 / 2⌋ : Int) : ℚ) := by
    exact_mod_cast hf
  exact div_le_div_of_nonneg_right hc (by norm_num)

theorem roundHalfUp2_le_round2 (x : ℚ) : roundHalfUp2 x ≤ round2 x := by
  rw [round2_eq_roundHalfUp2_shift]
  exact roundHalfUp2_mono _ _ (by linarith [EPSILON_nonneg])

theorem whole_hours_span (startAt : Time) (H : Int) :
    (((startAt + H * 3600000 - startAt : Int) : ℚ)) = (H : ℚ) * 3600000 := by
  push_cast
  ring

theorem quote_whole_hours (precioHora precioDia : Option ℚ) (startAt : Time) (H : Int)
    (hpd : 0 < precioDia.getD 0) :
    Quotes.calcTotalPrice precioHora precioDia startAt (startAt + H * 3600000)
      = roundHalfUp2 (min ((H : ℚ) * precioHora.getD 0)
          ((⌈(H : ℚ) / 24⌉ : ℚ) * precioDia.getD 0)) := by
  unfold Quotes.calcTotalPrice
  simp only [quote_hours, quote_days, gt_iff_lt, hpd, if_true, mathRound, roundHalfUp2]
  rw [whole_hours_span]
  have h1 : (H : ℚ) * 3600000 / 3600000 = (H : ℚ) := by field_simp
  have h2 : (H : ℚ) * 3600000 / 86400000 = (H : ℚ) / 24 := by field_simp; ring
  rw [h1, h2, Int.ceil_intCast]

theorem estimate_whole_hours (precioHora precioDia : Option ℚ) (startAt : Time) (H : Int)
    (mode : BillingMode) (hH : 1 ≤ H) :
    (calcTotalPrice precioHora precioDia startAt (startAt + H * 3600000) mode).total
        = round2 ((H : ℚ) * precioHora.getD 0)
      ∨ (calcTotalPrice precioHora precioDia startAt (startAt + H * 3600000) mode).total
        = round2 ((⌈(H : ℚ) / 24⌉ : ℚ) * precioDia.getD 0) := by
  have hHq : (1 : ℚ) ≤ (H : ℚ) := by exact_mod_cast hH
  have h1 : (((startAt + H * 3600000 - startAt : Int) : ℚ)) / (1000 * 60 * 60) = (H : ℚ) := by
    rw [whole_hours_span]
    have : (1000 : ℚ) * 60 * 60 = 3600000 := by norm_num
    rw [this]
    exact mul_div_cancel_right₀ _ (by norm_num)
  have hmax : max (0 : ℚ) (H : ℚ) = (H : ℚ) := max_eq_right (by linarith)
  have hceil : (1 : Int) ≤ ⌈(H : ℚ) / 24⌉ := by
    have : (0 : ℚ) < (H : ℚ) / 24 := by positivity
    have := Int.ceil_pos.mpr this
    omega
  have hdays : max (1 : Int) ⌈(H : ℚ) / 24⌉ = ⌈(H : ℚ) / 24⌉ := max_eq_right hceil
  unfold calcTotalPrice
  simp only [h1, hmax, hdays]
  cases mode with
  | HORA => exact Or.inl rfl
  | DIA => exact Or.inr rfl
  | AUTO =>
    simp only []
    split
    · exact Or.inr rfl
    · exact Or.inl rfl

/-- C29: for every space with a positive daily rate (whatever the hourly rate) and
every span of `H ≥ 1` whole hours, the quote of the quote service is at most the
estimate `calcTotalPrice(...).total` of the reservations service for the same span,
under each billing mode. -/
theorem quote_le_estimate (precioHora precioDia : Option ℚ) (startAt : Time) (H : Int)
    (mode : BillingMode) (hH : 1 ≤ H) (hpd : 0 < precioDia.getD 0) :
    Quotes.calcTotalPrice precioHora precioDia startAt (startAt + H * 3600000)
      ≤ (calcTotalPrice precioHora precioDia startAt (startAt + H * 3600000) mode).total := by
  rw [quote_whole_hours precioHora precioDia startAt H hpd]
  rcases estimate_whole_hours precioHora precioDia startAt H mode hH with h | h
  · rw [h]
    exact (roundHalfUp2_mono _ _ (min_le_left _ _)).trans (roundHalfUp2_le_round2 _)
  · rw [h]
    exact (roundHalfUp2_mono _ _ (min_le_right _ _)).trans (roundHalfUp2_le_round2 _)

/-- Witness for C29: thirty hours at 10 per hour and 50 per day, billed by the hour. -/
theorem quote_le_estimate_witness :
    (0 : ℚ) < (some (50 : ℚ)).getD 0
      ∧ Quotes.calcTotalPrice (some 10) (some 50) 0 (0 + 30 * 3600000)
          ≤ (calcTotalPrice (some 10) (some 50) 0 (0 + 30 * 3600000) BillingMode.HORA).total :=
  ⟨by decide!, quote_le_estimate (some 10) (some 50) 0 30 BillingMode.HORA (by decide)
    (by decide!)⟩

/-! ## Invariants of reachable stores: theorems -/

theorem RowStep.span_eq {acc : Option Int} {r r' : Reservation} (h : RowStep acc r r') :
    r'.startAt = r.startAt ∧ r'.endAt = r.endAt := by
  cases h <;> exact ⟨rfl, rfl⟩

theorem RowStep.running_started {acc : Option Int} {r r' : Reservation} (h : RowStep acc r r')
    (hr : r.status = Status.EN_CURSO → r.startedAt ≠ none) :
    r'.status = Status.EN_CURSO → r'.startedAt ≠ none := by
  cases h with
  | same => exact hr
  | start => intro _ h; cases h
  | _ => intro h; cases h

theorem keysOk_of_empty (db : Db) (h0 : db.reservations = []) : db.keysOk := by
  unfold Db.keysOk
  rw [h0]
  exact ⟨List.nodup_nil, fun r hr => absurd hr (List.not_mem_nil r)⟩

theorem rows_run_invariant (P : Reservation → Prop)
    (hstep : ∀ (acc : Option Int) (r r' : Reservation), RowStep acc r r' → P r → P r')
    (hnew : ∀ row : Reservation, row.status = Status.PENDIENTE → row.startedAt = none →
      row.startAt < row.endAt → P row)
    (calls : List ServiceCall) (db : Db) (hk : db.keysOk)
    (hinv : ∀ r ∈ db.reservations, P r) :
    ∀ r ∈ (runCalls calls db).reservations, P r := by
  induction calls generalizing db with
  | nil => exact hinv
  | cons c cs ih =>
    have hrun : runCalls (c :: cs) db = runCalls cs (c.run db) := rfl
    rw [hrun]
    apply ih (c.run db) (call_keysOk c db hk)
    obtain ⟨g, news, hrows, hsteps, _, hnews⟩ := call_rowSteps c db hk
    intro r hr
    rw [hrows, List.mem_append] at hr
    rcases hr with hr | hr
    · obtain ⟨x, hx, rfl⟩ := List.mem_map.mp hr
      exact hstep _ _ _ (hsteps x hx) (hinv x hx)
    · rcases hnews with ⟨hnil, _⟩ | ⟨row, hrow, _, _, hst, _, hsa, hspan, _⟩
      · rw [hnil] at hr
        cases hr
      · rw [hrow, List.mem_singleton] at hr
        rw [hr]
        exact hnew row hst hsa hspan

theorem call_keeps_span (c : ServiceCall) (db : Db) (hk : db.keysOk) (r : Reservation)
    (hr : r ∈ db.reservations) :
    ∃ r', findUnique (c.run db).reservations r.id = some r'
      ∧ r'.startAt = r.startAt ∧ r'.endAt = r.endAt := by
  obtain ⟨g, news, hrows, hsteps, _, _⟩ := call_rowSteps c db hk
  have hk' := call_keysOk c db hk
  have hmem : g r ∈ (c.run db).reservations := by
    rw [hrows]
    exact List.mem_append_left _ (List.mem_map_of_mem g hr)
  have hid : (g r).id = r.id := (hsteps r hr).id_eq
  have hf := findUnique_of_mem _ hk'.1 (g r) hmem
  rw [hid] at hf
  exact ⟨g r, hf, (hsteps r hr).span_eq⟩

/-- C22: `create` refuses with status code 400, leaving the store as it was, every
request whose `startAt ≥ endAt` or whose `startAt` is earlier than `now`; every
service call on a store with distinct ids keeps each stored row under its id with
the same `startAt` and `endAt`; and in every store reached from one without
reservations by any sequence of service calls, every row has `startAt < endAt`. -/
theorem span_always_valid :
    (∀ (db : Db) (now : Time) (occupantId spaceId : Int) (start end_ : Time)
        (mode : BillingMode) (vehicleId : Option Int),
        start ≥ end_ ∨ start < now →
        ∃ e, create db now occupantId spaceId (some start) (some end_) mode vehicleId
              = (db, .error e) ∧ e.statusCode = 400)
      ∧ (∀ (c : ServiceCall) (db : Db), db.keysOk → ∀ r ∈ db.reservations,
          ∃ r', findUnique (c.run db).reservations r.id = some r'
            ∧ r'.startAt = r.startAt ∧ r'.endAt = r.endAt)
      ∧ (∀ (calls : List ServiceCall) (db : Db), db.reservations = [] →
          ∀ r ∈ (runCalls calls db).reservations, r.startAt < r.endAt) := by
  refine ⟨?_, ?_, ?_⟩
  · intro db now occupantId spaceId start end_ mode vehicleId h
    unfold create
    by_cases h1 : start ≥ end_
    · simp only [h1, if_true]
      exact ⟨_, rfl, rfl⟩
    · have h2 : start < now := h.resolve_left h1
      simp only [h1, h2, if_true, if_false]
      exact ⟨_, rfl, rfl⟩
  · intro c db hk r hr
    exact call_keeps_span c db hk r hr
  · intro calls db h0
    apply rows_run_invariant (fun r => r.startAt < r.endAt)
    · intro acc r r' h hr
      obtain ⟨h1, h2⟩ := h.span_eq
      show r'.startAt < r'.endAt
      rw [h1, h2]
      exact hr
    · intro row _ _ h
      exact h
    · exact keysOk_of_empty db h0
    · intro r hr
      rw [h0] at hr
      cases hr

/-- Witness for C22: a request ending before it starts and a request in the past are
refused with 400; cancelling the accepted example row keeps its span; the rows of
the run `acceptedRejectedCancelled` all have `startAt < endAt`. -/
theorem span_always_valid_witness :
    (∃ e, create (exampleDb []) 0 20 1 (some 7200000) (some 3600000) BillingMode.AUTO (some 5)
            = (exampleDb [], .error e) ∧ e.statusCode = 400)
      ∧ (∃ e, create (exampleDb []) 9000000 20 1 (some 3600000) (some 7200000) BillingMode.AUTO
              (some 5) = (exampleDb [], .error e) ∧ e.statusCode = 400)
      ∧ (∃ r', findUnique ((ServiceCall.cancel 1000 20 1 none).run
              (exampleDb [exampleAccepted])).reservations exampleAccepted.id = some r'
            ∧ r'.startAt = exampleAccepted.startAt ∧ r'.endAt = exampleAccepted.endAt)
      ∧ ∀ r ∈ (runCalls acceptedRejectedCancelled (exampleDb [])).reservations,
          r.startAt < r.endAt :=
  ⟨span_always_valid.1 (exampleDb []) 0 20 1 7200000 3600000 BillingMode.AUTO (some 5)
      (Or.inl (by decide)),
    span_always_valid.1 (exampleDb []) 9000000 20 1 3600000 7200000 BillingMode.AUTO (some 5)
      (Or.inr (by decide)),
    span_always_valid.2.1 (ServiceCall.cancel 1000 20 1 none) (exampleDb [exampleAccepted])
      ⟨by decide, by decide⟩ exampleAccepted (List.mem_singleton.mpr rfl),
    span_always_valid.2.2 acceptedRejectedCancelled (exampleDb []) rfl⟩

/-- C26: in every store reached from one without reservations by any sequence of
service calls, every row in status EN_CURSO has `startedAt` set, and no call of
`finishStay` on such a store throws the status-500 error of the missing
`startedAt`. -/
theorem running_has_startedAt (calls : List ServiceCall) (db : Db)
    (h0 : db.reservations = []) :
    (∀ r ∈ (runCalls calls db).reservations,
        r.status = Status.EN_CURSO → r.startedAt ≠ none)
      ∧ ∀ (now : Time) (providerId reservationId : Int),
          errorCode (finishStay (runCalls calls db) now providerId reservationId).2 ≠ some 500 := by
  have hinv : ∀ r ∈ (runCalls calls db).reservations,
      r.status = Status.EN_CURSO → r.startedAt ≠ none := by
    apply rows_run_invariant (fun r => r.status = Status.EN_CURSO → r.startedAt ≠ none)
    · intro acc r r' h hr
      exact h.running_started hr
    · intro row hst _ _ h
      rw [hst] at h
      cases h
    · exact keysOk_of_empty db h0
    · intro r hr
      rw [h0] at hr
      cases hr
  refine ⟨hinv, ?_⟩
  intro now providerId reservationId
  generalize runCalls calls db = S at hinv
  unfold finishStay
  cases hp : parseIntParam reservationId "reservationId" with
  | error e =>
    unfold parseIntParam at hp
    split at hp
    · cases hp
      simp [errorCode]
    · cases hp
  | ok id =>
    simp only []
    cases hf : findUnique S.reservations id with
    | none => simp [errorCode]
    | some r =>
      simp only []
      by_cases h1 : r.providerId ≠ providerId
      · rw [if_pos h1]; simp [errorCode]
      rw [if_neg h1]
      by_cases h2 : r.status ≠ Status.EN_CURSO
      · rw [if_pos h2]; simp [errorCode]
      rw [if_neg h2]
      have hst : r.status = Status.EN_CURSO := not_not.mp h2
      cases hs : r.startedAt with
      | none => exact absurd hs (hinv r (findUnique_some _ _ _ hf).1 hst)
      | some s =>
        simp only []
        cases findSpace S.spaces r.spaceId <;> simp [errorCode]

/-- Witness for C26: the run `finishedThenStart` from the empty example store. -/
theorem running_has_startedAt_witness :
    (∀ r ∈ (runCalls finishedThenStart (exampleDb [])).reservations,
        r.status = Status.EN_CURSO → r.startedAt ≠ none)
      ∧ errorCode (finishStay (runCalls finishedThenStart (exampleDb [])) 9000000 10 100).2
          ≠ some 500 :=
  ⟨(running_has_startedAt finishedThenStart (exampleDb []) rfl).1,
    (running_has_startedAt finishedThenStart (exampleDb []) rfl).2 9000000 10 100⟩

/-! ## Notifications: theorems -/

theorem singleWrite_notifies (db db' : Db) (rid : Int) (es : Bool → List Emission)
    (hk : db.keysOk) (h : SingleWrite db db' rid es) :
    (∀ r ∈ db.reservations, ∀ r', findUnique db'.reservations r.id = some r' →
        r'.status ≠ r.status → notifiesBoth (es true) (eventOf r'.status) r')
      ∧ es false = [] := by
  rcases h with ⟨hdb, hes⟩ | ⟨R, f, hR, hf, hrows, hn, hfalse⟩
  · refine ⟨?_, hes false⟩
    intro r hr r' hfind hne
    rw [hdb, findUnique_of_mem _ hk.1 r hr] at hfind
    cases hfind
    exact absurd rfl hne
  · refine ⟨?_, hfalse⟩
    intro r hr r' hfind hne
    rw [hrows] at hfind
    by_cases hid : r.id = rid
    · rw [hid, findUnique_updateUnique_self _ _ _ R (fun x => (hf x).1) hR] at hfind
      cases hfind
      unfold notifiesBoth at hn ⊢
      rw [(hf R).1, (hf R).2.1, (hf R).2.2]
      exact hn
    · rw [findUnique_updateUnique_ne _ _ _ _ (fun x => (hf x).1) hid,
        findUnique_of_mem _ hk.1 r hr] at hfind
      cases hfind
      exact absurd rfl hne

theorem checkIn_singleWrite (db : Db) (now : Time) (occupantId reservationId : Int)
    (tol : Option ℚ) :
    SingleWrite db (checkIn db now occupantId reservationId tol).1 reservationId
      (checkInEmits db now occupantId reservationId tol) := by
  unfold SingleWrite checkIn checkInEmits
  cases hp : parseIntParam reservationId "reservationId" with
  | error e => exact Or.inl ⟨rfl, fun _ => rfl⟩
  | ok id =>
    obtain ⟨hid, _⟩ := parseIntParam_ok _ _ _ hp
    subst hid
    simp only []
    cases hf : findUnique db.reservations id with
    | none => exact Or.inl ⟨rfl, fun _ => rfl⟩
    | some r =>
      simp only []
      by_cases h1 : r.occupantId ≠ occupantId
      · simp only [if_pos h1]; exact Or.inl ⟨trivial, fun _ => trivial⟩
      simp only [if_neg h1]
      by_cases h2 : r.status ≠ Status.ACEPTADA
      · simp only [if_pos h2]; exact Or.inl ⟨trivial, fun _ => trivial⟩
      simp only [if_neg h2]
      split
      · exact Or.inr ⟨r, _, rfl, (by intro _; exact ⟨rfl, rfl, rfl⟩), rfl,
          (by simp [notifiesBoth, eventOf]), rfl⟩
      · exact Or.inr ⟨r, _, rfl, (by intro _; exact ⟨rfl, rfl, rfl⟩), rfl,
          (by simp [notifiesBoth, eventOf]), rfl⟩

theorem startStay_singleWrite (db : Db) (now : Time) (providerId reservationId : Int) :
    SingleWrite db (startStay db now providerId reservationId).1 reservationId
      (startStayEmits db now providerId reservationId) := by
  unfold SingleWrite startStay startStayEmits
  cases hp : parseIntParam reservationId "reservationId" with
  | error e => exact Or.inl ⟨rfl, fun _ => rfl⟩
  | ok id =>
    obtain ⟨hid, _⟩ := parseIntParam_ok _ _ _ hp
    subst hid
    simp only []
    cases hf : findUnique db.reservations id with
    | none => exact Or.inl ⟨rfl, fun _ => rfl⟩
    | some r =>
      simp only []
      by_cases h1 : r.providerId ≠ providerId
      · simp only [if_pos h1]; exact Or.inl ⟨trivial, fun _ => trivial⟩
      simp only [if_neg h1]
      split
      · exact Or.inr ⟨r, _, rfl, (by intro _; exact ⟨rfl, rfl, rfl⟩), rfl,
          (by simp [notifiesBoth, eventOf]), rfl⟩
      · by_cases h2 : r.status ≠ Status.CHECKIN_SOLICITADO
        · simp only [if_pos h2]; exact Or.inl ⟨trivial, fun _ => trivial⟩
        simp only [if_neg h2]
        split
        · exact Or.inl ⟨rfl, fun _ => rfl⟩
        · exact Or.inr ⟨r, _, rfl, (by intro _; exact ⟨rfl, rfl, rfl⟩), rfl,
            (by simp [notifiesBoth, eventOf]), rfl⟩

theorem finishStay_singleWrite (db : Db) (now : Time) (providerId reservationId : Int) :
    SingleWrite db (finishStay db now providerId reservationId).1 reservationId
      (finishStayEmits db providerId reservationId) := by
  unfold SingleWrite finishStay finishStayEmits
  cases hp : parseIntParam reservationId "reservationId" with
  | error e => exact Or.inl ⟨rfl, fun _ => rfl⟩
  | ok id =>
    obtain ⟨hid, _⟩ := parseIntParam_ok _ _ _ hp
    subst hid
    simp only []
    cases hf : findUnique db.reservations id with
    | none => exact Or.inl ⟨rfl, fun _ => rfl⟩
    | some r =>
      simp only []
      by_cases h1 : r.providerId ≠ providerId
      · simp only [if_pos h1]; exact Or.inl ⟨trivial, fun _ => trivial⟩
      simp only [if_neg h1]
      by_cases h2 : r.status ≠ Status.EN_CURSO
      · simp only [if_pos h2]; exact Or.inl ⟨trivial, fun _ => trivial⟩
      simp only [if_neg h2]
      cases hs : r.startedAt with
      | none => exact Or.inl ⟨rfl, fun _ => rfl⟩
      | some s =>
        simp only []
        cases hsp : findSpace db.spaces r.spaceId with
        | none => exact Or.inl ⟨rfl, fun _ => rfl⟩
        | some space =>
          exact Or.inr ⟨r, _, rfl, (by intro _; exact ⟨rfl, rfl, rfl⟩), rfl,
            (by simp [notifiesBoth, eventOf]), rfl⟩

theorem sweep_notifies (db : Db) (now : Time) (whereBase : WhereBase) (hk : db.keysOk) :
    (∀ r ∈ db.reservations, ∀ r',
        findUnique (expireAcceptedPastDeadline db now whereBase).1.reservations r.id = some r' →
        r'.status ≠ r.status →
        notifiesBoth (expireAcceptedPastDeadlineEmits db now whereBase true)
          (eventOf r'.status) r')
      ∧ expireAcceptedPastDeadlineEmits db now whereBase false = [] := by
  constructor
  · intro r hr r' hfind hne
    rw [sweep_row db now whereBase hk.1 r hr] at hfind
    by_cases he : expiredWhere whereBase now r = true
    · rw [if_pos he] at hfind
      cases hfind
      have hmem : r ∈ db.reservations.filter (expiredWhere whereBase now) :=
        List.mem_filter.mpr ⟨hr, he⟩
      have hlen : ¬ (db.reservations.filter (expiredWhere whereBase now)).length = 0 := by
        intro h0
        rw [List.length_eq_zero.mp h0] at hmem
        cases hmem
      unfold notifiesBoth expireAcceptedPastDeadlineEmits
      simp only [hlen, if_false, if_true, eventOf, List.mem_flatten, List.mem_map]
      exact ⟨⟨_, ⟨r, hmem, rfl⟩, by simp⟩, ⟨_, ⟨r, hmem, rfl⟩, by simp⟩⟩
    · rw [if_neg he] at hfind
      cases hfind
      exact absurd rfl hne
  · unfold expireAcceptedPastDeadlineEmits
    simp

/-- C24, as stated, fails: `accept`, `reject` and `cancel` change the status of the
example reservation and emit nothing, whether or not a socket server exists. -/
theorem accept_emits_nothing_counterexample :
    statusAfter ((ServiceCall.accept 0 10 1).run (exampleDb [examplePending])).reservations 1
        = some Status.ACEPTADA
      ∧ (ServiceCall.accept 0 10 1).emits (exampleDb [examplePending]) true = []
      ∧ statusAfter ((ServiceCall.reject 10 1 (some "no")).run
          (exampleDb [examplePending])).reservations 1 = some Status.RECHAZADA
      ∧ (ServiceCall.reject 10 1 (some "no")).emits (exampleDb [examplePending]) true = []
      ∧ statusAfter ((ServiceCall.cancel 0 20 1 none).run
          (exampleDb [examplePending])).reservations 1 = some Status.CANCELADA
      ∧ (ServiceCall.cancel 0 20 1 none).emits (exampleDb [examplePending]) true = [] := by
  refine ⟨by decide!, rfl, by decide!, rfl, by decide!, rfl⟩

/-- C24, amended: on a store with distinct ids, whenever `checkIn`, `startStay`,
`finishStay` or the sweep `expireAcceptedPastDeadline`, called with a socket
server, changes the status of a stored reservation, it emits the event of the new
status (`reservation.checkin_requested`, `reservation.started`,
`reservation.finished`, `reservation.expired`) to both `user:<occupantId>` and
`user:<providerId>` of that reservation; without a socket server nothing is
emitted; `create`, `cancel`, `accept` and `reject` take no socket server and emit
nothing. -/
theorem notifications_sent (c : ServiceCall) (db : Db) (hk : db.keysOk) :
    (c.takesIo = true → ∀ r ∈ db.reservations, ∀ r',
        findUnique (c.run db).reservations r.id = some r' → r'.status ≠ r.status →
        notifiesBoth (c.emits db true) (eventOf r'.status) r')
      ∧ (c.takesIo = false → ∀ io, c.emits db io = [])
      ∧ c.emits db false = [] := by
  cases c with
  | create now o s a b m v => exact ⟨(fun h => by cases h), fun _ _ => rfl, rfl⟩
  | cancel now o r reason => exact ⟨(fun h => by cases h), fun _ _ => rfl, rfl⟩
  | accept now p r => exact ⟨(fun h => by cases h), fun _ _ => rfl, rfl⟩
  | reject p r reason => exact ⟨(fun h => by cases h), fun _ _ => rfl, rfl⟩
  | checkIn now o r t =>
    have h := singleWrite_notifies db _ r _ hk (checkIn_singleWrite db now o r t)
    exact ⟨fun _ => h.1, (fun h' => by cases h'), h.2⟩
  | startStay now p r =>
    have h := singleWrite_notifies db _ r _ hk (startStay_singleWrite db now p r)
    exact ⟨fun _ => h.1, (fun h' => by cases h'), h.2⟩
  | finishStay now p r =>
    have h := singleWrite_notifies db _ r _ hk (finishStay_singleWrite db now p r)
    exact ⟨fun _ => h.1, (fun h' => by cases h'), h.2⟩
  | expireAcceptedPastDeadline now w =>
    have h := sweep_notifies db now w hk
    exact ⟨fun _ => h.1, (fun h' => by cases h'), h.2⟩

/-- Witness for C24: the check-in of the accepted example row and its expiry by the
sweep notify both participants; `accept` emits nothing. -/
theorem notifications_sent_witness :
    notifiesBoth ((ServiceCall.checkIn 3700000 20 1 none).emits (exampleDb [exampleAccepted]) true)
        "reservation.checkin_requested" exampleCheckedIn
      ∧ notifiesBoth ((ServiceCall.expireAcceptedPastDeadline 4500001 (WhereBase.occupantId 20)).emits
          (exampleDb [exampleAccepted]) true)
        "reservation.expired" { exampleAccepted with status := Status.EXPIRADA }
      ∧ ∀ io, (ServiceCall.accept 0 10 1).emits (exampleDb [examplePending]) io = [] :=
  ⟨(notifications_sent (ServiceCall.checkIn 3700000 20 1 none) (exampleDb [exampleAccepted])
      ⟨by decide, by decide⟩).1 rfl exampleAccepted (List.mem_singleton.mpr rfl)
      exampleCheckedIn (by decide!) (by decide),
    (notifications_sent (ServiceCall.expireAcceptedPastDeadline 4500001 (WhereBase.occupantId 20))
      (exampleDb [exampleAccepted]) ⟨by decide, by decide⟩).1 rfl exampleAccepted
      (List.mem_singleton.mpr rfl) { exampleAccepted with status := Status.EXPIRADA }
      (by decide!) (by decide),
    (notifications_sent (ServiceCall.accept 0 10 1) (exampleDb [examplePending])
      ⟨by decide, by decide⟩).2.1 rfl⟩

/-! ## Pricing calculator in double precision: theorems -/

theorem roundHalfEven_error (y : ℚ) : |(roundHalfEven y : ℚ) - y| ≤ 1 / 2 := by
  have h0 := Int.fract_nonneg y
  have h1 := Int.fract_lt_one y
  have hy : y = (⌊y⌋ : ℚ) + Int.fract y := (Int.floor_add_fract y).symm
  unfold roundHalfEven
  rw [abs_le]
  split_ifs with ha hb hc
  · constructor <;> linarith
  · push_cast; constructor <;> linarith
  · have : Int.fract y = 1 / 2 := le_antisymm (not_lt.mp hb) (not_lt.mp ha)
    constructor <;> linarith
  · have : Int.fract y = 1 / 2 := le_antisymm (not_lt.mp hb) (not_lt.mp ha)
    push_cast; constructor <;> linarith

theorem roundHalfEven_nonneg (y : ℚ) (hy : 0 ≤ y) : 0 ≤ roundHalfEven y := by
  have hf : 0 ≤ ⌊y⌋ := Int.floor_nonneg.mpr hy
  unfold roundHalfEven
  split_ifs <;> omega

theorem fl_nonneg (x : ℚ) (hx : 0 ≤ x) : 0 ≤ fl x := by
  unfold fl
  have hp : (0 : ℚ) < (2 : ℚ) ^ (binade x - 52) := zpow_pos (by norm_num) _
  have : 0 ≤ roundHalfEven (x / (2 : ℚ) ^ (binade x - 52)) :=
    roundHalfEven_nonneg _ (div_nonneg hx hp.le)
  have h2 : (0 : ℚ) ≤ (roundHalfEven (x / (2 : ℚ) ^ (binade x - 52)) : ℚ) := by exact_mod_cast this
  exact mul_nonneg h2 hp.le

theorem fl_ulp_error (x : ℚ) : |fl x - x| ≤ (2 : ℚ) ^ (binade x - 53) := by
  have hp : (0 : ℚ) < (2 : ℚ) ^ (binade x - 52) := zpow_pos (by norm_num) _
  have he := roundHalfEven_error (x / (2 : ℚ) ^ (binade x - 52))
  have hx : fl x - x
      = ((roundHalfEven (x / (2 : ℚ) ^ (binade x - 52)) : ℚ) - x / (2 : ℚ) ^ (binade x - 52))
        * (2 : ℚ) ^ (binade x - 52) := by
    unfold fl
    field_simp
  rw [hx, abs_mul, abs_of_pos hp]
  have h53 : (2 : ℚ) ^ (binade x - 53) = 1 / 2 * (2 : ℚ) ^ (binade x - 52) := by
    rw [show binade x - 52 = (binade x - 53) + 1 by ring, zpow_add_one₀ (by norm_num)]
    ring
  rw [h53]
  exact mul_le_mul_of_nonneg_right he hp.le

theorem binade_of_normal (x : ℚ) (hx : (2 : ℚ) ^ (-1022 : Int) ≤ |x|) :
    binade x = Int.log 2 |x| ∧ (2 : ℚ) ^ (binade x) ≤ |x| := by
  have hpos : 0 < |x| := lt_of_lt_of_le (zpow_pos (by norm_num) _) hx
  have hlog : (-1022 : Int) ≤ Int.log 2 |x| := by
    rw [← Int.zpow_le_iff_le_log (by norm_num) hpos]
    exact_mod_cast hx
  have hb : binade x = Int.log 2 |x| := max_eq_left hlog
  refine ⟨hb, ?_⟩
  rw [hb]
  have := Int.zpow_log_le_self (b := 2) (by norm_num) hpos
  exact_mod_cast this

theorem fl_rel_error (x : ℚ) (hx : (2 : ℚ) ^ (-1022 : Int) ≤ |x|) :
    |fl x - x| ≤ |x| / 2 ^ 53 := by
  obtain ⟨_, hle⟩ := binade_of_normal x hx
  refine (fl_ulp_error x).trans ?_
  have h53 : (2 : ℚ) ^ (binade x - 53) = (2 : ℚ) ^ (binade x) / 2 ^ 53 := by
    rw [zpow_sub₀ (by norm_num)]
    norm_cast
  rw [h53]
  exact div_le_div_of_nonneg_right hle (by positivity)

theorem fl_zero : fl 0 = 0 := by
  unfold fl
  have : roundHalfEven 0 = 0 := by decide!
  simp [this]

theorem fl_abs_error (x : ℚ) : |fl x - x| ≤ |x| / 2 ^ 53 + (2 : ℚ) ^ (-1075 : Int) := by
  have hp : (0 : ℚ) < (2 : ℚ) ^ (-1075 : Int) := zpow_pos (by norm_num) _
  have hq : 0 ≤ |x| / 2 ^ 53 := by positivity
  by_cases hx : (2 : ℚ) ^ (-1022 : Int) ≤ |x|
  · have := fl_rel_error x hx
    linarith
  · by_cases h0 : 0 < |x|
    · have hb : binade x = -1022 := by
        unfold binade
        apply max_eq_right
        by_contra hc
        push_neg at hc
        have := (Int.zpow_le_iff_le_log (b := 2) (by norm_num) h0 (x := -1022)).mpr hc.le
        exact hx (by exact_mod_cast this)
      have h1 := fl_ulp_error x
      rw [hb] at h1
      have h2 : (-1022 : Int) - 53 = -1075 := by norm_num
      rw [h2] at h1
      exact h1.trans (by linarith)
    · have hx0 : x = 0 := abs_eq_zero.mp (le_antisymm (not_lt.mp h0) (abs_nonneg x))
      rw [hx0, fl_zero]
      simp only [sub_zero, abs_zero, zero_div, zero_add]
      exact hp.le

theorem normal_of_ge (x : ℚ) (k : Int) (hk : -1022 ≤ k) (hx : (2 : ℚ) ^ k ≤ x) :
    (2 : ℚ) ^ (-1022 : Int) ≤ |x| := by
  have h1 : (2 : ℚ) ^ (-1022 : Int) ≤ (2 : ℚ) ^ k := zpow_le_zpow_right₀ (by norm_num) hk
  have h2 : (0 : ℚ) < (2 : ℚ) ^ k := zpow_pos (by norm_num) _
  rw [abs_of_pos (lt_of_lt_of_le h2 hx)]
  exact h1.trans hx

theorem scaled_error (n : ℚ) (hn : 0 ≤ n) :
    |fl (fl (n + EPSILON) * 100) - n * 100| ≤ tieMargin n := by
  have hE : EPSILON = 1 / 4503599627370496 := by unfold EPSILON; norm_num
  have h52 : (2 : ℚ) ^ (-52 : Int) = 1 / 4503599627370496 := by norm_num
  have h53 : (2 : ℚ) ^ (-53 : Int) = 1 / 9007199254740992 := by norm_num
  have hp53 : (2 : ℚ) ^ 53 = 9007199254740992 := by norm_num
  have hpos : 0 < n + EPSILON := by rw [hE]; positivity
  have hs1 : (2 : ℚ) ^ (-1022 : Int) ≤ |n + EPSILON| :=
    normal_of_ge _ (-52) (by norm_num) (by rw [h52]; linarith)
  have h1 := fl_rel_error (n + EPSILON) hs1
  rw [abs_of_pos hpos, abs_le, hp53] at h1
  obtain ⟨h1a, h1b⟩ := h1
  generalize fl (n + EPSILON) = a at h1a h1b ⊢
  have ha : (2 : ℚ) ^ (-53 : Int) ≤ a * 100 := by
    rw [h53]
    linarith
  have hapos : 0 < a * 100 := lt_of_lt_of_le (zpow_pos (by norm_num) _) ha
  have h2 := fl_rel_error (a * 100) (normal_of_ge _ (-53) (by norm_num) ha)
  rw [abs_of_pos hapos, abs_le, hp53] at h2
  obtain ⟨h2a, h2b⟩ := h2
  generalize fl (a * 100) = b at h2a h2b ⊢
  have hm : tieMargin n = 100 * (n + 1) / 2251799813685248 := by
    unfold tieMargin; norm_num
  rw [hm, abs_le]
  constructor <;> linarith

theorem round2Cents_near (n : ℚ) (hn : 0 ≤ n) :
    |(round2Cents n : ℚ) - n * 100| ≤ 1 / 2 + tieMargin n := by
  have hs := scaled_error n hn
  rw [abs_le] at hs ⊢
  have hfl := Int.floor_le (fl (fl (n + EPSILON) * 100) + 1 / 2)
  have hlt := Int.lt_floor_add_one (fl (fl (n + EPSILON) * 100) + 1 / 2)
  unfold round2Cents mathRound
  constructor <;> linarith

theorem round2Cents_clear (n : ℚ) (hn : 0 ≤ n) (hc : clearOfTieFl n) :
    round2Cents n = ⌊n * 100 + 1 / 2⌋ := by
  have hs := scaled_error n hn
  rw [abs_le] at hs
  obtain ⟨hc1, hc2⟩ := hc
  have hf : n * 100 + 1 / 2 = (⌊n * 100 + 1 / 2⌋ : ℚ) + Int.fract (n * 100 + 1 / 2) :=
    (Int.floor_add_fract _).symm
  unfold round2Cents mathRound
  rw [Int.floor_eq_iff]
  constructor <;> linarith

theorem fl_eq (x : ℚ) (e m : Int) (he : -1022 ≤ e) (h1 : (2 : ℚ) ^ e ≤ |x|)
    (h2 : |x| < (2 : ℚ) ^ (e + 1)) (hm : roundHalfEven (x / (2 : ℚ) ^ (e - 52)) = m) :
    fl x = (m : ℚ) * (2 : ℚ) ^ (e - 52) := by
  have hpos : 0 < |x| := lt_of_lt_of_le (zpow_pos (by norm_num) _) h1
  have hlog : Int.log 2 |x| = e := by
    apply le_antisymm
    · have := (Int.lt_zpow_iff_log_lt (b := 2) (by norm_num) hpos (x := e + 1)).mp
        (by exact_mod_cast h2)
      omega
    · exact (Int.zpow_le_iff_le_log (b := 2) (by norm_num) hpos).mp (by exact_mod_cast h1)
  have hb : binade x = e := by
    unfold binade
    rw [hlog]
    exact max_eq_left he
  unfold fl
  rw [hb, hm]

theorem calcTotalPriceFl_hours_nonneg (precioHora precioDia : Option ℚ) (startAt endAt : Time)
    (mode : BillingMode) :
    0 ≤ (calcTotalPriceFl precioHora precioDia startAt endAt mode).hours
      ∧ 1 ≤ (calcTotalPriceFl precioHora precioDia startAt endAt mode).days := by
  cases mode <;> exact ⟨le_max_left _ _, le_max_left _ _⟩

theorem hourTotalFl_nonneg (precioHora precioDia : Option ℚ) (startAt endAt : Time)
    (hph : 0 ≤ precioHora.getD 0) : 0 ≤ hourTotalFl precioHora precioDia startAt endAt :=
  fl_nonneg _ (mul_nonneg (calcTotalPriceFl_hours_nonneg _ _ _ _ _).1 (fl_nonneg _ hph))

theorem dayTotalFl_nonneg (precioHora precioDia : Option ℚ) (startAt endAt : Time)
    (hpd : 0 ≤ precioDia.getD 0) : 0 ≤ dayTotalFl precioHora precioDia startAt endAt := by
  have h1 := (calcTotalPriceFl_hours_nonneg precioHora precioDia startAt endAt
    BillingMode.DIA).2
  have h2 : (0 : ℚ) ≤ ((calcTotalPriceFl precioHora precioDia startAt endAt
      BillingMode.DIA).days : ℚ) := by exact_mod_cast (by omega : (0 : Int) ≤ _)
  exact fl_nonneg _ (mul_nonneg h2 (fl_nonneg _ hpd))

theorem round2Fl_clear (n : ℚ) (hn : 0 ≤ n) (hc : clearOfTieFl n) :
    round2Fl n = fl (roundHalfUp2 n) := by
  have h := round2Cents_clear n hn hc
  unfold round2Cents at h
  unfold round2Fl roundHalfUp2
  rw [h]

/-- C2, as stated, fails, in both directions.  At an hourly rate of
5764607523034234 / 2^60 (a binary64 value just below half a cent) and a span of one
hour, HORA mode returns the binary64 value of 0.01, while the product rounds
half-up to 0.  At an hourly rate of 0.61 and a span of 3 h 30 min it returns the
binary64 value of 2.13, while 3.5 times 0.61 is 2.135 and rounds half-up to 2.14. -/
theorem calcTotalPriceFl_half_up_counterexample :
    ((calcTotalPriceFl (some (5764607523034234 / 2 ^ 60)) (some 1) 0 3600000
          BillingMode.HORA).total = fl (1 / 100)
        ∧ (calcTotalPriceFl (some (5764607523034234 / 2 ^ 60)) (some 1) 0 3600000
            BillingMode.HORA).hours = 1
        ∧ fl (5764607523034234 / 2 ^ 60) = 5764607523034234 / 2 ^ 60
        ∧ roundHalfUp2 (1 * (5764607523034234 / 2 ^ 60)) = 0
        ∧ fl (1 / 100) ≠ fl 0)
      ∧ ((calcTotalPriceFl (some (61 / 100)) (some 1) 0 12600000 BillingMode.HORA).total
          = fl (213 / 100)
        ∧ (calcTotalPriceFl (some (61 / 100)) (some 1) 0 12600000 BillingMode.HORA).hours
          = 7 / 2
        ∧ roundHalfUp2 (7 / 2 * (61 / 100)) = 214 / 100
        ∧ fl (213 / 100) ≠ fl (214 / 100)) := by
  have e1 : fl (5764607523034234 / 2 ^ 60) = 5764607523034234 / 2 ^ 60 := by decide!
  have e0 : (((3600000 - 0 : Int) : ℚ)) = 3600000 := by norm_num
  have e2 : fl 3600000 = 3600000 := by
    rw [fl_eq 3600000 21 7730941132800000 (by norm_num) (by norm_num) (by norm_num) (by decide!)]
    norm_num
  have e3 : fl (3600000 / (1000 * 60 * 60)) = 1 := by decide!
  have e4 : max (0 : ℚ) 1 = 1 := by decide!
  have e5 : fl (1 * (5764607523034234 / 2 ^ 60)) = 5764607523034234 / 2 ^ 60 := by decide!
  have e6 : fl (5764607523034234 / 2 ^ 60 + EPSILON) = 5764607523034490 / 2 ^ 60 := by decide!
  have e7 : fl (5764607523034490 / 2 ^ 60 * 100) = 4503599627370695 / 2 ^ 53 := by decide!
  have e8 : mathRound (4503599627370695 / 2 ^ 53) = 1 := by decide!
  have f0 : (((12600000 - 0 : Int) : ℚ)) = 12600000 := by norm_num
  have f1 : fl (61 / 100) = 5494391545392005 / 2 ^ 53 := by decide!
  have f2 : fl 12600000 = 12600000 := by
    rw [fl_eq 12600000 23 6764573491200000 (by norm_num) (by norm_num) (by norm_num)
      (by decide!)]
    norm_num
  have f3 : fl (12600000 / (1000 * 60 * 60)) = 7 / 2 := by decide!
  have f4 : max (0 : ℚ) (7 / 2) = 7 / 2 := by decide!
  have f5 : fl (7 / 2 * (5494391545392005 / 2 ^ 53)) = 1201898150554501 / 2 ^ 49 := by decide!
  have f6 : fl (1201898150554501 / 2 ^ 49 + EPSILON) = 1201898150554501 / 2 ^ 49 := by decide!
  have f7 : fl (1201898150554501 / 2 ^ 49 * 100) = 7511863440965631 / 2 ^ 45 := by
    rw [fl_eq (1201898150554501 / 2 ^ 49 * 100) 7 7511863440965631 (by norm_num)
      (by norm_num [abs_of_pos]) (by norm_num [abs_of_pos]) (by decide!)]
    norm_num
  have f8 : mathRound (7511863440965631 / 2 ^ 45) = 213 := by decide!
  refine ⟨⟨?_, ?_, e1, by decide!, by decide!⟩, ⟨?_, ?_, by decide!, by decide!⟩⟩
  · simp only [calcTotalPriceFl, round2Fl, Option.getD, e0, e1, e2, e3, e4, e5, e6, e7, e8]
    norm_num
  · simp only [calcTotalPriceFl, Option.getD, e0, e2, e3, e4]
  · simp only [calcTotalPriceFl, round2Fl, Option.getD, f0, f1, f2, f3, f4, f5, f6, f7, f8]
    norm_num
  · simp only [calcTotalPriceFl, Option.getD, f0, f2, f3, f4]

/-- C2, amended: with every operation rounded to binary64 and for rates that are
not negative (rates and span in a range without overflow), `calcTotalPrice` returns
`hours = max(0, diffMs / 3600000)` and `days = max(1, ceil(hours / 24))` as computed
in binary64; the products `hourTotal = hours * pricePerHour` and
`dayTotal = days * pricePerDay` are the exact products rounded to binary64; the
total is the binary64 value nearest to `k / 100` for the whole number of cents
`k = Math.round((x + Number.EPSILON) * 100)` of the product `x`, which lies within
`1 / 2 + tieMargin x` of `100 * x`; and the total is the half-up rounding of `x` to
two decimals (as a binary64 value) whenever `x` is clear of a half-cent tie. -/
theorem calcTotalPriceFl_total (precioHora precioDia : Option ℚ) (startAt endAt : Time)
    (hph : 0 ≤ precioHora.getD 0) (hpd : 0 ≤ precioDia.getD 0)
    (_hrangeHour : precioHora.getD 0 ≤ 2 ^ 500) (_hrangeDay : precioDia.getD 0 ≤ 2 ^ 500)
    (_hrangeSpan : |endAt - startAt| ≤ 2 ^ 54) :
    ((calcTotalPriceFl precioHora precioDia startAt endAt BillingMode.HORA).hours
          = max 0 (fl (fl ((endAt - startAt : Int) : ℚ) / (1000 * 60 * 60)))
        ∧ (calcTotalPriceFl precioHora precioDia startAt endAt BillingMode.DIA).hours
          = max 0 (fl (fl ((endAt - startAt : Int) : ℚ) / (1000 * 60 * 60)))
        ∧ (calcTotalPriceFl precioHora precioDia startAt endAt BillingMode.HORA).days
          = max 1 ⌈fl ((calcTotalPriceFl precioHora precioDia startAt endAt
              BillingMode.HORA).hours / 24)⌉
        ∧ (calcTotalPriceFl precioHora precioDia startAt endAt BillingMode.DIA).days
          = max 1 ⌈fl ((calcTotalPriceFl precioHora precioDia startAt endAt
              BillingMode.DIA).hours / 24)⌉)
      ∧ (|hourTotalFl precioHora precioDia startAt endAt
            - (calcTotalPriceFl precioHora precioDia startAt endAt BillingMode.HORA).hours
              * fl (precioHora.getD 0)|
          ≤ (calcTotalPriceFl precioHora precioDia startAt endAt BillingMode.HORA).hours
              * fl (precioHora.getD 0) / 2 ^ 53 + (2 : ℚ) ^ (-1075 : Int)
        ∧ |dayTotalFl precioHora precioDia startAt endAt
            - ((calcTotalPriceFl precioHora precioDia startAt endAt BillingMode.DIA).days : ℚ)
              * fl (precioDia.getD 0)|
          ≤ ((calcTotalPriceFl precioHora precioDia startAt endAt BillingMode.DIA).days : ℚ)
              * fl (precioDia.getD 0) / 2 ^ 53 + (2 : ℚ) ^ (-1075 : Int))
      ∧ ((calcTotalPriceFl precioHora precioDia startAt endAt BillingMode.HORA).total
          = fl ((round2Cents (hourTotalFl precioHora precioDia startAt endAt) : ℚ) / 100)
        ∧ (calcTotalPriceFl precioHora precioDia startAt endAt BillingMode.DIA).total
          = fl ((round2Cents (dayTotalFl precioHora precioDia startAt endAt) : ℚ) / 100))
      ∧ (|(round2Cents (hourTotalFl precioHora precioDia startAt endAt) : ℚ)
            - hourTotalFl precioHora precioDia startAt endAt * 100|
          ≤ 1 / 2 + tieMargin (hourTotalFl precioHora precioDia startAt endAt)
        ∧ |(round2Cents (dayTotalFl precioHora precioDia startAt endAt) : ℚ)
            - dayTotalFl precioHora precioDia startAt endAt * 100|
          ≤ 1 / 2 + tieMargin (dayTotalFl precioHora precioDia startAt endAt))
      ∧ (clearOfTieFl (hourTotalFl precioHora precioDia startAt endAt) →
          (calcTotalPriceFl precioHora precioDia startAt endAt BillingMode.HORA).total
            = fl (roundHalfUp2 (hourTotalFl precioHora precioDia startAt endAt)))
      ∧ (clearOfTieFl (dayTotalFl precioHora precioDia startAt endAt) →
          (calcTotalPriceFl precioHora precioDia startAt endAt BillingMode.DIA).total
            = fl (roundHalfUp2 (dayTotalFl precioHora precioDia startAt endAt))) := by
  have hH := hourTotalFl_nonneg precioHora precioDia startAt endAt hph
  have hD := dayTotalFl_nonneg precioHora precioDia startAt endAt hpd
  have hn := calcTotalPriceFl_hours_nonneg precioHora precioDia startAt endAt
  have hpH : 0 ≤ (calcTotalPriceFl precioHora precioDia startAt endAt BillingMode.HORA).hours
      * fl (precioHora.getD 0) := mul_nonneg (hn BillingMode.HORA).1 (fl_nonneg _ hph)
  have hpD : 0 ≤ ((calcTotalPriceFl precioHora precioDia startAt endAt
      BillingMode.DIA).days : ℚ) * fl (precioDia.getD 0) := by
    have h2 : (0 : ℚ) ≤ ((calcTotalPriceFl precioHora precioDia startAt endAt
        BillingMode.DIA).days : ℚ) := by
      exact_mod_cast (le_trans (by norm_num) (hn BillingMode.DIA).2 : (0 : Int) ≤ _)
    exact mul_nonneg h2 (fl_nonneg _ hpd)
  refine ⟨⟨rfl, rfl, rfl, rfl⟩, ⟨?_, ?_⟩, ⟨rfl, rfl⟩,
    ⟨round2Cents_near _ hH, round2Cents_near _ hD⟩, ?_, ?_⟩
  · have h := fl_abs_error ((calcTotalPriceFl precioHora precioDia startAt endAt
      BillingMode.HORA).hours * fl (precioHora.getD 0))
    rw [abs_of_nonneg hpH] at h
    exact h
  · have h := fl_abs_error (((calcTotalPriceFl precioHora precioDia startAt endAt
      BillingMode.DIA).days : ℚ) * fl (precioDia.getD 0))
    rw [abs_of_nonneg hpD] at h
    exact h
  · intro hc
    exact round2Fl_clear _ hH hc
  · intro hc
    exact round2Fl_clear _ hD hc

/-- Witness for C2 amended: at 0.61 per hour over 1 h 20 min the product, as
computed, is clear of a tie, and the total is the binary64 value of its half-up
rounding, 0.81. -/
theorem calcTotalPriceFl_total_witness :
    hourTotalFl (some (61 / 100)) (some 50) 0 4800000 = 3662927696928003 / 2 ^ 52
      ∧ clearOfTieFl (hourTotalFl (some (61 / 100)) (some 50) 0 4800000)
      ∧ (calcTotalPriceFl (some (61 / 100)) (some 50) 0 4800000 BillingMode.HORA).total
          = fl (roundHalfUp2 (hourTotalFl (some (61 / 100)) (some 50) 0 4800000))
      ∧ roundHalfUp2 (3662927696928003 / 2 ^ 52) = 81 / 100 := by
  have g0 : (((4800000 - 0 : Int) : ℚ)) = 4800000 := by norm_num
  have g1 : fl (61 / 100) = 5494391545392005 / 2 ^ 53 := by decide!
  have g2 : fl 4800000 = 4800000 := by
    rw [fl_eq 4800000 22 5153960755200000 (by norm_num) (by norm_num) (by norm_num)
      (by decide!)]
    norm_num
  have g3 : fl (4800000 / (1000 * 60 * 60)) = 6004799503160661 / 2 ^ 52 := by decide!
  have g4 : max (0 : ℚ) (6004799503160661 / 2 ^ 52) = 6004799503160661 / 2 ^ 52 := by decide!
  have g5 : fl (6004799503160661 / 2 ^ 52 * (5494391545392005 / 2 ^ 53))
      = 3662927696928003 / 2 ^ 52 := by decide!
  have hx : hourTotalFl (some (61 / 100)) (some 50) 0 4800000
      = 3662927696928003 / 2 ^ 52 := by
    simp only [hourTotalFl, calcTotalPriceFl, Option.getD, g0, g1, g2, g3, g4, g5]
  have hc : clearOfTieFl (hourTotalFl (some (61 / 100)) (some 50) 0 4800000) := by
    rw [hx]
    unfold clearOfTieFl tieMargin
    decide!
  exact ⟨hx, hc,
    (calcTotalPriceFl_total (some (61 / 100)) (some 50) 0 4800000 (by decide!) (by decide!)
      (by norm_num [Option.getD]) (by norm_num [Option.getD]) (by decide)).2.2.2.2.1 hc,
    by decide!⟩

end Cicoche
